import Mathlib

/-!
# Idara: the generative-content request pipeline

A shallow embedding of `src/services/geminiService.js`, `src/services/veoService.js`,
`src/utils/validators.js`, `src/utils/promptTemplates.js` and `src/utils/constants.js`, followed
by theorems about the retry loop of `callGeminiAPI`, the notes parser and the two concept
extractors.

Modelling conventions.

* JavaScript strings are Lean strings (sequences of code points); `length` counts UTF-16 code
  units, so a character outside the Basic Multilingual Plane counts twice.
* JavaScript numbers are rationals: no arithmetic is done on them here, they are only tested for
  truthiness, compared with `0` and rendered into strings.  The rendering of a number
  (`Number::toString`) belongs to the engine and is a parameter `fmt` of the model.
* `undefined` is `none` in `JsVal := Option Json`.
* The network is an environment `Nat → Outcome`: the outcome of the `i`-th call of `fetch`.
* `console.warn` and `console.error` calls are not part of the model.
* `JSON.parse` and `JSON.stringify` belong to the engine: the first is a parameter `parse`, the
  second contributes its outcome as an argument.
* The regular expression of `extractSection` is modelled for markers that are literal patterns.
-/

namespace Idara

/-! ## Constants (`src/utils/constants.js`) -/

namespace API_ENDPOINTS

def gemini : String :=
  "https://generativelanguage.googleapis.com/v1beta/models/gemini-1.5-flash-latest:generateContent"

end API_ENDPOINTS

namespace GEMINI_CONFIG

def temperature : ℚ := 2 / 5

def topK : ℚ := 40

def topP : ℚ := 19 / 20

def maxOutputTokens : ℚ := 8192

end GEMINI_CONFIG

namespace ERROR_MESSAGES

def apiKeyMissing : String := "API key not configured. Please add your API key in Settings."

end ERROR_MESSAGES

namespace RATE_LIMIT_CONFIG

def maxRetries : Nat := 4

def initialDelay : Nat := 2000

def maxDelay : Nat := 16000

def backoffMultiplier : Nat := 2

end RATE_LIMIT_CONFIG

/-! ## JavaScript values -/

/-- Error objects as the code sees them: it reads `name` and `message` only. -/
structure JsError where
  name : String
  message : String
deriving DecidableEq, Repr

/-- Values that `JSON.parse` (and so `response.json()`) can produce.  In an object the members are
kept in source order; a later duplicate of a key overrides an earlier one. -/
inductive Json where
  | null : Json
  | bool (b : Bool) : Json
  | num (q : ℚ) : Json
  | str (s : String) : Json
  | arr (xs : List Json) : Json
  | obj (kvs : List (String × Json)) : Json

/-- JavaScript values of the model: `none` is `undefined`. -/
abbrev JsVal := Option Json

/-- The number of UTF-16 code units of a character. -/
def utf16Units (c : Char) : Nat := if c.toNat < 65536 then 1 else 2

/-- The `length` property of a string: its number of UTF-16 code units. -/
def utf16Length (s : String) : Nat := (s.toList.map utf16Units).sum

/-- White space and line terminators of ECMAScript, the characters `String.prototype.trim`
removes. -/
def jsIsWhitespace (c : Char) : Bool :=
  let n := c.toNat
  n == 9 || n == 10 || n == 11 || n == 12 || n == 13 || n == 32 || n == 160 || n == 5760 ||
  (8192 ≤ n && n ≤ 8202) || n == 8232 || n == 8233 || n == 8239 || n == 8287 || n == 12288 ||
  n == 65279

/-- The method `String.prototype.trim`. -/
def jsTrim (s : String) : String :=
  String.mk ((s.toList.dropWhile jsIsWhitespace).reverse.dropWhile jsIsWhitespace).reverse

/-- Whether the second list of characters starts the first. -/
def startsWithChars : List Char → List Char → Bool
  | _, [] => true
  | [], _ :: _ => false
  | c :: cs, p :: ps => c == p && startsWithChars cs ps

/-- Whether the second list of characters occurs as a contiguous block of the first. -/
def includesChars : List Char → List Char → Bool
  | [], pat => startsWithChars [] pat
  | c :: cs, pat => startsWithChars (c :: cs) pat || includesChars cs pat

/-- The method `String.prototype.includes`. -/
def jsIncludes (s pat : String) : Bool := includesChars s.toList pat.toList

/-- JavaScript truthiness (`ToBoolean`). -/
def truthy : JsVal → Bool
  | none => false
  | some .null => false
  | some (.bool b) => b
  | some (.num q) => decide (q ≠ 0)
  | some (.str s) => decide (s ≠ "")
  | some (.arr _) => true
  | some (.obj _) => true

/-- The operator `a || b`. -/
def jsOr (a b : JsVal) : JsVal := if truthy a then a else b

/-- The property names the code reads from response bodies; `index0` is the index `[0]`. -/
inductive Key where
  | error | message | candidates | length | index0 | content | parts | text
deriving DecidableEq, Repr

/-- The property name as a string. -/
def Key.name : Key → String
  | .error => "error"
  | .message => "message"
  | .candidates => "candidates"
  | .length => "length"
  | .index0 => "0"
  | .content => "content"
  | .parts => "parts"
  | .text => "text"

/-- Own property of a parsed object: the last member with that key, `undefined` if there is
none. -/
def lookupOwn (kvs : List (String × Json)) (k : String) : JsVal :=
  (kvs.reverse.find? fun kv => kv.1 == k).map Prod.snd

/-- The `TypeError` of a property read on `undefined` or `null` (message as in V8). -/
def readTypeError (what : String) (k : Key) : JsError :=
  ⟨"TypeError", "Cannot read properties of " ++ what ++ " (reading '" ++ k.name ++ "')"⟩

/-- Property read `v.k` for the keys of `Key`, none of which is defined on a built-in prototype:
it throws on `undefined` and `null`, reads own members of objects, `length` and `[0]` of arrays
and strings, and is `undefined` otherwise.  (For a string whose first character lies outside the
Basic Multilingual Plane `s[0]` is a lone surrogate in JavaScript; the model gives the character.
Either is a non-empty string.) -/
def getProp (v : JsVal) (k : Key) : Except JsError JsVal :=
  match v with
  | none => .error (readTypeError "undefined" k)
  | some .null => .error (readTypeError "null" k)
  | some (.bool _) => .ok none
  | some (.num _) => .ok none
  | some (.str s) =>
    match k with
    | .length => .ok (some (.num (utf16Length s)))
    | .index0 => .ok (s.toList.head?.map fun c => Json.str (String.singleton c))
    | _ => .ok none
  | some (.arr xs) =>
    match k with
    | .length => .ok (some (.num xs.length))
    | .index0 => .ok xs.head?
    | _ => .ok none
  | some (.obj kvs) => .ok (lookupOwn kvs k.name)

/-- Optional chaining `v?.k`: `undefined` when `v` is `undefined` or `null`. -/
def getPropOpt (v : JsVal) (k : Key) : Except JsError JsVal :=
  match v with
  | none => .ok none
  | some .null => .ok none
  | _ => getProp v k

/-- Whether a parsed value is `null`. -/
def Json.isNull : Json → Bool
  | .null => true
  | _ => false

mutual

/-- String conversion `ToString` of a parsed value, as done by a template literal.  An array is
joined with commas; a plain object gives `[object Object]` unless it has an own member named
`toString`, which (never callable in parsed JSON) makes the conversion throw. -/
def jsonToString (fmt : ℚ → String) : Json → Except JsError String
  | .null => .ok "null"
  | .bool b => .ok (if b then "true" else "false")
  | .num q => .ok (fmt q)
  | .str s => .ok s
  | .arr xs => joinToString fmt xs
  | .obj kvs =>
    if (lookupOwn kvs "toString").isSome then
      .error ⟨"TypeError", "Cannot convert object to primitive value"⟩
    else .ok "[object Object]"

/-- The method `Array.prototype.join` with the default separator, elements converted from left
to right: a `null` element gives the empty string. -/
def joinToString (fmt : ℚ → String) : List Json → Except JsError String
  | [] => .ok ""
  | x :: rest =>
    match (if x.isNull then .ok "" else jsonToString fmt x) with
    | .error e => .error e
    | .ok s =>
      if rest.isEmpty then .ok s
      else
        match joinToString fmt rest with
        | .error e => .error e
        | .ok t => .ok (s ++ "," ++ t)

end

/-- String conversion of a value in a template literal. -/
def jsToString (fmt : ℚ → String) : JsVal → Except JsError String
  | none => .ok "undefined"
  | some j => jsonToString fmt j

/-! ## Validation (`src/utils/validators.js`) -/

/-- The result objects of the validators: `isValid`, and `error` when invalid. -/
structure ValidationResult where
  isValid : Bool
  error : Option String
deriving DecidableEq, Repr

/-- The function `validateApiKey`: a falsy or non-string key is required-missing, a string whose
trimmed length is below 20 is too short. -/
def validateApiKey (key : JsVal) : ValidationResult :=
  match key with
  | some (.str k) =>
    if !truthy (some (.str k)) then ⟨false, some "API key is required"⟩
    else if utf16Length (jsTrim k) < 20 then ⟨false, some "API key appears to be too short"⟩
    else ⟨true, none⟩
  | _ => ⟨false, some "API key is required"⟩

/-! ## The request (`callGeminiAPI`, lines 21-46) -/

/-- The `config` argument of `callGeminiAPI`: each field is any value or absent (`undefined`). -/
structure SamplingConfig where
  temperature : JsVal
  topK : JsVal
  topP : JsVal
  maxOutputTokens : JsVal

/-- The default argument `config = {}`. -/
def SamplingConfig.empty : SamplingConfig := ⟨none, none, none, none⟩

/-- The `generationConfig` member of the request body. -/
structure GenerationConfig where
  temperature : JsVal
  topK : JsVal
  topP : JsVal
  maxOutputTokens : JsVal

/-- One element of `parts`. -/
structure Part where
  text : String
deriving DecidableEq, Repr

/-- One element of `contents`. -/
structure Content where
  parts : List Part
deriving DecidableEq, Repr

/-- The object `requestBody`. -/
structure RequestBody where
  contents : List Content
  generationConfig : GenerationConfig

/-- The construction of `requestBody` from the prompt and the sampling config. -/
def buildRequestBody (prompt : String) (config : SamplingConfig) : RequestBody where
  contents := [⟨[⟨prompt⟩]⟩]
  generationConfig :=
    ⟨jsOr config.temperature (some (.num GEMINI_CONFIG.temperature)),
     jsOr config.topK (some (.num GEMINI_CONFIG.topK)),
     jsOr config.topP (some (.num GEMINI_CONFIG.topP)),
     jsOr config.maxOutputTokens (some (.num GEMINI_CONFIG.maxOutputTokens))⟩

/-- One call of `fetch`: the URL (endpoint and key), the method, the content type header and the
body before `JSON.stringify`. -/
structure Request where
  url : String
  method : String
  contentType : String
  body : RequestBody

/-- The request every iteration of the loop sends. -/
def buildRequest (apiKey : String) (body : RequestBody) : Request :=
  ⟨API_ENDPOINTS.gemini ++ "?key=" ++ apiKey, "POST", "application/json", body⟩

/-! ## The network -/

/-- What the code reads of a `Response`: `status`, `statusText`, and the outcome of
`response.json()`, which rejects (malformed body, failed read) or resolves to a parsed value. -/
structure Response where
  status : Nat
  statusText : String
  json : Except JsError Json

/-- The property `response.ok`: the status is in the range 200-299. -/
def Response.ok (r : Response) : Bool := decide (200 ≤ r.status) && decide (r.status ≤ 299)

/-- The outcome of one call of `fetch`: the promise rejects or resolves to a response. -/
inductive Outcome where
  | rejected (e : JsError) : Outcome
  | resolved (r : Response) : Outcome

/-- A network-level failure: `fetch` rejects with a `TypeError` (Fetch standard). -/
def Outcome.isNetworkFailure : Outcome → Bool
  | .rejected e => decide (e.name = "TypeError")
  | .resolved _ => false

/-- A response with the given status. -/
def Outcome.hasStatus (s : Nat) : Outcome → Bool
  | .rejected _ => false
  | .resolved r => decide (r.status = s)

/-! ## The retry loop (`callGeminiAPI`, lines 35-107) -/

/-- The error thrown when a 429 arrives with the retries used up. -/
def rateLimitError : JsError := ⟨"Error", "Rate limit exceeded. Please try again later."⟩

/-- The error thrown when a 500 arrives with the retries used up. -/
def serverError : JsError := ⟨"Error", "Server error. Please try again later."⟩

/-- The error thrown for a success body without candidates. -/
def emptyResponseError : JsError := ⟨"Error", "No response generated"⟩

/-- The error thrown for a status that is not 2xx, 400, 429 or 500. -/
def apiError (response : Response) : JsError :=
  ⟨"Error", "API error: " ++ toString response.status ++ " " ++ response.statusText⟩

/-- Lines 62-63 after `response.json()` resolved to `error`: the error that
`throw new Error(...)` raises, or the `TypeError` raised while its message is computed. -/
def invalidRequestError (fmt : ℚ → String) (error : Json) : JsError :=
  match getProp (some error) .error with
  | .error e => e
  | .ok inner =>
    match getPropOpt inner .message with
    | .error e => e
    | .ok msg =>
      match jsToString fmt (jsOr msg (some (.str "Bad request"))) with
      | .error e => e
      | .ok s => ⟨"Error", "Invalid request: " ++ s⟩

/-- The comparison `v === 0`. -/
def strictEqZero : JsVal → Bool
  | some (.num q) => decide (q = 0)
  | _ => false

/-- Lines 84-89 on the parsed success body `data`: the returned text, or the error thrown. -/
def extractText (data : Json) : Except JsError JsVal :=
  match getProp (some data) .candidates with
  | .error e => .error e
  | .ok candidates =>
    if !truthy candidates then .error emptyResponseError
    else
      match getProp candidates .length with
      | .error e => .error e
      | .ok len =>
        if strictEqZero len then .error emptyResponseError
        else
          match getProp candidates .index0 with
          | .error e => .error e
          | .ok first =>
            match getProp first .content with
            | .error e => .error e
            | .ok content =>
              match getProp content .parts with
              | .error e => .error e
              | .ok parts =>
                match getProp parts .index0 with
                | .error e => .error e
                | .ok part => getProp part .text

/-- How one pass through the body of the `while` loop ends: a wait of `slept` ms followed by
`continue` with the new `delay` and `retries`, a `return`, or a `throw`. -/
inductive Step where
  | retry (slept delay retries : Nat) : Step
  | returned (v : JsVal) : Step
  | threw (e : JsError) : Step

/-- The `try` block (lines 40-89) for the outcome `o` of its `fetch`; `threw` is an exception
raised inside the block, which the `catch` clause receives. -/
def tryBlock (fmt : ℚ → String) (o : Outcome) (retries delay : Nat) : Step :=
  match o with
  | .rejected e => .threw e
  | .resolved response =>
    if response.status = 429 then
      if retries < RATE_LIMIT_CONFIG.maxRetries then
        .retry delay
          (min (delay * RATE_LIMIT_CONFIG.backoffMultiplier) RATE_LIMIT_CONFIG.maxDelay)
          (retries + 1)
      else .threw rateLimitError
    else if response.status = 400 then
      match response.json with
      | .error e => .threw e
      | .ok error => .threw (invalidRequestError fmt error)
    else if response.status = 500 then
      if retries < RATE_LIMIT_CONFIG.maxRetries then .retry delay delay (retries + 1)
      else .threw serverError
    else if !response.ok then .threw (apiError response)
    else
      match response.json with
      | .error e => .threw e
      | .ok data =>
        match extractText data with
        | .error e => .threw e
        | .ok text => .returned text

/-- The `catch` clause (lines 91-106); `threw` leaves the function. -/
def catchBlock (error : JsError) (retries delay : Nat) : Step :=
  if retries ≥ RATE_LIMIT_CONFIG.maxRetries then .threw error
  else if error.name = "TypeError" || jsIncludes error.message "fetch" then
    .retry delay
      (min (delay * RATE_LIMIT_CONFIG.backoffMultiplier) RATE_LIMIT_CONFIG.maxDelay)
      (retries + 1)
  else .threw error

/-- One pass through the loop body: the `try` block, and the `catch` clause if it threw. -/
def iteration (fmt : ℚ → String) (o : Outcome) (retries delay : Nat) : Step :=
  match tryBlock fmt o retries delay with
  | .threw e => catchBlock e retries delay
  | s => s

/-- How a call of `callGeminiAPI` ends: it returns a value, throws, or leaves the `while` loop
through its condition and ends without a `return` statement. -/
inductive Completion where
  | returned (v : JsVal) : Completion
  | threw (e : JsError) : Completion
  | loopExited : Completion

/-- The observable behaviour of one call: the requests sent, the waits in ms, and the result. -/
structure Trace where
  requests : List Request
  sleeps : List Nat
  result : Completion

/-- The `while (retries <= maxRetries)` loop.  `sent` and `slept` are the requests and waits so
far; the `fetch` of an iteration gets the outcome `env sent.length`.  The first argument bounds
the number of iterations; `none` means the bound was reached. -/
def retryLoop (fmt : ℚ → String) (env : Nat → Outcome) (req : Request) :
    Nat → Nat → Nat → List Request → List Nat → Option Trace
  | 0, _, _, _, _ => none
  | fuel + 1, retries, delay, sent, slept =>
    if retries ≤ RATE_LIMIT_CONFIG.maxRetries then
      match iteration fmt (env sent.length) retries delay with
      | .retry d delay1 retries1 =>
        retryLoop fmt env req fuel retries1 delay1 (sent ++ [req]) (slept ++ [d])
      | .returned v => some ⟨sent ++ [req], slept, .returned v⟩
      | .threw e => some ⟨sent ++ [req], slept, .threw e⟩
    else some ⟨sent, slept, .loopExited⟩

/-- The function `callGeminiAPI`.  `apiKey` is `import.meta.env.VITE_GEMINI_API_KEY`, a string or
`undefined`; in the URL it is rendered by a template literal. -/
def callGeminiAPI (fmt : ℚ → String) (env : Nat → Outcome) (fuel : Nat)
    (apiKey : Option String) (prompt : String) (config : SamplingConfig) : Option Trace :=
  if !(validateApiKey (apiKey.map Json.str)).isValid then
    some ⟨[], [], .threw ⟨"Error", ERROR_MESSAGES.apiKeyMissing⟩⟩
  else
    retryLoop fmt env (buildRequest (apiKey.getD "undefined") (buildRequestBody prompt config))
      fuel 0 RATE_LIMIT_CONFIG.initialDelay [] []

/-! ## The notes parser (`geminiService.js`, lines 149-179) -/

/-- Case-insensitive match of a text character `c` against a pattern character `p` under the
flag `i` without the flag `u`: the characters are equal, or one is an ASCII capital letter and
the other its small letter.  This is the comparison of the canonical forms of the
regular-expression standard whenever `p` is an ASCII character or a character without case
variants, which is so for every marker of `parseNotesResponse`. -/
def sameLetter (p c : Char) : Bool :=
  p == c ||
  (65 ≤ p.toNat && p.toNat ≤ 90 && c.toNat == p.toNat + 32) ||
  (65 ≤ c.toNat && c.toNat ≤ 90 && p.toNat == c.toNat + 32)

/-- Whether `occ` is an occurrence of the literal pattern `pat`: the same length, and the
characters match case-insensitively one by one. -/
def equalsFold : List Char → List Char → Bool
  | [], [] => true
  | p :: ps, c :: cs => sameLetter p c && equalsFold ps cs
  | _, _ => false

/-- Whether the text starts with an occurrence of the literal pattern, case-insensitively. -/
def startsWithFold : List Char → List Char → Bool
  | _, [] => true
  | [], _ :: _ => false
  | c :: cs, p :: ps => sameLetter p c && startsWithFold cs ps

/-- Whether the text contains an occurrence of the literal pattern, case-insensitively. -/
def includesFold : List Char → List Char → Bool
  | [], pat => startsWithFold [] pat
  | c :: cs, pat => startsWithFold (c :: cs) pat || includesFold cs pat

/-- The lookahead `(?=\n#{1,2}|\n[0-9]\.|$)` at the start of the remaining text: a newline
followed by `#`, a newline followed by a digit and a dot, or the end of the text (`$` without
the flag `m`). -/
def lookaheadHolds : List Char → Bool
  | [] => true
  | c :: rest =>
    c == '\n' &&
      match rest with
      | [] => false
      | d :: rest2 => d == '#' || (d.isDigit && rest2.head? == some '.')

/-- The lazy `[\s\S]*?` before the lookahead: the shortest run of characters after which the
lookahead holds. -/
def lazyBody : List Char → List Char
  | [] => []
  | c :: cs => if lookaheadHolds (c :: cs) then [] else c :: lazyBody cs

/-- The regular expression of `extractSection` tried at the start of the text: the marker, then
the lazy body. -/
def matchAt (pat text : List Char) : Option (List Char) :=
  if startsWithFold text pat then
    some (text.take pat.length ++ lazyBody (text.drop pat.length))
  else none

/-- The method `text.match(regex)` for a regular expression without the flag `g`: the match at
the leftmost position where the expression matches, `none` for `null`. -/
def regexMatch (pat : List Char) : List Char → Option (List Char)
  | [] => matchAt pat []
  | c :: cs =>
    match matchAt pat (c :: cs) with
    | some m => some m
    | none => regexMatch pat cs

/-- The function `extractSection`.  A marker is spliced into the source of the regular
expression; the model takes it as a literal, which is what the expression means when the marker
has no character with a meaning in regular expressions (see `isLiteralMarker`). -/
def extractSection (text : String) : List String → String
  | [] => ""
  | marker :: rest =>
    match regexMatch marker.toList text.toList with
    | some m => jsTrim (String.mk m)
    | none => extractSection text rest

/-- Characters with a meaning of their own in the source of a regular expression. -/
def regexSpecialChars : List Char :=
  ['\\', '^', '$', '.', '|', '?', '*', '+', '(', ')', '[', ']', '\x7b', '\x7d', '/']

/-- Characters that stand for themselves in a regular expression and match, under the flag `i`,
exactly their ASCII case variants: the printable ASCII characters without a meaning in regular
expressions, and the seven symbols of the section headings. -/
def isMarkerChar (c : Char) : Bool :=
  (decide (32 ≤ c.toNat) && decide (c.toNat ≤ 126) && !regexSpecialChars.contains c) ||
  c == '📋' || c == '🎯' || c == '📐' || c == '📖' || c == '❓' || c == '⚡' || c == '💡'

/-- Markers that the regular expression of `extractSection` reads as literals. -/
def isLiteralMarker (marker : String) : Bool := marker.toList.all isMarkerChar

/-- The characters that `jsTrim` keeps. -/
def trimChars (l : List Char) : List Char :=
  ((l.dropWhile jsIsWhitespace).reverse.dropWhile jsIsWhitespace).reverse

/-- Patterns that begin and end with a character other than white space. -/
def isTrimSafe (pat : List Char) : Bool :=
  match pat.head?, pat.getLast? with
  | some a, some b => !jsIsWhitespace a && !jsIsWhitespace b
  | _, _ => false

/-- The function `parseNotesResponse`: the object literal, as the list of its members in source
order. -/
def parseNotesResponse (response : String) : List (String × String) :=
  [("summary", extractSection response ["EXECUTIVE SUMMARY", "📋"]),
   ("concepts", extractSection response ["KEY CONCEPTS", "🎯"]),
   ("formulas", extractSection response ["FORMULAS & EQUATIONS", "📐", "FORMULAS"]),
   ("definitions", extractSection response ["DEFINITIONS & TERMINOLOGY", "📖", "DEFINITIONS"]),
   ("questions", extractSection response ["PRACTICE QUESTIONS", "❓"]),
   ("reviewPoints", extractSection response ["QUICK REVIEW POINTS", "⚡"]),
   ("studyTips", extractSection response ["STUDY TIPS", "💡"])]

/-- The sections of `parseNotesResponse`: each key with its marker list. -/
def sectionMarkers : List (String × List String) :=
  [("summary", ["EXECUTIVE SUMMARY", "📋"]),
   ("concepts", ["KEY CONCEPTS", "🎯"]),
   ("formulas", ["FORMULAS & EQUATIONS", "📐", "FORMULAS"]),
   ("definitions", ["DEFINITIONS & TERMINOLOGY", "📖", "DEFINITIONS"]),
   ("questions", ["PRACTICE QUESTIONS", "❓"]),
   ("reviewPoints", ["QUICK REVIEW POINTS", "⚡"]),
   ("studyTips", ["STUDY TIPS", "💡"])]

/-- Member read `o.k` on an object with string members: the last member with that key,
`undefined` (`none`) if there is none. -/
def getMember (o : List (String × String)) (k : String) : Option String :=
  (o.reverse.find? fun kv => kv.1 == k).map Prod.snd

/-! ## The local concept extractor (`veoService.js`, lines 99-134) -/

/-- The concept objects the extractor builds. -/
structure Concept where
  title : String
  description : String
  selected : Bool
deriving DecidableEq, Repr

/-- The notes object as the extractor reads it: the member `structured`, absent or an object
with string members (the result of `parseNotesResponse`). -/
structure Notes where
  structured : Option (List (String × String))

/-- The method `split` with the separator `\n`, on the characters of a string. -/
def splitLines : List Char → List (List Char)
  | [] => [[]]
  | c :: cs =>
    if c == '\n' then [] :: splitLines cs
    else
      match splitLines cs with
      | [] => [[c]]
      | l :: ls => (c :: l) :: ls

/-- The method `conceptText.split` with the separator `\n`. -/
def jsSplitLines (s : String) : List String := (splitLines s.toList).map String.mk

/-- The method `substring(0, n)`: the longest run of leading characters that fits into `n` UTF-16
code units.  (When a character outside the Basic Multilingual Plane straddles the bound,
JavaScript keeps its first half as well, a lone surrogate that a Lean string cannot hold.) -/
def takeUnits : Nat → List Char → List Char
  | _, [] => []
  | n, c :: cs => if utf16Units c ≤ n then c :: takeUnits (n - utf16Units c) cs else []

/-- The method `cleaned.substring(0, n)`. -/
def jsSubstringTo (n : Nat) (s : String) : String := String.mk (takeUnits n s.toList)

/-- The character class `[-*•]`. -/
def isBulletChar (c : Char) : Bool := c == '-' || c == '*' || c == '•'

/-- The test `line.match(/^[-*•]/)`. -/
def startsWithBullet : List Char → Bool
  | [] => false
  | c :: _ => isBulletChar c

/-- The test `line.match(/^\d+\./)`: one or more digits and then a dot. -/
def startsWithNumber (line : List Char) : Bool :=
  !(line.takeWhile Char.isDigit).isEmpty && (line.dropWhile Char.isDigit).head? == some '.'

/-- The call `line.replace(/^[-*•\d.]\s*/, '')`: one leading character of the class (a bullet, a
digit or a dot) is removed together with the white space after it. -/
def stripListMarker : List Char → List Char
  | [] => []
  | c :: rest =>
    if isBulletChar c || c.isDigit || c == '.' then rest.dropWhile jsIsWhitespace
    else c :: rest

/-- The body of the loop over the lines (lines 108-117) with `concepts` as it stands. -/
def pushLineConcept (concepts : List Concept) (line : String) : List Concept :=
  if startsWithBullet line.toList || startsWithNumber line.toList then
    let cleaned := jsTrim (String.mk (stripListMarker line.toList))
    if utf16Length cleaned > 10 then
      concepts ++ [⟨jsSubstringTo 100 cleaned, cleaned, decide (concepts.length < 3)⟩]
    else concepts
  else concepts

/-- The entry pushed for the formulas section. -/
def formulasConcept : Concept :=
  ⟨"Mathematical Formulas Visualization",
   "Visual representation of key formulas and equations", false⟩

namespace veoService

/-- The array `concepts` after the first `if` (lines 103-119). -/
def lineConcepts (notes : Notes) : List Concept :=
  match notes.structured with
  | none => []
  | some structured =>
    match getMember structured "concepts" with
    | none => []
    | some conceptText =>
      if conceptText = "" then []
      else
        let lines := (jsSplitLines conceptText).filter fun line => decide (jsTrim line ≠ "")
        (lines.take 5).foldl pushLineConcept []

/-- What the second `if` (lines 122-131) pushes. -/
def formulaConcepts (notes : Notes) : List Concept :=
  match notes.structured with
  | none => []
  | some structured =>
    match getMember structured "formulas" with
    | none => []
    | some formulaText =>
      if formulaText = "" then []
      else if !jsIncludes formulaText "No formulas" then [formulasConcept]
      else []

/-- The function `extractVisualConcepts` of `veoService.js`. -/
def extractVisualConcepts (notes : Notes) : List Concept :=
  (lineConcepts notes ++ formulaConcepts notes).take 5

end veoService

/-! ## The model-backed concept extractor (`geminiService.js`, lines 186-204) -/

/-- The function `extractConceptsPrompt` of `promptTemplates.js`, given the text that
`JSON.stringify(notes, null, 2)` contributes to the template. -/
def extractConceptsPrompt (notesJson : String) : String :=
  "Analyze the following lecture notes and identify the top 3-5 concepts that would benefit most from visual animation.\n\nNOTES:\n"
  ++ notesJson ++
  "\n\nFor each concept:\n1. Choose concepts that are:\n   - Visual in nature (can be illustrated/animated)\n   - Complex enough to benefit from visualization\n   - Core to understanding the lecture topic\n\n2. Provide:\n   - Concept title (concise, 3-8 words)\n   - Brief description (1-2 sentences)\n   - Why it's good for visualization (1 sentence)\n\nReturn ONLY a JSON array in this format:\n[\n  \x7b\n    \"title\": \"Concept Title\",\n    \"description\": \"Brief description of the concept\",\n    \"reason\": \"Why this concept benefits from visualization\"\n  \x7d\n]\n\nExtract concepts now:"

namespace geminiService

/-- Lines 191-199 for the value `response` that `callGeminiAPI` resolved to.  `JSON.parse` is the
parameter `parse`; it is applied to the string conversion of its argument, and every exception
in the inner `try` gives the empty array. -/
def parseConcepts (parse : String → Except JsError Json) (fmt : ℚ → String)
    (response : JsVal) : List Json :=
  match jsToString fmt response with
  | .error _ => []
  | .ok s =>
    match parse s with
    | .error _ => []
    | .ok (.arr concepts) => concepts
    | .ok _ => []

/-- The function `extractVisualConcepts` of `geminiService.js`.  `notesJson` is the outcome of
`JSON.stringify(notes, null, 2)` inside `extractConceptsPrompt`: its text in the template, or the
exception it throws.  The result is `none` when the retry loop runs out of fuel, and otherwise
the value the promise resolves to (`.ok`) or rejects with (`.error`). -/
def extractVisualConcepts (parse : String → Except JsError Json) (fmt : ℚ → String)
    (env : Nat → Outcome) (fuel : Nat) (apiKey : Option String)
    (notesJson : Except JsError String) : Option (Except JsError (List Json)) :=
  match notesJson with
  | .error _ => some (.ok [])
  | .ok s =>
    match callGeminiAPI fmt env fuel apiKey (extractConceptsPrompt s) SamplingConfig.empty with
    | none => none
    | some t =>
      match t.result with
      | .threw _ => some (.ok [])
      | .returned response => some (.ok (parseConcepts parse fmt response))
      | .loopExited => some (.ok (parseConcepts parse fmt none))

end geminiService

/-! ## More constants (`src/utils/constants.js`) -/

namespace STORAGE_CONFIG

def maxAudioSize : Nat := 100 * 1024 * 1024

end STORAGE_CONFIG

namespace UI_CONSTANTS

def minTranscriptLength : Nat := 50

def maxTitleLength : Nat := 100

end UI_CONSTANTS

namespace ERROR_MESSAGES

def invalidTranscript : String :=
  "Transcript is too short or invalid. Please record more content."

end ERROR_MESSAGES

/-! ## More validators (`src/utils/validators.js`) -/

/-- The function `validateTranscript`: a falsy or non-string text is empty or invalid, a string
whose trimmed length is below the minimum is too short. -/
def validateTranscript (text : JsVal) : ValidationResult :=
  match text with
  | some (.str t) =>
    if !truthy (some (.str t)) then ⟨false, some "Transcript is empty or invalid"⟩
    else if utf16Length (jsTrim t) < UI_CONSTANTS.minTranscriptLength then
      ⟨false, some ("Transcript must be at least " ++ toString UI_CONSTANTS.minTranscriptLength
        ++ " characters long")⟩
    else ⟨true, none⟩
  | _ => ⟨false, some "Transcript is empty or invalid"⟩

/-- The argument of `validateAudioBlob`: a `Blob`, of which the code reads `size` and `type`, or
any other value. -/
inductive BlobArg where
  | blob (size : Nat) (type : String) : BlobArg
  | other (v : JsVal) : BlobArg

/-- The function `validateAudioBlob`.  A value that is falsy or not an instance of `Blob` is
invalid; a `Blob` is an object and so truthy. -/
def validateAudioBlob : BlobArg → ValidationResult
  | .other _ => ⟨false, some "Invalid audio blob"⟩
  | .blob size type =>
    if size = 0 then ⟨false, some "Audio blob is empty"⟩
    else if size > STORAGE_CONFIG.maxAudioSize then
      ⟨false, some ("Audio file is too large (max "
        ++ toString (STORAGE_CONFIG.maxAudioSize / 1024 / 1024) ++ "MB)")⟩
    else if !jsIncludes type "audio" then ⟨false, some "File is not an audio type"⟩
    else ⟨true, none⟩

/-- The function `validateTitle`. -/
def validateTitle (title : JsVal) : ValidationResult :=
  match title with
  | some (.str t) =>
    if !truthy (some (.str t)) then ⟨false, some "Title is required"⟩
    else if utf16Length (jsTrim t) = 0 then ⟨false, some "Title cannot be empty"⟩
    else if utf16Length (jsTrim t) > UI_CONSTANTS.maxTitleLength then
      ⟨false, some ("Title must be less than " ++ toString UI_CONSTANTS.maxTitleLength
        ++ " characters")⟩
    else ⟨true, none⟩
  | _ => ⟨false, some "Title is required"⟩

/-! ## The prompt builders (`src/utils/promptTemplates.js`) -/

/-- The operator `a || b` for a string or `undefined` on the left and a string on the right. -/
def orDefault (a : Option String) (b : String) : String :=
  match a with
  | some s => if s = "" then b else s
  | none => b

/-- The lecture metadata: each member is a string or absent. -/
structure Metadata where
  title : Option String
  date : Option String
  duration : Option String

/-- The default argument `metadata = \x7b\x7d`. -/
def Metadata.empty : Metadata := ⟨none, none, none⟩

/-- The text of the notes prompt up to the transcript. -/
def notesPromptHead : String :=
  "You are an expert educational assistant helping students study from lecture transcripts. Analyze the following lecture transcript and generate comprehensive, structured study notes.\n\nTRANSCRIPT:\n"

/-- The text of the notes prompt from the metadata on: the request for the seven sections and
the format instructions. -/
def notesPromptTail : String :=
  "\n\nGenerate structured notes with the following sections:\n\n1. 📋 EXECUTIVE SUMMARY\nWrite a concise 2-3 sentence summary of the main topic and purpose of this lecture.\n\n2. 🎯 KEY CONCEPTS\nList 1-10 key concepts covered in this lecture. For each concept:\n- Provide the concept title\n- Include a brief explanation (2-3 sentences)\n- Add a relevant example if applicable\n\n3. 📐 FORMULAS & EQUATIONS\nIf the lecture contains mathematical formulas, equations, or scientific notation:\n- List each formula with its name\n- Provide the formula in standard notation\n- Add a brief description of what each variable represents\n(If no formulas are present, write \"No formulas covered in this lecture\")\n\n4. 📖 DEFINITIONS & TERMINOLOGY\nList important terms and definitions in alphabetical order:\n- Term: Definition\nInclude 5-15 key terms depending on lecture content.\n\n5. ❓ PRACTICE QUESTIONS\nGenerate 10 practice questions across three difficulty levels:\n- 3 Basic questions (test fundamental understanding)\n- 4 Intermediate questions (test application of concepts)\n- 3 Advanced questions (test critical thinking and synthesis)\n\nFor each question, indicate the difficulty level.\n\n6. ⚡ QUICK REVIEW POINTS\nCreate 5-7 bullet points summarizing the most important takeaways for quick revision.\n\n7. 💡 STUDY TIPS\nProvide 2-3 specific study recommendations based on this lecture content:\n- How to best review this material\n- Connections to make with other topics\n- Practical application suggestions\n\nFORMAT INSTRUCTIONS:\n- Use clear markdown formatting\n- Use bullet points, numbered lists, and headers appropriately\n- Be concise but comprehensive\n- Focus on educational value and exam preparation\n- Maintain academic tone\n\nGenerate the notes now:"

/-- The function `generateNotesPrompt`. -/
def generateNotesPrompt (transcript : String) (metadata : Metadata) : String :=
  notesPromptHead ++ transcript ++ "\n\nMETADATA:\n- Title: "
    ++ orDefault metadata.title "Untitled Lecture" ++ "\n- Date: "
    ++ orDefault metadata.date "Unknown" ++ "\n- Duration: "
    ++ orDefault metadata.duration "Unknown" ++ notesPromptTail

/-- The object `styleDescriptions`. -/
def styleDescriptions : List (String × String) :=
  [("educational",
    "Clean educational whiteboard animation style with hand-drawn illustrations, vibrant colors, and smooth transitions. Professional yet engaging."),
   ("3d",
    "Stunning 3D animation with realistic rendering, dynamic camera movements, and cinematic lighting. Professional educational production quality."),
   ("infographic",
    "Modern flat design infographic style with bold colors, geometric shapes, icons, and animated data visualizations. Clean and professional.")]

/-- The names of the function-valued properties that every object literal inherits from
`Object.prototype`. -/
def objectPrototypeFunctions : List String :=
  ["constructor", "hasOwnProperty", "isPrototypeOf", "propertyIsEnumerable", "toLocaleString",
   "toString", "valueOf", "__defineGetter__", "__defineSetter__", "__lookupGetter__",
   "__lookupSetter__"]

/-- The read `styleDescriptions[style]` as a template literal renders it, `none` for
`undefined`.  An own member gives its description.  The name of an inherited member gives that
member, which is truthy: `__proto__` gives `Object.prototype`, rendered `[object Object]`, and
the name of an inherited function gives the function, whose rendering belongs to the engine and
is the parameter `nativeSource`. -/
def lookupStyle (nativeSource : String → String) (style : String) : Option String :=
  match getMember styleDescriptions style with
  | some description => some description
  | none =>
    if style = "__proto__" then some "[object Object]"
    else if objectPrototypeFunctions.contains style then some (nativeSource style)
    else none

/-- The options of `generateVeoPrompt`: each member is absent or given. -/
structure VeoOptions where
  style : Option String
  duration : Option ℚ

/-- The function `generateVeoPrompt` of `promptTemplates.js`. -/
def generateVeoPrompt (nativeSource : String → String) (fmt : ℚ → String) (concept : String)
    (options : VeoOptions) : String :=
  let style := options.style.getD "educational"
  let duration := options.duration.getD 30
  "You are an expert at creating video prompts for educational content. Based on the following concept, create a detailed, specific video prompt for Veo 3 that will generate a "
    ++ fmt duration ++ "-second educational animation.\n\nCONCEPT TO VISUALIZE:\n"
    ++ concept ++ "\n\nSTYLE: "
    ++ ((lookupStyle nativeSource style).getD
        ((getMember styleDescriptions "educational").getD "undefined"))
    ++ "\n\nCreate a prompt that includes:\n1. Opening scene description\n2. Main visual elements and their animations\n3. Text overlays or labels to include\n4. Color scheme and visual style\n5. Transitions and camera movements\n6. Closing scene\n\nThe video should be educational, engaging, and visually clear. Focus on helping students understand the concept through visual storytelling.\n\nGenerate the video prompt now (200-300 words):"

/-! ## Note generation (`geminiService.js`, lines 116-142) -/

/-- The object `generateNotes` returns; `generatedAt` is the reading of `Date.now()`. -/
structure GeneratedNotes where
  raw : String
  structured : List (String × String)
  generatedAt : Nat
  model : String
  tokenCount : Nat

/-- The observable behaviour of one call of `generateNotes`: the requests sent, the waits in ms,
and the value it resolves to or the error it rejects with. -/
structure NotesRun where
  requests : List Request
  sleeps : List Nat
  result : Except JsError GeneratedNotes

/-- Lines 126-138 for the value `response` that `callGeminiAPI` resolved to.  On a value that is
not a string the call `text.match` in `extractSection` throws a `TypeError` (message as in V8). -/
def buildNotes (now : Nat) (response : JsVal) : Except JsError GeneratedNotes :=
  match response with
  | some (.str r) =>
    .ok ⟨r, parseNotesResponse r, now, "gemini-1.5-flash", (utf16Length r + 3) / 4⟩
  | none => .error ⟨"TypeError", "Cannot read properties of undefined (reading 'match')"⟩
  | some .null => .error ⟨"TypeError", "Cannot read properties of null (reading 'match')"⟩
  | some _ => .error ⟨"TypeError", "text.match is not a function"⟩

/-- The function `generateNotes`.  `now` is the reading of `Date.now()`; `Math.ceil(n / 4)` is
`(n + 3) / 4` on natural numbers.  The result is `none` when the retry loop runs out of fuel.
(A value that passes `validateTranscript` is a string, so the second alternative of the match
is the rejection of an invalid transcript.) -/
def generateNotes (fmt : ℚ → String) (env : Nat → Outcome) (fuel : Nat)
    (apiKey : Option String) (now : Nat) (transcript : JsVal) (metadata : Metadata) :
    Option NotesRun :=
  let validation := validateTranscript transcript
  match validation.isValid, transcript with
  | true, some (.str t) =>
    match callGeminiAPI fmt env fuel apiKey (generateNotesPrompt t metadata)
        SamplingConfig.empty with
    | none => none
    | some trace =>
      match trace.result with
      | .threw e => some ⟨trace.requests, trace.sleeps, .error e⟩
      | .returned response => some ⟨trace.requests, trace.sleeps, buildNotes now response⟩
      | .loopExited => some ⟨trace.requests, trace.sleeps, buildNotes now none⟩
  | _, _ =>
    some ⟨[], [], .error ⟨"Error", orDefault validation.error ERROR_MESSAGES.invalidTranscript⟩⟩

/-! ## The layout the notes prompt asks for -/

/-- What the lookahead of `extractSection` wants after a newline: `#`, or a digit and a dot. -/
def startsItem : List Char → Bool
  | [] => false
  | d :: rest => d == '#' || (d.isDigit && rest.head? == some '.')

/-- Whether the text holds no newline that is followed, within the text, by `#` or by a digit
and a dot. -/
def boundaryFree : List Char → Bool
  | [] => true
  | c :: cs => !(c == '\n' && startsItem cs) && boundaryFree cs

/-- Whether the text holds, in any letter case, a marker of some section. -/
def containsSectionMarker (body : List Char) : Bool :=
  sectionMarkers.any fun s => s.2.any fun m => includesFold body m.toList

/-- The bodies for which the layout is read back: no section marker, no newline followed by `#`
or by a digit and a dot, and no `#` or digit and dot at the start. -/
def isPlainBody (body : String) : Bool :=
  !containsSectionMarker body.toList && boundaryFree body.toList && !startsItem body.toList

/-- A response in the layout of `generateNotesPrompt`: the seven numbered headings in order,
each on a line of its own and followed by its body. -/
def promptLayout (b1 b2 b3 b4 b5 b6 b7 : String) : String :=
  "1. 📋 EXECUTIVE SUMMARY" ++ "\n" ++ b1 ++ "\n" ++
  "2. 🎯 KEY CONCEPTS" ++ "\n" ++ b2 ++ "\n" ++
  "3. 📐 FORMULAS & EQUATIONS" ++ "\n" ++ b3 ++ "\n" ++
  "4. 📖 DEFINITIONS & TERMINOLOGY" ++ "\n" ++ b4 ++ "\n" ++
  "5. ❓ PRACTICE QUESTIONS" ++ "\n" ++ b5 ++ "\n" ++
  "6. ⚡ QUICK REVIEW POINTS" ++ "\n" ++ b6 ++ "\n" ++
  "7. 💡 STUDY TIPS" ++ "\n" ++ b7

/-- The response of the end-to-end scenario for the concept text `t`. -/
def bulletResponse (t : String) : String :=
  "🎯 KEY CONCEPTS\n- " ++ t ++ "\n📐 FORMULAS\nNo formulas covered"

/-! ## Classes of outcomes used in the statements -/

/-- Outcomes whose retry doubles the delay: a 429 response or a network failure. -/
def Outcome.isBackoff (o : Outcome) : Bool := o.hasStatus 429 || o.isNetworkFailure

/-- The error that ends the call when a backoff outcome arrives with the retries used up. -/
def Outcome.finalError : Outcome → JsError
  | .rejected e => e
  | .resolved _ => rateLimitError

/-! ## Concrete inputs -/

/-- A rendering of numbers for concrete inputs: it agrees with `Number::toString` on the integers
of magnitude below `2 ^ 53`, and no concrete input below holds any other number. -/
def fmtInteger (q : ℚ) : String := toString q.num

/-- A key that `validateApiKey` accepts. -/
def sampleKey : String := "AIzaSyA-0123456789abcdefghij"

/-- The request sent for `sampleKey`, the prompt `"p"` and no sampling config. -/
def sampleRequest : Request :=
  buildRequest sampleKey (buildRequestBody "p" SamplingConfig.empty)

/-- A server that answers every request with the same response. -/
def constantServer (r : Response) : Nat → Outcome := fun _ => .resolved r

/-- A network on which every `fetch` rejects with the same error. -/
def brokenNetwork (e : JsError) : Nat → Outcome := fun _ => .rejected e

/-- The rejection of `fetch` on a connection failure (name per the Fetch standard, message as in
Chromium). -/
def failedToFetch : JsError := ⟨"TypeError", "Failed to fetch"⟩

/-- A success body with the single candidate text `s`. -/
def successBody (s : String) : Json :=
  .obj [("candidates", .arr [.obj [("content", .obj [("parts", .arr [.obj [("text", .str s)]])])]])]

/-- A 429 response with the body the service sends. -/
def response429 : Response :=
  ⟨429, "Too Many Requests",
    .ok (.obj [("error", .obj [("code", .num 429), ("message", .str "Resource has been exhausted"),
      ("status", .str "RESOURCE_EXHAUSTED")])])⟩

/-- A 500 response with the body the service sends. -/
def response500 : Response :=
  ⟨500, "Internal Server Error",
    .ok (.obj [("error", .obj [("code", .num 500), ("message", .str "Internal error encountered."),
      ("status", .str "INTERNAL")])])⟩

/-- A network failure on the first `fetch`, then 429 responses. -/
def failureThen429 : Nat → Outcome
  | 0 => .rejected failedToFetch
  | _ + 1 => .resolved response429

/-- A network failure, a 500, a 429, and then success bodies with the text `"notes"`. -/
def mixedThenSuccess : Nat → Outcome
  | 0 => .rejected failedToFetch
  | 1 => .resolved response500
  | 2 => .resolved response429
  | _ + 3 => .resolved ⟨200, "OK", .ok (successBody "notes")⟩

/-- A 400 response whose error message contains the word `fetch`. -/
def response400 : Response :=
  ⟨400, "Bad Request",
    .ok (.obj [("error", .obj [("code", .num 400),
      ("message", .str "Unable to fetch the file at the given URI."),
      ("status", .str "INVALID_ARGUMENT")])])⟩

/-- A 502 response of a gateway whose reason phrase contains the word `fetch`. -/
def response502 : Response :=
  ⟨502, "Upstream fetch failed", .error ⟨"SyntaxError", "Unexpected end of JSON input"⟩⟩

/-- A 200 response whose only candidate has no `content` (a blocked generation). -/
def response200Blocked : Response :=
  ⟨200, "OK",
    .ok (.obj [("candidates", .arr [.obj [("finishReason", .str "SAFETY"), ("index", .num 0)]])])⟩

/-- A response text that is a JSON array of six concept titles. -/
def sixConceptsText : String :=
  "[\"Glycolysis\",\"Krebs cycle\",\"Electron transport\",\"ATP synthase\",\"Fermentation\",\"Chemiosmosis\"]"

/-- The array that `sixConceptsText` parses to. -/
def sixConcepts : List Json :=
  [.str "Glycolysis", .str "Krebs cycle", .str "Electron transport", .str "ATP synthase",
   .str "Fermentation", .str "Chemiosmosis"]

/-- The function `JSON.parse` on the texts used at concrete inputs: `sixConceptsText` parses to
`sixConcepts`; any other text used below is not JSON and is rejected with a `SyntaxError`. -/
def sampleParse (s : String) : Except JsError Json :=
  if s = sixConceptsText then .ok (.arr sixConcepts)
  else .error ⟨"SyntaxError", "Unexpected token"⟩

/-- A server that answers every request with status 200 and the single candidate text `s`. -/
def textServer (s : String) : Nat → Outcome := constantServer ⟨200, "OK", .ok (successBody s)⟩

/-- Notes whose concepts section is empty and whose formulas section holds a formula. -/
def formulasOnlyNotes : Notes :=
  ⟨some [("concepts", ""), ("formulas", "📐 FORMULAS\nE = mc^2")]⟩

/-- Notes with four bullet items in the concepts section and a formula. -/
def fourBulletNotes : Notes :=
  ⟨some [("concepts",
      "KEY CONCEPTS\n- Glycolysis splits glucose\n- Krebs cycle oxidises acetyl-CoA\n- Electron transport chain\n- ATP synthase makes ATP"),
    ("formulas", "📐 FORMULAS\nE = mc^2")]⟩

/-- Notes whose concepts section is one numbered item. -/
def numberedItemNotes : Notes :=
  ⟨some [("concepts", "1. Photosynthesis converts light")]⟩

/-- The remainder of the text after the first occurrence of `pat`, `none` when `pat` does not
occur. -/
def dropThrough (pat : List Char) : List Char → Option (List Char)
  | [] => if pat.isEmpty then some [] else none
  | c :: cs =>
    if startsWithChars (c :: cs) pat then some ((c :: cs).drop pat.length)
    else dropThrough pat cs

/-- Whether the patterns occur in the text one after the other, in the order of the list. -/
def occursInOrder : List (List Char) → List Char → Bool
  | [], _ => true
  | pat :: pats, text =>
    match dropThrough pat text with
    | some rest => occursInOrder pats rest
    | none => false

/-- The seven headings of `generateNotesPrompt`. -/
def promptHeadings : List String :=
  ["1. 📋 EXECUTIVE SUMMARY", "2. 🎯 KEY CONCEPTS", "3. 📐 FORMULAS & EQUATIONS",
   "4. 📖 DEFINITIONS & TERMINOLOGY", "5. ❓ PRACTICE QUESTIONS", "6. ⚡ QUICK REVIEW POINTS",
   "7. 💡 STUDY TIPS"]

/-- A title of exactly 100 characters. -/
def hundredCharTitle : String := String.mk (List.replicate 100 'a')

/-- The rendering of an inherited native function in V8. -/
def v8NativeSource (name : String) : String := "function " ++ name ++ "() \x7b [native code] \x7d"

/-- The prompt `generateVeoPrompt` builds for the concept `ATP synthesis`, 30 seconds and the
style text `style`. -/
def veoPromptWith (style : String) : String :=
  "You are an expert at creating video prompts for educational content. Based on the following concept, create a detailed, specific video prompt for Veo 3 that will generate a 30-second educational animation.\n\nCONCEPT TO VISUALIZE:\nATP synthesis\n\nSTYLE: "
  ++ style ++
  "\n\nCreate a prompt that includes:\n1. Opening scene description\n2. Main visual elements and their animations\n3. Text overlays or labels to include\n4. Color scheme and visual style\n5. Transitions and camera movements\n6. Closing scene\n\nThe video should be educational, engaging, and visually clear. Focus on helping students understand the concept through visual storytelling.\n\nGenerate the video prompt now (200-300 words):"

/-! ## Lemmas on one iteration and on the loop -/

/-- A backoff outcome with retries left: wait `delay`, double it up to the cap, count the retry. -/
theorem iteration_backoff_lt (fmt : ℚ → String) (o : Outcome) (retries delay : Nat)
    (ho : o.isBackoff = true) (hr : retries < 4) :
    iteration fmt o retries delay = .retry delay (min (delay * 2) 16000) (retries + 1) := by
  cases o with
  | rejected e =>
    have hn : e.name = "TypeError" := by
      simpa [Outcome.isBackoff, Outcome.hasStatus, Outcome.isNetworkFailure] using ho
    have hr2 : ¬ 4 ≤ retries := by omega
    simp [iteration, tryBlock, catchBlock, RATE_LIMIT_CONFIG.maxRetries,
      RATE_LIMIT_CONFIG.backoffMultiplier, RATE_LIMIT_CONFIG.maxDelay, hn, hr2]
  | resolved r =>
    have hs : r.status = 429 := by
      simpa [Outcome.isBackoff, Outcome.hasStatus, Outcome.isNetworkFailure] using ho
    simp [iteration, tryBlock, RATE_LIMIT_CONFIG.maxRetries,
      RATE_LIMIT_CONFIG.backoffMultiplier, RATE_LIMIT_CONFIG.maxDelay, hs, hr]

/-- A backoff outcome with the retries used up: the error leaves the function. -/
theorem iteration_backoff_last (fmt : ℚ → String) (o : Outcome) (delay : Nat)
    (ho : o.isBackoff = true) :
    iteration fmt o 4 delay = .threw o.finalError := by
  cases o with
  | rejected e =>
    simp [iteration, tryBlock, catchBlock, RATE_LIMIT_CONFIG.maxRetries, Outcome.finalError]
  | resolved r =>
    have hs : r.status = 429 := by
      simpa [Outcome.isBackoff, Outcome.hasStatus, Outcome.isNetworkFailure] using ho
    simp [iteration, tryBlock, catchBlock, RATE_LIMIT_CONFIG.maxRetries, Outcome.finalError, hs]

/-- A 500 response with retries left: wait `delay`, keep it, count the retry. -/
theorem iteration_500_lt (fmt : ℚ → String) (r : Response) (retries delay : Nat)
    (hs : r.status = 500) (hr : retries < 4) :
    iteration fmt (.resolved r) retries delay = .retry delay delay (retries + 1) := by
  simp [iteration, tryBlock, RATE_LIMIT_CONFIG.maxRetries, hs, hr]

/-- A 500 response with the retries used up: the server error leaves the function. -/
theorem iteration_500_last (fmt : ℚ → String) (r : Response) (delay : Nat)
    (hs : r.status = 500) :
    iteration fmt (.resolved r) 4 delay = .threw serverError := by
  simp [iteration, tryBlock, catchBlock, RATE_LIMIT_CONFIG.maxRetries, hs]

/-- An iteration that ends with `continue` had retries left and used one. -/
theorem iteration_retry_inv (fmt : ℚ → String) (o : Outcome) (retries delay d d1 r1 : Nat)
    (h : iteration fmt o retries delay = .retry d d1 r1) :
    retries < 4 ∧ r1 = retries + 1 := by
  unfold iteration at h
  split at h
  · rename_i e he
    unfold catchBlock at h
    simp only [RATE_LIMIT_CONFIG.maxRetries] at h
    split at h
    · cases h
    · split at h
      · cases h
        exact ⟨by omega, rfl⟩
      · cases h
  · rename_i s hs
    unfold tryBlock at h
    simp only [RATE_LIMIT_CONFIG.maxRetries] at h
    split at h
    · cases h
    · split at h
      · split at h
        · cases h
          exact ⟨by assumption, rfl⟩
        · cases h
      · split at h
        · split at h <;> cases h
        · split at h
          · split at h
            · cases h
              exact ⟨by assumption, rfl⟩
            · cases h
          · split at h
            · cases h
            · split at h
              · cases h
              · split at h <;> cases h

/-- One unfolding of the loop when the iteration ends with `continue`. -/
theorem retryLoop_retry (fmt : ℚ → String) (env : Nat → Outcome) (req : Request)
    (fuel retries delay : Nat) (sent : List Request) (slept : List Nat) (d d1 r1 : Nat)
    (hr : retries ≤ 4) (hit : iteration fmt (env sent.length) retries delay = .retry d d1 r1) :
    retryLoop fmt env req (fuel + 1) retries delay sent slept
      = retryLoop fmt env req fuel r1 d1 (sent ++ [req]) (slept ++ [d]) := by
  simp [retryLoop, RATE_LIMIT_CONFIG.maxRetries, hr, hit]

/-- One unfolding of the loop when the iteration throws. -/
theorem retryLoop_threw (fmt : ℚ → String) (env : Nat → Outcome) (req : Request)
    (fuel retries delay : Nat) (sent : List Request) (slept : List Nat) (e : JsError)
    (hr : retries ≤ 4) (hit : iteration fmt (env sent.length) retries delay = .threw e) :
    retryLoop fmt env req (fuel + 1) retries delay sent slept
      = some ⟨sent ++ [req], slept, .threw e⟩ := by
  simp [retryLoop, RATE_LIMIT_CONFIG.maxRetries, hr, hit]

/-- One unfolding of the loop when the iteration returns. -/
theorem retryLoop_returned (fmt : ℚ → String) (env : Nat → Outcome) (req : Request)
    (fuel retries delay : Nat) (sent : List Request) (slept : List Nat) (v : JsVal)
    (hr : retries ≤ 4) (hit : iteration fmt (env sent.length) retries delay = .returned v) :
    retryLoop fmt env req (fuel + 1) retries delay sent slept
      = some ⟨sent ++ [req], slept, .returned v⟩ := by
  simp [retryLoop, RATE_LIMIT_CONFIG.maxRetries, hr, hit]

/-- With a valid key the call is the retry loop started at `retries = 0`, `delay = 2000`. -/
theorem callGeminiAPI_valid (fmt : ℚ → String) (env : Nat → Outcome) (fuel : Nat)
    (key prompt : String) (config : SamplingConfig)
    (hkey : (validateApiKey (some (.str key))).isValid = true) :
    callGeminiAPI fmt env fuel (some key) prompt config
      = retryLoop fmt env (buildRequest key (buildRequestBody prompt config)) fuel 0 2000 [] [] := by
  simp [callGeminiAPI, hkey, RATE_LIMIT_CONFIG.initialDelay]

/-- Five backoff outcomes in a row: five requests, the waits 2000, 4000, 8000, 16000, and the
error of the fifth outcome. -/
theorem retryLoop_backoff (fmt : ℚ → String) (env : Nat → Outcome) (req : Request) (fuel : Nat)
    (hfuel : 4 < fuel) (h : ∀ i, i < 5 → (env i).isBackoff = true) :
    retryLoop fmt env req fuel 0 2000 [] []
      = some ⟨[req, req, req, req, req], [2000, 4000, 8000, 16000], .threw (env 4).finalError⟩ := by
  obtain ⟨f, rfl⟩ : ∃ f, fuel = f + 5 := ⟨fuel - 5, by omega⟩
  have h0 := iteration_backoff_lt fmt (env 0) 0 2000 (h 0 (by omega)) (by omega)
  have h1 := iteration_backoff_lt fmt (env 1) 1 4000 (h 1 (by omega)) (by omega)
  have h2 := iteration_backoff_lt fmt (env 2) 2 8000 (h 2 (by omega)) (by omega)
  have h3 := iteration_backoff_lt fmt (env 3) 3 16000 (h 3 (by omega)) (by omega)
  have h4 := iteration_backoff_last fmt (env 4) 16000 (h 4 (by omega))
  norm_num at h0 h1 h2 h3
  simp [retryLoop, RATE_LIMIT_CONFIG.maxRetries, h0, h1, h2, h3, h4]

/-- Five 500 responses in a row: five requests, four waits of the unchanged delay, and the server
error. -/
theorem retryLoop_500 (fmt : ℚ → String) (env : Nat → Outcome) (req : Request) (fuel : Nat)
    (hfuel : 4 < fuel) (h : ∀ i, i < 5 → (env i).hasStatus 500 = true) :
    retryLoop fmt env req fuel 0 2000 [] []
      = some ⟨[req, req, req, req, req], [2000, 2000, 2000, 2000], .threw serverError⟩ := by
  obtain ⟨f, rfl⟩ : ∃ f, fuel = f + 5 := ⟨fuel - 5, by omega⟩
  have key : ∀ i, i < 5 → ∃ r, env i = .resolved r ∧ r.status = 500 := by
    intro i hi
    have hi5 := h i hi
    cases hei : env i with
    | rejected e => simp [hei, Outcome.hasStatus] at hi5
    | resolved r => exact ⟨r, rfl, by simpa [hei, Outcome.hasStatus] using hi5⟩
  obtain ⟨r0, e0, s0⟩ := key 0 (by omega)
  obtain ⟨r1, e1, s1⟩ := key 1 (by omega)
  obtain ⟨r2, e2, s2⟩ := key 2 (by omega)
  obtain ⟨r3, e3, s3⟩ := key 3 (by omega)
  obtain ⟨r4, e4, s4⟩ := key 4 (by omega)
  have h0 := iteration_500_lt fmt r0 0 2000 s0 (by omega)
  have h1 := iteration_500_lt fmt r1 1 2000 s1 (by omega)
  have h2 := iteration_500_lt fmt r2 2 2000 s2 (by omega)
  have h3 := iteration_500_lt fmt r3 3 2000 s3 (by omega)
  have h4 := iteration_500_last fmt r4 2000 s4
  norm_num at h0 h1 h2 h3
  simp [retryLoop, RATE_LIMIT_CONFIG.maxRetries, e0, e1, e2, e3, e4, h0, h1, h2, h3, h4]

/-- The loop, started with `retries ≤ 4` and enough fuel, ends with a `return` or a `throw` after
at least one and at most `5 - retries` further requests and at most `4 - retries` further waits,
one wait between two consecutive requests. -/
theorem retryLoop_bounded (fmt : ℚ → String) (env : Nat → Outcome) (req : Request) :
    ∀ (fuel retries delay : Nat) (sent : List Request) (slept : List Nat),
      retries ≤ 4 → 4 - retries < fuel →
      ∃ t, retryLoop fmt env req fuel retries delay sent slept = some t ∧
        sent.length + 1 ≤ t.requests.length ∧
        t.requests.length + retries ≤ sent.length + 5 ∧
        t.sleeps.length + retries ≤ slept.length + 4 ∧
        t.requests.length + slept.length = t.sleeps.length + sent.length + 1 ∧
        ((∃ v, t.result = .returned v) ∨ (∃ e, t.result = .threw e)) := by
  intro fuel
  induction fuel with
  | zero => intro retries delay sent slept hr hf; omega
  | succ fuel ih =>
    intro retries delay sent slept hr hf
    cases hit : iteration fmt (env sent.length) retries delay with
    | retry d d1 r1 =>
      obtain ⟨hlt, rfl⟩ := iteration_retry_inv fmt _ _ _ _ _ _ hit
      rw [retryLoop_retry fmt env req fuel retries delay sent slept d d1 _ hr hit]
      obtain ⟨t, ht, h1, h2, h3, h4, h5⟩ :=
        ih (retries + 1) d1 (sent ++ [req]) (slept ++ [d]) (by omega) (by omega)
      refine ⟨t, ht, ?_, ?_, ?_, ?_, h5⟩
      · simp at h1; omega
      · simp at h2; omega
      · simp at h3; omega
      · simp at h4; omega
    | returned v =>
      rw [retryLoop_returned fmt env req fuel retries delay sent slept v hr hit]
      exact ⟨_, rfl, by simp, by simp; omega, by simp; omega, by simp; omega, Or.inl ⟨v, rfl⟩⟩
    | threw e =>
      rw [retryLoop_threw fmt env req fuel retries delay sent slept e hr hit]
      exact ⟨_, rfl, by simp, by simp; omega, by simp; omega, by simp; omega, Or.inr ⟨e, rfl⟩⟩

/-! ## Theorems on `callGeminiAPI` -/

/-- C1: with a valid API key and a server that answers every request with status 429,
`callGeminiAPI` sends exactly 5 requests (all the same request), waits 2000, 4000, 8000 and
16000 ms before the four retries, and throws the rate-limit error. -/
theorem callGeminiAPI_sustained_429 (fmt : ℚ → String) (env : Nat → Outcome) (fuel : Nat)
    (key prompt : String) (config : SamplingConfig)
    (hkey : (validateApiKey (some (.str key))).isValid = true)
    (hfuel : RATE_LIMIT_CONFIG.maxRetries < fuel)
    (h429 : ∀ i, (env i).hasStatus 429 = true) :
    callGeminiAPI fmt env fuel (some key) prompt config
      = some ⟨List.replicate 5 (buildRequest key (buildRequestBody prompt config)),
          [2000, 4000, 8000, 16000],
          .threw ⟨"Error", "Rate limit exceeded. Please try again later."⟩⟩ := by
  have hb : ∀ i, i < 5 → (env i).isBackoff = true := fun i _ => by
    simp [Outcome.isBackoff, h429 i]
  have h4 : (env 4).finalError = rateLimitError := by
    have := h429 4
    cases hei : env 4 with
    | rejected e => simp [hei, Outcome.hasStatus] at this
    | resolved r => rfl
  rw [callGeminiAPI_valid fmt env fuel key prompt config hkey,
    retryLoop_backoff fmt env _ fuel hfuel hb, h4]
  rfl

/-- The theorem `callGeminiAPI_sustained_429` at a server that always answers `response429`. -/
theorem callGeminiAPI_sustained_429_witness :
    (validateApiKey (some (.str sampleKey))).isValid = true ∧
    RATE_LIMIT_CONFIG.maxRetries < 5 ∧
    (∀ i, (constantServer response429 i).hasStatus 429 = true) ∧
    callGeminiAPI fmtInteger (constantServer response429) 5 (some sampleKey) "p"
        SamplingConfig.empty
      = some ⟨List.replicate 5 sampleRequest, [2000, 4000, 8000, 16000],
          .threw ⟨"Error", "Rate limit exceeded. Please try again later."⟩⟩ :=
  ⟨by decide, by decide, fun _ => rfl,
    callGeminiAPI_sustained_429 fmtInteger (constantServer response429) 5 sampleKey "p"
      SamplingConfig.empty (by decide) (by decide) (fun _ => rfl)⟩

/-- C2 (code at the failing input): a server that answers 400 with an error message containing
`fetch`.  The `Invalid request` error thrown at line 63 is caught by the `catch` clause of the
same loop, whose network-error test `error.message.includes` of `fetch` accepts it: the call
waits 2000, 4000, 8000 and 16000 ms and sends 5 requests before the error leaves it. -/
theorem callGeminiAPI_400_retried :
    callGeminiAPI fmtInteger (constantServer response400) 5 (some sampleKey) "p"
        SamplingConfig.empty
      = some ⟨List.replicate 5 sampleRequest, [2000, 4000, 8000, 16000],
          .threw ⟨"Error", "Invalid request: Unable to fetch the file at the given URI."⟩⟩ := by
  rfl

/-- C3 (as stated, refuted): on sustained 500 responses the waits are not 2000, 4000, 8000,
16000; every wait is 2000 ms. -/
theorem callGeminiAPI_sustained_500_not_doubling :
    (callGeminiAPI fmtInteger (constantServer response500) 5 (some sampleKey) "p"
        SamplingConfig.empty).map Trace.sleeps = some [2000, 2000, 2000, 2000] ∧
    (callGeminiAPI fmtInteger (constantServer response500) 5 (some sampleKey) "p"
        SamplingConfig.empty).map Trace.sleeps ≠ some [2000, 4000, 8000, 16000] := by
  constructor
  · rfl
  · intro h
    have h2 : (callGeminiAPI fmtInteger (constantServer response500) 5 (some sampleKey) "p"
        SamplingConfig.empty).map Trace.sleeps = some [2000, 2000, 2000, 2000] := rfl
    rw [h2] at h
    simp at h

/-- C3 (amended): on sustained 500 responses `callGeminiAPI` waits 2000 ms before each of its
four retries (the 500 branch does not double the delay), sends 5 requests in total, and throws
the server error. -/
theorem callGeminiAPI_sustained_500 (fmt : ℚ → String) (env : Nat → Outcome) (fuel : Nat)
    (key prompt : String) (config : SamplingConfig)
    (hkey : (validateApiKey (some (.str key))).isValid = true)
    (hfuel : RATE_LIMIT_CONFIG.maxRetries < fuel)
    (h500 : ∀ i, (env i).hasStatus 500 = true) :
    callGeminiAPI fmt env fuel (some key) prompt config
      = some ⟨List.replicate 5 (buildRequest key (buildRequestBody prompt config)),
          [2000, 2000, 2000, 2000],
          .threw ⟨"Error", "Server error. Please try again later."⟩⟩ := by
  rw [callGeminiAPI_valid fmt env fuel key prompt config hkey,
    retryLoop_500 fmt env _ fuel hfuel (fun i _ => h500 i)]
  rfl

/-- The theorem `callGeminiAPI_sustained_500` at a server that always answers `response500`. -/
theorem callGeminiAPI_sustained_500_witness :
    (validateApiKey (some (.str sampleKey))).isValid = true ∧
    RATE_LIMIT_CONFIG.maxRetries < 5 ∧
    (∀ i, (constantServer response500 i).hasStatus 500 = true) ∧
    callGeminiAPI fmtInteger (constantServer response500) 5 (some sampleKey) "p"
        SamplingConfig.empty
      = some ⟨List.replicate 5 sampleRequest, [2000, 2000, 2000, 2000],
          .threw ⟨"Error", "Server error. Please try again later."⟩⟩ :=
  ⟨by decide, by decide, fun _ => rfl,
    callGeminiAPI_sustained_500 fmtInteger (constantServer response500) 5 sampleKey "p"
      SamplingConfig.empty (by decide) (by decide) (fun _ => rfl)⟩

/-- C4: for every sequence of per-attempt outcomes, a call with a valid key sends at least 1 and
at most 5 requests, waits at most 4 times (once between two consecutive requests), and ends by
returning a value or by throwing: the loop is never left through its condition, and it never
runs out of iterations. -/
theorem callGeminiAPI_bounded (fmt : ℚ → String) (env : Nat → Outcome)
    (fuel : Nat) (key prompt : String) (config : SamplingConfig)
    (hkey : (validateApiKey (some (.str key))).isValid = true)
    (hfuel : RATE_LIMIT_CONFIG.maxRetries < fuel) :
    ∃ t, callGeminiAPI fmt env fuel (some key) prompt config = some t ∧
      1 ≤ t.requests.length ∧ t.requests.length ≤ 5 ∧ t.sleeps.length ≤ 4 ∧
      t.requests.length = t.sleeps.length + 1 ∧
      ((∃ v, t.result = .returned v) ∨ (∃ e, t.result = .threw e)) := by
  have hf : 4 - 0 < fuel := by simpa [RATE_LIMIT_CONFIG.maxRetries] using hfuel
  obtain ⟨t, ht, h1, h2, h3, h4, h5⟩ :=
    retryLoop_bounded fmt env (buildRequest key (buildRequestBody prompt config)) fuel 0 2000
      [] [] (by omega) hf
  refine ⟨t, (callGeminiAPI_valid fmt env fuel key prompt config hkey).trans ht, ?_, ?_, ?_, ?_,
    h5⟩
  · simpa using h1
  · simpa using h2
  · simpa using h3
  · simpa using h4

/-- The theorem `callGeminiAPI_bounded` on `mixedThenSuccess`. -/
theorem callGeminiAPI_bounded_witness :
    (validateApiKey (some (.str sampleKey))).isValid = true ∧
    RATE_LIMIT_CONFIG.maxRetries < 5 ∧
    ∃ t, callGeminiAPI fmtInteger mixedThenSuccess 5 (some sampleKey) "p" SamplingConfig.empty
        = some t ∧
      1 ≤ t.requests.length ∧ t.requests.length ≤ 5 ∧ t.sleeps.length ≤ 4 ∧
      t.requests.length = t.sleeps.length + 1 ∧
      ((∃ v, t.result = .returned v) ∨ (∃ e, t.result = .threw e)) :=
  ⟨by decide, by decide,
    callGeminiAPI_bounded fmtInteger mixedThenSuccess 5 sampleKey "p" SamplingConfig.empty
      (by decide) (by decide)⟩

/-- C5: when the API key is `undefined` or the empty string, `callGeminiAPI` throws the
missing-API-key error without sending a request and without waiting, for every prompt, sampling
config and network. -/
theorem callGeminiAPI_missing_key (fmt : ℚ → String) (env : Nat → Outcome) (fuel : Nat)
    (prompt : String) (config : SamplingConfig) :
    callGeminiAPI fmt env fuel none prompt config
      = some ⟨[], [], .threw ⟨"Error", ERROR_MESSAGES.apiKeyMissing⟩⟩ ∧
    callGeminiAPI fmt env fuel (some "") prompt config
      = some ⟨[], [], .threw ⟨"Error", ERROR_MESSAGES.apiKeyMissing⟩⟩ :=
  ⟨rfl, rfl⟩

/-- C6 (code at the failing input): for the config with `temperature: 0` the request body carries
the default temperature 0.4 and not the supplied 0, because `0 || 0.4` is `0.4`. -/
theorem buildRequestBody_zero_temperature :
    (buildRequestBody "p" ⟨some (.num 0), none, none, none⟩).generationConfig.temperature
      = some (.num (2 / 5)) ∧
    (buildRequestBody "p" ⟨some (.num 0), none, none, none⟩).generationConfig.temperature
      ≠ some (.num 0) := by
  have h : (buildRequestBody "p" ⟨some (.num 0), none, none, none⟩).generationConfig.temperature
      = some (.num (2 / 5)) := by
    simp [buildRequestBody, jsOr, truthy, GEMINI_CONFIG.temperature]
  refine ⟨h, ?_⟩
  rw [h]
  intro h0
  injection h0 with h1
  injection h1 with h2
  norm_num at h2

/-- C7: when every `fetch` fails at network level, `callGeminiAPI` sends 5 requests, waits 2000,
4000, 8000 and 16000 ms before its four retries, and throws the network error of the fifth
`fetch`. -/
theorem callGeminiAPI_sustained_network_failure (fmt : ℚ → String) (env : Nat → Outcome)
    (fuel : Nat) (key prompt : String) (config : SamplingConfig)
    (hkey : (validateApiKey (some (.str key))).isValid = true)
    (hfuel : RATE_LIMIT_CONFIG.maxRetries < fuel)
    (hnet : ∀ i, (env i).isNetworkFailure = true) :
    ∃ e, env 4 = .rejected e ∧
      callGeminiAPI fmt env fuel (some key) prompt config
        = some ⟨List.replicate 5 (buildRequest key (buildRequestBody prompt config)),
            [2000, 4000, 8000, 16000], .threw e⟩ := by
  have hb : ∀ i, i < 5 → (env i).isBackoff = true := fun i _ => by
    simp [Outcome.isBackoff, hnet i]
  have h4 := hnet 4
  cases hei : env 4 with
  | resolved r => simp [hei, Outcome.isNetworkFailure] at h4
  | rejected e =>
    refine ⟨e, rfl, ?_⟩
    rw [callGeminiAPI_valid fmt env fuel key prompt config hkey,
      retryLoop_backoff fmt env _ fuel hfuel hb, hei]
    rfl

/-- The theorem `callGeminiAPI_sustained_network_failure` on a network where every `fetch`
rejects with `failedToFetch`. -/
theorem callGeminiAPI_sustained_network_failure_witness :
    (validateApiKey (some (.str sampleKey))).isValid = true ∧
    RATE_LIMIT_CONFIG.maxRetries < 5 ∧
    (∀ i, (brokenNetwork failedToFetch i).isNetworkFailure = true) ∧
    ∃ e, brokenNetwork failedToFetch 4 = .rejected e ∧
      callGeminiAPI fmtInteger (brokenNetwork failedToFetch) 5 (some sampleKey) "p"
          SamplingConfig.empty
        = some ⟨List.replicate 5 sampleRequest, [2000, 4000, 8000, 16000], .threw e⟩ :=
  ⟨by decide, by decide, fun _ => rfl,
    callGeminiAPI_sustained_network_failure fmtInteger (brokenNetwork failedToFetch) 5 sampleKey
      "p" SamplingConfig.empty (by decide) (by decide) (fun _ => rfl)⟩

/-- C8 (code at the failing input): a server that answers 502 with a status text containing
`fetch`.  The `API error` thrown at line 79 is caught by the `catch` clause, whose network-error
test accepts it: the call waits 2000, 4000, 8000 and 16000 ms and sends 5 requests before the
error leaves it. -/
theorem callGeminiAPI_other_status_retried :
    callGeminiAPI fmtInteger (constantServer response502) 5 (some sampleKey) "p"
        SamplingConfig.empty
      = some ⟨List.replicate 5 sampleRequest, [2000, 4000, 8000, 16000],
          .threw ⟨"Error", "API error: 502 Upstream fetch failed"⟩⟩ := by
  rfl

/-- C9 (code at the failing input): a server that answers 200 with a candidate without
`content`.  Line 88 throws a `TypeError` while reading `content.parts`; the `catch` clause takes
it for a network error: the call waits 2000, 4000, 8000 and 16000 ms and sends 5 requests before
the `TypeError` leaves it. -/
theorem callGeminiAPI_success_status_retried :
    callGeminiAPI fmtInteger (constantServer response200Blocked) 5 (some sampleKey) "p"
        SamplingConfig.empty
      = some ⟨List.replicate 5 sampleRequest, [2000, 4000, 8000, 16000],
          .threw ⟨"TypeError", "Cannot read properties of undefined (reading 'parts')"⟩⟩ := by
  rfl

/-- C10: rate-limit retries and network-error retries share one counter and one delay that is
never reset: when every outcome is a 429 response or a network failure, in any order, the call
makes four retries and the wait before the `k`-th retry (`k` from 1 to 4) is
`min (2000 * 2 ^ (k - 1)) 16000` ms. -/
theorem callGeminiAPI_shared_backoff (fmt : ℚ → String) (env : Nat → Outcome)
    (fuel : Nat) (key prompt : String) (config : SamplingConfig)
    (hkey : (validateApiKey (some (.str key))).isValid = true)
    (hfuel : RATE_LIMIT_CONFIG.maxRetries < fuel)
    (hmix : ∀ i, (env i).hasStatus 429 = true ∨ (env i).isNetworkFailure = true) :
    ∃ t, callGeminiAPI fmt env fuel (some key) prompt config = some t ∧
      t.requests.length = 5 ∧ t.sleeps.length = 4 ∧
      ∀ k, 1 ≤ k → k ≤ 4 → t.sleeps[k - 1]? = some (min (2000 * 2 ^ (k - 1)) 16000) := by
  have hb : ∀ i, i < 5 → (env i).isBackoff = true := fun i _ => by
    rcases hmix i with h | h <;> simp [Outcome.isBackoff, h]
  refine ⟨_, (callGeminiAPI_valid fmt env fuel key prompt config hkey).trans
    (retryLoop_backoff fmt env _ fuel hfuel hb), rfl, rfl, ?_⟩
  intro k h1 h4
  interval_cases k <;> simp

/-- The theorem `callGeminiAPI_shared_backoff` on `failureThen429`: the wait after the network
failure is 2000 ms and the wait after the following 429 is 4000 ms. -/
theorem callGeminiAPI_shared_backoff_witness :
    (validateApiKey (some (.str sampleKey))).isValid = true ∧
    RATE_LIMIT_CONFIG.maxRetries < 5 ∧
    (∀ i, (failureThen429 i).hasStatus 429 = true ∨ (failureThen429 i).isNetworkFailure = true) ∧
    ∃ t, callGeminiAPI fmtInteger failureThen429 5 (some sampleKey) "p" SamplingConfig.empty
        = some t ∧
      t.requests.length = 5 ∧ t.sleeps.length = 4 ∧
      ∀ k, 1 ≤ k → k ≤ 4 → t.sleeps[k - 1]? = some (min (2000 * 2 ^ (k - 1)) 16000) :=
  have hmix : ∀ i, (failureThen429 i).hasStatus 429 = true ∨
      (failureThen429 i).isNetworkFailure = true := fun i =>
    match i with
    | 0 => Or.inr rfl
    | _ + 1 => Or.inl rfl
  ⟨by decide, by decide, hmix,
    callGeminiAPI_shared_backoff fmtInteger failureThen429 5 sampleKey "p" SamplingConfig.empty
      (by decide) (by decide) hmix⟩

/-! ## Lemmas on the regular expression of `extractSection` -/

/-- A pattern character that matches a white-space character is that character. -/
theorem sameLetter_whitespace (p c : Char) (h : sameLetter p c = true)
    (hc : jsIsWhitespace c = true) : p = c := by
  simp only [sameLetter, jsIsWhitespace, Bool.or_eq_true, Bool.and_eq_true, beq_iff_eq,
    decide_eq_true_eq] at h hc
  rcases h with (h | h) | h
  · exact h
  · omega
  · omega

/-- A pattern character that matches a given character outside the ASCII letters is that
character. -/
theorem sameLetter_not_letter (p c : Char) (h : sameLetter p c = true)
    (hc : c.toNat < 65 ∨ (90 < c.toNat ∧ c.toNat < 97) ∨ 122 < c.toNat) : p = c := by
  simp only [sameLetter, Bool.or_eq_true, Bool.and_eq_true, beq_iff_eq,
    decide_eq_true_eq] at h
  rcases h with (h | h) | h
  · exact h
  · omega
  · omega

/-- An occurrence has the length of the pattern. -/
theorem equalsFold_length : ∀ (pat occ : List Char), equalsFold pat occ = true →
    occ.length = pat.length
  | [], [], _ => rfl
  | [], _ :: _, h => by simp [equalsFold] at h
  | _ :: _, [], h => by simp [equalsFold] at h
  | p :: ps, c :: cs, h => by
    simp only [equalsFold, Bool.and_eq_true] at h
    simp [equalsFold_length ps cs h.2]

/-- Every character of an occurrence matches some character of the pattern. -/
theorem equalsFold_mem : ∀ (pat occ : List Char), equalsFold pat occ = true →
    ∀ c, c ∈ occ → ∃ p, p ∈ pat ∧ sameLetter p c = true
  | [], [], _ => by simp
  | [], _ :: _, h => by simp [equalsFold] at h
  | _ :: _, [], h => by simp [equalsFold] at h
  | p :: ps, d :: cs, h => by
    simp only [equalsFold, Bool.and_eq_true] at h
    intro c hc
    rcases List.mem_cons.1 hc with rfl | hc
    · exact ⟨p, List.mem_cons_self _ _, h.1⟩
    · obtain ⟨q, hq, hs⟩ := equalsFold_mem ps cs h.2 c hc
      exact ⟨q, List.mem_cons_of_mem _ hq, hs⟩

/-- The text starts with the pattern exactly when its first `pat.length` characters are an
occurrence. -/
theorem startsWithFold_iff : ∀ (text pat : List Char),
    startsWithFold text pat = true ↔ equalsFold pat (text.take pat.length) = true
  | _, [] => by simp [startsWithFold, equalsFold]
  | [], _ :: _ => by simp [startsWithFold, equalsFold]
  | c :: cs, p :: ps => by
    simp only [startsWithFold, equalsFold, Bool.and_eq_true, List.length_cons, List.take_succ_cons,
      startsWithFold_iff cs ps]

/-- A text that begins with an occurrence starts with the pattern. -/
theorem startsWithFold_append (pat occ rest : List Char) (h : equalsFold pat occ = true) :
    startsWithFold (occ ++ rest) pat = true := by
  rw [startsWithFold_iff, ← equalsFold_length pat occ h]
  simpa using h

/-- The lazy body is a leading part of the text, and the lookahead holds after it. -/
theorem lazyBody_append : ∀ (l : List Char),
    ∃ post, l = lazyBody l ++ post ∧ lookaheadHolds post = true
  | [] => ⟨[], rfl, rfl⟩
  | c :: cs => by
    by_cases h : lookaheadHolds (c :: cs) = true
    · exact ⟨c :: cs, by simp [lazyBody, h], h⟩
    · obtain ⟨post, h1, h2⟩ := lazyBody_append cs
      refine ⟨post, ?_, h2⟩
      simp only [lazyBody, h, Bool.false_eq_true, ↓reduceIte, List.cons_append]
      rw [← h1]

/-- The lookahead holds at no position inside the lazy body. -/
theorem lazyBody_minimal : ∀ (l b1 b2 post : List Char),
    l = b1 ++ b2 ++ post → lazyBody l = b1 ++ b2 → b2 ≠ [] → lookaheadHolds (b2 ++ post) = false
  | [], b1, b2, post, hl, _, hb2 => by
    have : b2 = [] := by
      have h := congrArg List.length hl
      simp at h
      exact List.eq_nil_of_length_eq_zero (by omega)
    exact absurd this hb2
  | c :: cs, b1, b2, post, hl, hb, hb2 => by
    by_cases h : lookaheadHolds (c :: cs) = true
    · simp only [lazyBody, h, ↓reduceIte] at hb
      have : b2 = [] := by
        have h := congrArg List.length hb
        simp at h
        exact List.eq_nil_of_length_eq_zero (by omega)
      exact absurd this hb2
    · simp only [lazyBody, h, Bool.false_eq_true, ↓reduceIte] at hb
      cases b1 with
      | nil =>
        simp only [List.nil_append] at hl hb
        rw [← hl]
        simpa using h
      | cons d b1 =>
        simp only [List.cons_append, List.cons.injEq] at hl hb
        exact lazyBody_minimal cs b1 b2 post hl.2 hb.2 hb2

/-- When the lookahead holds after `body`, the lazy body of `body ++ post` lies within `body`. -/
theorem lazyBody_within : ∀ (body post : List Char), lookaheadHolds post = true →
    ∃ b2, body = lazyBody (body ++ post) ++ b2
  | [], post, h => by
    cases post with
    | nil => exact ⟨[], rfl⟩
    | cons c cs => exact ⟨[], by simp [lazyBody, h]⟩
  | c :: cs, post, h => by
    show ∃ b2, c :: cs = lazyBody (c :: (cs ++ post)) ++ b2
    by_cases hc : lookaheadHolds (c :: (cs ++ post)) = true
    · exact ⟨c :: cs, by simp [lazyBody, hc]⟩
    · obtain ⟨b2, hb⟩ := lazyBody_within cs post h
      refine ⟨b2, ?_⟩
      simp only [lazyBody, hc, Bool.false_eq_true, ↓reduceIte, List.cons_append,
        List.cons.injEq, true_and]
      exact hb

/-- The match tried at the start of a text that starts with the pattern. -/
theorem matchAt_of_startsWith (pat text : List Char) (h : startsWithFold text pat = true) :
    matchAt pat text = some (text.take pat.length ++ lazyBody (text.drop pat.length)) := by
  simp [matchAt, h]

/-- No match at the start of a text that does not start with the pattern. -/
theorem matchAt_of_not_startsWith (pat text : List Char) (h : startsWithFold text pat = false) :
    matchAt pat text = none := by
  simp [matchAt, h]

/-- The match at a text that starts with the pattern is the match tried at its start. -/
theorem regexMatch_of_startsWith (pat text : List Char) (h : startsWithFold text pat = true) :
    regexMatch pat text = some (text.take pat.length ++ lazyBody (text.drop pat.length)) := by
  cases text with
  | nil => simp [regexMatch, matchAt_of_startsWith pat [] h]
  | cons c cs => simp [regexMatch, matchAt_of_startsWith pat (c :: cs) h]

/-- There is no match exactly when the pattern does not occur in the text. -/
theorem regexMatch_eq_none_iff (pat : List Char) : ∀ (text : List Char),
    regexMatch pat text = none ↔ includesFold text pat = false
  | [] => by
    by_cases h : startsWithFold [] pat = true
    · simp [regexMatch, includesFold, matchAt, h]
    · simp [regexMatch, includesFold, matchAt, h]
  | c :: cs => by
    by_cases h : startsWithFold (c :: cs) pat = true
    · simp [regexMatch, includesFold, matchAt, h]
    · have ih := regexMatch_eq_none_iff pat cs
      simp [regexMatch, includesFold, matchAt, h, ih]

/-- The shape of a match tried at the start of the text: an occurrence of the pattern, then the
lazy body, then a remainder at which the lookahead holds. -/
theorem matchAt_decomp (pat text m : List Char) (h : matchAt pat text = some m) :
    ∃ occ body post, text = occ ++ body ++ post ∧ m = occ ++ body ∧
      equalsFold pat occ = true ∧ lookaheadHolds post = true ∧
      lazyBody (body ++ post) = body := by
  by_cases hs : startsWithFold text pat = true
  · rw [matchAt_of_startsWith pat text hs] at h
    obtain ⟨post, hp1, hp2⟩ := lazyBody_append (text.drop pat.length)
    refine ⟨text.take pat.length, lazyBody (text.drop pat.length), post, ?_, ?_, ?_, hp2, ?_⟩
    · rw [List.append_assoc, ← hp1, List.take_append_drop]
    · exact (Option.some.inj h).symm
    · exact (startsWithFold_iff text pat).1 hs
    · rw [← hp1]
  · have hs2 : startsWithFold text pat = false := by simpa using hs
    rw [matchAt_of_not_startsWith pat text hs2] at h
    cases h

/-- The shape of a match: before it the pattern does not start anywhere; the match is an
occurrence of the pattern and the lazy body; the lookahead holds after it. -/
theorem regexMatch_decomp (pat : List Char) : ∀ (text m : List Char),
    regexMatch pat text = some m →
    ∃ pre occ body post, text = pre ++ occ ++ body ++ post ∧ m = occ ++ body ∧
      equalsFold pat occ = true ∧ lookaheadHolds post = true ∧
      lazyBody (body ++ post) = body ∧
      ∀ p1 p2, pre = p1 ++ p2 → p2 ≠ [] → startsWithFold (p2 ++ occ ++ body ++ post) pat = false
  | [], m, h => by
    obtain ⟨occ, body, post, h1, h2, h3, h4, h5⟩ := matchAt_decomp pat [] m h
    refine ⟨[], occ, body, post, by simpa using h1, h2, h3, h4, h5, ?_⟩
    intro p1 p2 hp hp2
    have : p2 = [] := by
      have := congrArg List.length hp
      simp at this
      exact List.eq_nil_of_length_eq_zero (by omega)
    exact absurd this hp2
  | c :: cs, m, h => by
    cases hm : matchAt pat (c :: cs) with
    | some m1 =>
      simp only [regexMatch, hm] at h
      obtain ⟨occ, body, post, h1, h2, h3, h4, h5⟩ := matchAt_decomp pat (c :: cs) m1 hm
      refine ⟨[], occ, body, post, by simpa using h1, ?_, h3, h4, h5, ?_⟩
      · rw [← Option.some.inj h]; exact h2
      · intro p1 p2 hp hp2
        have : p2 = [] := by
          have := congrArg List.length hp
          simp at this
          exact List.eq_nil_of_length_eq_zero (by omega)
        exact absurd this hp2
    | none =>
      simp only [regexMatch, hm] at h
      obtain ⟨pre, occ, body, post, h1, h2, h3, h4, h5, h6⟩ := regexMatch_decomp pat cs m h
      refine ⟨c :: pre, occ, body, post, by simp [h1], h2, h3, h4, h5, ?_⟩
      intro p1 p2 hp hp2
      cases p1 with
      | nil =>
        simp only [List.nil_append] at hp
        have hstart : startsWithFold (c :: cs) pat = false := by
          by_cases hs : startsWithFold (c :: cs) pat = true
          · rw [matchAt_of_startsWith pat _ hs] at hm
            cases hm
          · simpa using hs
        rw [← hp, h1] at *
        simpa using hstart
      | cons d p1 =>
        simp only [List.cons_append, List.cons.injEq] at hp
        exact h6 p1 p2 hp.2 hp2

/-- The match, given the first place where the pattern starts. -/
theorem regexMatch_of_first (pat : List Char) : ∀ (pre occ rest : List Char),
    equalsFold pat occ = true →
    (∀ p1 p2, pre = p1 ++ p2 → p2 ≠ [] → startsWithFold (p2 ++ occ ++ rest) pat = false) →
    regexMatch pat (pre ++ occ ++ rest) = some (occ ++ lazyBody rest)
  | [], occ, rest, hocc, _ => by
    have hs : startsWithFold (occ ++ rest) pat = true := startsWithFold_append pat occ rest hocc
    have hlen := equalsFold_length pat occ hocc
    rw [List.nil_append, regexMatch_of_startsWith pat _ hs, ← hlen]
    simp
  | c :: pre, occ, rest, hocc, hfirst => by
    have hs : startsWithFold (c :: (pre ++ occ ++ rest)) pat = false := by
      have := hfirst [] (c :: pre) rfl (by simp)
      simpa using this
    have ih := regexMatch_of_first pat pre occ rest hocc
      (fun p1 p2 hp hp2 => hfirst (c :: p1) p2 (by simp [hp]) hp2)
    show regexMatch pat (c :: (pre ++ occ ++ rest)) = _
    simp only [regexMatch, matchAt_of_not_startsWith pat _ hs]
    exact ih

/-- A text that starts with the pattern somewhere contains it. -/
theorem includesFold_of_startsWith (pat : List Char) : ∀ (p1 x : List Char),
    startsWithFold x pat = true → includesFold (p1 ++ x) pat = true
  | [], x, h => by
    cases x with
    | nil => simpa [includesFold] using h
    | cons c cs => simp [includesFold, h]
  | d :: p1, x, h => by
    have ih := includesFold_of_startsWith pat p1 x h
    simp [includesFold, ih]

/-- When the pattern does not occur before the last character of the occurrence `occ`, it starts
nowhere before `occ`. -/
theorem first_of_not_includes (pat pre occ rest : List Char)
    (hocc : equalsFold pat occ = true)
    (hnot : includesFold (pre ++ occ.dropLast) pat = false) :
    ∀ p1 p2, pre = p1 ++ p2 → p2 ≠ [] → startsWithFold (p2 ++ occ ++ rest) pat = false := by
  intro p1 p2 hp hp2
  by_contra hcon
  have hs : startsWithFold (p2 ++ occ ++ rest) pat = true := by simpa using hcon
  have hlen := equalsFold_length pat occ hocc
  have hp2len : 0 < p2.length := List.length_pos.2 hp2
  cases hocc_nil : occ with
  | nil =>
    have hpat : pat = [] := by
      rw [hocc_nil] at hlen
      exact List.eq_nil_of_length_eq_zero hlen.symm
    have : includesFold (pre ++ occ.dropLast) pat = true := by
      rw [hpat]
      have h0 := includesFold_of_startsWith [] (pre ++ occ.dropLast) [] rfl
      simpa using h0
    rw [this] at hnot
    cases hnot
  | cons c cs =>
    have hne : occ ≠ [] := by simp [hocc_nil]
    have hsplit : occ = occ.dropLast ++ [occ.getLast hne] :=
      (List.dropLast_append_getLast hne).symm
    have hdl : occ.dropLast.length + 1 = occ.length := by
      have := congrArg List.length hsplit
      simpa using this.symm
    have htake : (p2 ++ occ ++ rest).take pat.length = (p2 ++ occ.dropLast).take pat.length := by
      have e : p2 ++ occ ++ rest = (p2 ++ occ.dropLast) ++ ([occ.getLast hne] ++ rest) := by
        conv_lhs => rw [hsplit]
        simp
      rw [e, List.take_append_of_le_length]
      simp
      omega
    have hs2 : startsWithFold (p2 ++ occ.dropLast) pat = true := by
      rw [startsWithFold_iff] at hs ⊢
      rw [← htake]
      exact hs
    have hinc := includesFold_of_startsWith pat p1 (p2 ++ occ.dropLast) hs2
    rw [hp, List.append_assoc, hinc] at hnot
    cases hnot

/-- The characters of a trimmed string. -/
theorem jsTrim_toList (s : String) : (jsTrim s).toList = trimChars s.toList := rfl

/-- Dropping a leading run stops at the head of the second list when that head fails the test. -/
theorem dropWhile_append_of_head (p : Char → Bool) (c : Char) (t : List Char)
    (hc : p c = false) : ∀ (a : List Char),
    (a ++ c :: t).dropWhile p = a.dropWhile p ++ c :: t
  | [] => by simp [List.dropWhile, hc]
  | x :: a => by
    by_cases hx : p x = true
    · simp [List.dropWhile, hx, dropWhile_append_of_head p c t hc a]
    · simp [List.dropWhile, hx]

/-- A trimmed list is a contiguous part of the list. -/
theorem trimChars_within (l : List Char) : ∃ a b, l = a ++ trimChars l ++ b := by
  refine ⟨l.takeWhile jsIsWhitespace,
    (((l.dropWhile jsIsWhitespace).reverse).takeWhile jsIsWhitespace).reverse, ?_⟩
  have h1 := List.takeWhile_append_dropWhile jsIsWhitespace l
  have h2 := List.takeWhile_append_dropWhile jsIsWhitespace (l.dropWhile jsIsWhitespace).reverse
  have h3 := congrArg List.reverse h2
  simp only [List.reverse_append, List.reverse_reverse] at h3
  unfold trimChars
  rw [List.append_assoc, h3, h1]

/-- The first character of an occurrence matches the first character of the pattern. -/
theorem equalsFold_head : ∀ (pat occ : List Char), equalsFold pat occ = true →
    ∀ c, occ.head? = some c → ∃ p, pat.head? = some p ∧ sameLetter p c = true
  | [], [], _ => by simp
  | [], _ :: _, h => by simp [equalsFold] at h
  | _ :: _, [], h => by simp [equalsFold] at h
  | p :: ps, d :: cs, h => by
    simp only [equalsFold, Bool.and_eq_true] at h
    intro c hc
    simp only [List.head?_cons, Option.some.injEq] at hc
    exact ⟨p, rfl, hc ▸ h.1⟩

/-- The last character of an occurrence matches the last character of the pattern. -/
theorem equalsFold_getLast : ∀ (pat occ : List Char), equalsFold pat occ = true →
    ∀ c, occ.getLast? = some c → ∃ p, pat.getLast? = some p ∧ sameLetter p c = true
  | [], [], _ => by simp
  | [], _ :: _, h => by simp [equalsFold] at h
  | _ :: _, [], h => by simp [equalsFold] at h
  | [p], [d], h => by
    simp only [equalsFold, Bool.and_eq_true] at h
    intro c hc
    simp only [List.getLast?_singleton, Option.some.injEq] at hc
    exact ⟨p, rfl, hc ▸ h.1⟩
  | [_], _ :: _ :: _, h => by simp [equalsFold] at h
  | _ :: _ :: _, [_], h => by simp [equalsFold] at h
  | p :: q :: ps, d :: e :: cs, h => by
    simp only [equalsFold, Bool.and_eq_true] at h
    intro c hc
    rw [List.getLast?_cons_cons] at hc
    obtain ⟨r, hr, hs⟩ := equalsFold_getLast (q :: ps) (e :: cs)
      (by simp [equalsFold, h.2.1, h.2.2]) c hc
    exact ⟨r, by rw [List.getLast?_cons_cons]; exact hr, hs⟩

/-- An occurrence of a pattern that begins and ends with a character other than white space
does so too. -/
theorem isTrimSafe_of_equalsFold (pat occ : List Char) (h : equalsFold pat occ = true)
    (hp : isTrimSafe pat = true) : isTrimSafe occ = true := by
  have hlen := equalsFold_length pat occ h
  unfold isTrimSafe at hp ⊢
  cases hph : pat.head? with
  | none => simp [hph] at hp
  | some a =>
    cases hpl : pat.getLast? with
    | none => simp [hph, hpl] at hp
    | some b =>
      simp only [hph, hpl, Bool.and_eq_true, Bool.not_eq_true'] at hp
      have hne : occ ≠ [] := by
        intro hnil
        rw [hnil] at hlen
        have : pat = [] := List.eq_nil_of_length_eq_zero hlen.symm
        simp [this] at hph
      cases hoh : occ.head? with
      | none => simp [List.head?_eq_none_iff, hne] at hoh
      | some c =>
        cases hol : occ.getLast? with
        | none => simp [List.getLast?_eq_none_iff, hne] at hol
        | some d =>
          obtain ⟨p1, hp1, hs1⟩ := equalsFold_head pat occ h c hoh
          obtain ⟨p2, hp2, hs2⟩ := equalsFold_getLast pat occ h d hol
          rw [hph] at hp1
          rw [hpl] at hp2
          cases hp1
          cases hp2
          have hc : jsIsWhitespace c = false := by
            by_contra hcon
            have hw : jsIsWhitespace c = true := by simpa using hcon
            have := sameLetter_whitespace a c hs1 hw
            rw [this, hw] at hp
            exact absurd hp.1 (by simp)
          have hd : jsIsWhitespace d = false := by
            by_contra hcon
            have hw : jsIsWhitespace d = true := by simpa using hcon
            have := sameLetter_whitespace b d hs2 hw
            rw [this, hw] at hp
            exact absurd hp.2 (by simp)
          simp [hc, hd]

/-- Trimming keeps a leading block that begins and ends with a character other than white
space, and removes the white space at the end of what follows it. -/
theorem trimChars_append (occ body : List Char) (h : isTrimSafe occ = true) :
    trimChars (occ ++ body) = occ ++ (body.reverse.dropWhile jsIsWhitespace).reverse := by
  unfold isTrimSafe at h
  cases occ with
  | nil => simp at h
  | cons c t =>
    cases hl : (c :: t).getLast? with
    | none => simp at hl
    | some d =>
      simp only [List.head?_cons, hl, Bool.and_eq_true, Bool.not_eq_true'] at h
      have hrev : ∃ r, (c :: t).reverse = d :: r := by
        have h1 : (c :: t).reverse.head? = some d := by rw [List.head?_reverse]; exact hl
        cases hr : (c :: t).reverse with
        | nil => rw [hr] at h1; simp at h1
        | cons x r =>
          rw [hr] at h1
          simp only [List.head?_cons, Option.some.injEq] at h1
          exact ⟨r, by rw [h1]⟩
      obtain ⟨r, hr⟩ := hrev
      unfold trimChars
      have e1 : (c :: t ++ body).dropWhile jsIsWhitespace = c :: t ++ body := by
        simp [List.dropWhile, h.1]
      rw [e1, List.reverse_append, hr, dropWhile_append_of_head jsIsWhitespace d r h.2,
        List.reverse_append, ← hr, List.reverse_reverse]

/-- The two ways `extractSection` ends: no marker occurs and the value is empty, or the value is
the trimmed match of the first marker of the list that occurs, at its first occurrence. -/
theorem extractSection_cases (text : String) : ∀ (markers : List String),
    (extractSection text markers = "" ∧
      ∀ m, m ∈ markers → includesFold text.toList m.toList = false) ∨
    ∃ before marker after pre occ body post,
      markers = before ++ marker :: after ∧
      (∀ m, m ∈ before → includesFold text.toList m.toList = false) ∧
      text.toList = pre ++ occ ++ body ++ post ∧
      equalsFold marker.toList occ = true ∧
      (∀ p1 p2, pre = p1 ++ p2 → p2 ≠ [] →
        startsWithFold (p2 ++ occ ++ body ++ post) marker.toList = false) ∧
      lookaheadHolds post = true ∧ lazyBody (body ++ post) = body ∧
      extractSection text markers = jsTrim (String.mk (occ ++ body))
  | [] => Or.inl ⟨rfl, by simp⟩
  | marker :: rest => by
    cases hm : regexMatch marker.toList text.toList with
    | some m =>
      obtain ⟨pre, occ, body, post, h1, h2, h3, h4, h5, h6⟩ :=
        regexMatch_decomp marker.toList text.toList m hm
      refine Or.inr ⟨[], marker, rest, pre, occ, body, post, rfl, by simp, h1, h3, h6, h4, h5, ?_⟩
      simp only [extractSection, hm, h2]
    | none =>
      have hnone := (regexMatch_eq_none_iff marker.toList text.toList).1 hm
      have hstep : extractSection text (marker :: rest) = extractSection text rest := by
        simp only [extractSection, hm]
      rcases extractSection_cases text rest with ⟨h1, h2⟩ |
        ⟨before, mk, after, pre, occ, body, post, h1, h2, h3, h4, h5, h6, h7, h8⟩
      · refine Or.inl ⟨hstep.trans h1, ?_⟩
        intro m hmem
        rcases List.mem_cons.1 hmem with rfl | hmem
        · exact hnone
        · exact h2 m hmem
      · refine Or.inr ⟨marker :: before, mk, after, pre, occ, body, post, by simp [h1], ?_,
          h3, h4, h5, h6, h7, hstep.trans h8⟩
        intro m hmem
        rcases List.mem_cons.1 hmem with rfl | hmem
        · exact hnone
        · exact h2 m hmem

/-- The value of `extractSection`, given the first marker of the list that occurs and its first
occurrence. -/
theorem extractSection_of_first (text : String) (marker : String) (after : List String)
    (pre occ rest : List Char)
    (htext : text.toList = pre ++ occ ++ rest)
    (hocc : equalsFold marker.toList occ = true)
    (hfirst : includesFold (pre ++ occ.dropLast) marker.toList = false) :
    ∀ (before : List String),
    (∀ m, m ∈ before → includesFold text.toList m.toList = false) →
    extractSection text (before ++ marker :: after)
      = jsTrim (String.mk (occ ++ lazyBody rest))
  | [], _ => by
    have h := regexMatch_of_first marker.toList pre occ rest hocc
      (first_of_not_includes marker.toList pre occ rest hocc hfirst)
    rw [← htext] at h
    simp only [List.nil_append, extractSection, h]
  | m :: before, hb => by
    have hnone := (regexMatch_eq_none_iff m.toList text.toList).2 (hb m (List.mem_cons_self _ _))
    have ih := extractSection_of_first text marker after pre occ rest htext hocc hfirst before
      (fun x hx => hb x (List.mem_cons_of_mem _ hx))
    simp only [List.cons_append, extractSection, hnone]
    exact ih

/-- A match holds no newline that is followed, within the match or right after it, by what the
lookahead looks for. -/
theorem match_boundary_free (occ body post u x : List Char)
    (hocc : '\n' ∉ occ) (hbody : lazyBody (body ++ post) = body)
    (h : occ ++ body = u ++ '\n' :: x) :
    lookaheadHolds ('\n' :: (x ++ post)) = false := by
  rcases List.append_eq_append_iff.1 h with ⟨a, hu, hb⟩ | ⟨c, ho, hx⟩
  · have := lazyBody_minimal (body ++ post) a ('\n' :: x) post (by rw [hb]) (by rw [hbody, hb])
      (by simp)
    simpa using this
  · cases c with
    | nil =>
      simp only [List.nil_append] at hx
      have := lazyBody_minimal (body ++ post) [] ('\n' :: x) post (by rw [← hx]; simp)
        (by rw [hbody, ← hx]; simp) (by simp)
      simpa using this
    | cons d c =>
      simp only [List.cons_append, List.cons.injEq] at hx
      exact absurd (by rw [ho, ← hx.1]; simp) hocc

/-- An occurrence of a literal marker holds no newline. -/
theorem newline_not_mem_occ (marker : String) (occ : List Char)
    (hlit : isLiteralMarker marker = true) (hocc : equalsFold marker.toList occ = true) :
    '\n' ∉ occ := by
  intro hmem
  obtain ⟨p, hp, hs⟩ := equalsFold_mem marker.toList occ hocc '\n' hmem
  have hpe : p = '\n' := sameLetter_not_letter p '\n' hs (Or.inl (by decide))
  have hall : isMarkerChar p = true := by
    have := List.all_eq_true.1 hlit p hp
    exact this
  rw [hpe] at hall
  exact absurd hall (by decide)

/-- The markers of every section are literals that begin and end with a character other than
white space. -/
theorem sectionMarkers_safe : ∀ s, s ∈ sectionMarkers → ∀ m, m ∈ s.2 →
    isLiteralMarker m = true ∧ isTrimSafe m.toList = true := by
  decide

/-- Each member of the object that `parseNotesResponse` returns is `extractSection` with the
markers of its section. -/
theorem parseNotesResponse_member (response key : String) (markers : List String)
    (h : (key, markers) ∈ sectionMarkers) :
    getMember (parseNotesResponse response) key = some (extractSection response markers) := by
  simp only [sectionMarkers, List.mem_cons, Prod.mk.injEq, List.mem_singleton,
    List.not_mem_nil, or_false] at h
  rcases h with ⟨rfl, rfl⟩ | ⟨rfl, rfl⟩ | ⟨rfl, rfl⟩ | ⟨rfl, rfl⟩ | ⟨rfl, rfl⟩ | ⟨rfl, rfl⟩ |
    ⟨rfl, rfl⟩ <;> rfl

/-! ## Theorems on the notes parser -/

/-- C11: for every input string `parseNotesResponse` returns an object whose keys are exactly
summary, concepts, formulas, definitions, questions, reviewPoints and studyTips, each with a
string value; for the empty string all seven values are the empty string. -/
theorem parseNotesResponse_keys (response : String) :
    (parseNotesResponse response).map Prod.fst
      = ["summary", "concepts", "formulas", "definitions", "questions", "reviewPoints",
          "studyTips"] ∧
    parseNotesResponse ""
      = [("summary", ""), ("concepts", ""), ("formulas", ""), ("definitions", ""),
          ("questions", ""), ("reviewPoints", ""), ("studyTips", "")] :=
  ⟨rfl, rfl⟩

/-- C12 (as stated, refuted): for the text of the claim, where the `📐` marker follows the `🎯`
marker on a line of its own, the concepts value runs to the end of the text and holds both
`📐 FORMULAS` and `No formulas covered`. -/
theorem parseNotesResponse_concepts_past_formulas_marker :
    getMember
        (parseNotesResponse "🎯 KEY CONCEPTS\n- ATP production\n📐 FORMULAS\nNo formulas covered")
        "concepts"
      = some "KEY CONCEPTS\n- ATP production\n📐 FORMULAS\nNo formulas covered" ∧
    jsIncludes "KEY CONCEPTS\n- ATP production\n📐 FORMULAS\nNo formulas covered" "📐 FORMULAS"
      = true ∧
    jsIncludes "KEY CONCEPTS\n- ATP production\n📐 FORMULAS\nNo formulas covered"
      "No formulas covered" = true := by
  decide

/-- C12 (amended): let the matched concepts marker (the heading phrase `KEY CONCEPTS` at its
first occurrence, or `🎯` at its first occurrence when the phrase does not occur) be followed by
`body` and then by a remainder `post` that is empty or begins with a newline followed by `#` or
by a digit and a dot.  Then the concepts value lies within the marker and `body`; when `body`
has no `📐`, the value has none: it stops before a `📐` marker that heads a numbered item or a
markdown heading. -/
theorem parseNotesResponse_concepts_stops_at_boundary (marker : String)
    (pre occ body post : List Char)
    (hmarker : marker = "KEY CONCEPTS" ∨
      (marker = "🎯" ∧ includesFold (pre ++ occ ++ body ++ post) "KEY CONCEPTS".toList = false))
    (hocc : equalsFold marker.toList occ = true)
    (hfirst : includesFold (pre ++ occ.dropLast) marker.toList = false)
    (hpost : lookaheadHolds post = true)
    (hbody : '📐' ∉ body) :
    ∃ v b1 b2,
      getMember (parseNotesResponse (String.mk (pre ++ occ ++ body ++ post))) "concepts" = some v ∧
      body = b1 ++ b2 ∧ v.toList = occ ++ b1 ∧ '📐' ∉ v.toList := by
  have hmem : getMember (parseNotesResponse (String.mk (pre ++ occ ++ body ++ post))) "concepts"
      = some (extractSection (String.mk (pre ++ occ ++ body ++ post)) ["KEY CONCEPTS", "🎯"]) :=
    rfl
  have hsafe : isTrimSafe marker.toList = true := by
    rcases hmarker with rfl | ⟨rfl, _⟩ <;> decide
  have hval : extractSection (String.mk (pre ++ occ ++ body ++ post)) ["KEY CONCEPTS", "🎯"]
      = jsTrim (String.mk (occ ++ lazyBody (body ++ post))) := by
    rcases hmarker with rfl | ⟨rfl, hno⟩
    · exact extractSection_of_first _ "KEY CONCEPTS" ["🎯"] pre occ (body ++ post)
        (by simp) hocc hfirst [] (by simp)
    · exact extractSection_of_first _ "🎯" [] pre occ (body ++ post)
        (by simp) hocc hfirst ["KEY CONCEPTS"] (by
          intro m hm
          rcases List.mem_singleton.1 hm with rfl
          exact hno)
  obtain ⟨b2, hb2⟩ := lazyBody_within body post hpost
  have htrim : (jsTrim (String.mk (occ ++ lazyBody (body ++ post)))).toList
      = occ ++ ((lazyBody (body ++ post)).reverse.dropWhile jsIsWhitespace).reverse := by
    rw [jsTrim_toList]
    exact trimChars_append occ _ (isTrimSafe_of_equalsFold marker.toList occ hocc hsafe)
  have hsplit : lazyBody (body ++ post)
      = ((lazyBody (body ++ post)).reverse.dropWhile jsIsWhitespace).reverse
        ++ ((lazyBody (body ++ post)).reverse.takeWhile jsIsWhitespace).reverse := by
    have h := List.takeWhile_append_dropWhile jsIsWhitespace (lazyBody (body ++ post)).reverse
    have h2 := congrArg List.reverse h
    simp only [List.reverse_append, List.reverse_reverse] at h2
    exact h2.symm
  refine ⟨_, ((lazyBody (body ++ post)).reverse.dropWhile jsIsWhitespace).reverse,
    ((lazyBody (body ++ post)).reverse.takeWhile jsIsWhitespace).reverse ++ b2,
    hmem.trans (congrArg some hval), ?_, htrim, ?_⟩
  · rw [← List.append_assoc, ← hsplit]
    exact hb2
  · rw [htrim]
    intro hin
    rcases List.mem_append.1 hin with hin | hin
    · obtain ⟨p, hp, hs⟩ := equalsFold_mem marker.toList occ hocc '📐' hin
      have hpe : p = '📐' := sameLetter_not_letter p '📐' hs (Or.inr (Or.inr (by decide)))
      rw [hpe] at hp
      rcases hmarker with rfl | ⟨rfl, _⟩
      · exact absurd hp (by decide)
      · exact absurd hp (by decide)
    · apply hbody
      rw [hb2, hsplit]
      simp only [List.mem_append]
      exact Or.inl (Or.inl hin)

/-- The theorem `parseNotesResponse_concepts_stops_at_boundary` on the text
`2. 🎯 KEY CONCEPTS`, `- ATP production`, `3. 📐 FORMULAS`, `No formulas covered`. -/
theorem parseNotesResponse_concepts_stops_at_boundary_witness :
    ("KEY CONCEPTS" = "KEY CONCEPTS" ∨
      ("KEY CONCEPTS" = "🎯" ∧
        includesFold ("2. 🎯 ".toList ++ "KEY CONCEPTS".toList ++ "\n- ATP production".toList
          ++ "\n3. 📐 FORMULAS\nNo formulas covered".toList) "KEY CONCEPTS".toList = false)) ∧
    equalsFold "KEY CONCEPTS".toList "KEY CONCEPTS".toList = true ∧
    includesFold ("2. 🎯 ".toList ++ "KEY CONCEPTS".toList.dropLast) "KEY CONCEPTS".toList = false ∧
    lookaheadHolds "\n3. 📐 FORMULAS\nNo formulas covered".toList = true ∧
    '📐' ∉ "\n- ATP production".toList ∧
    ∃ v b1 b2,
      getMember (parseNotesResponse (String.mk ("2. 🎯 ".toList ++ "KEY CONCEPTS".toList
        ++ "\n- ATP production".toList ++ "\n3. 📐 FORMULAS\nNo formulas covered".toList)))
        "concepts" = some v ∧
      "\n- ATP production".toList = b1 ++ b2 ∧ v.toList = "KEY CONCEPTS".toList ++ b1 ∧
      '📐' ∉ v.toList :=
  ⟨Or.inl rfl, by decide, by decide, by decide, by decide,
    parseNotesResponse_concepts_stops_at_boundary "KEY CONCEPTS" "2. 🎯 ".toList
      "KEY CONCEPTS".toList "\n- ATP production".toList
      "\n3. 📐 FORMULAS\nNo formulas covered".toList
      (Or.inl rfl) (by decide) (by decide) (by decide) (by decide)⟩

/-- C13 (as stated, refuted): for the text `🎯 KEY CONCEPTS`, `- ATP production` the earliest
marker of the concepts section is `🎯` at the start of the text, yet the concepts value starts at
`KEY CONCEPTS`: it does not begin with `🎯 KEY CONCEPTS`. -/
theorem parseNotesResponse_concepts_skips_leading_symbol :
    getMember (parseNotesResponse "🎯 KEY CONCEPTS\n- ATP production") "concepts"
      = some "KEY CONCEPTS\n- ATP production" ∧
    startsWithChars "🎯 KEY CONCEPTS\n- ATP production".toList "🎯".toList = true ∧
    startsWithChars "KEY CONCEPTS\n- ATP production".toList "🎯 KEY CONCEPTS".toList = false := by
  decide

/-- C13 (amended): for every raw text and every section, the value starts at the first
occurrence of the first marker in the order of the section's marker list (heading phrase before
symbol) that occurs in the text: if no marker listed before `marker` occurs, and `occ` is the
first occurrence of `marker`, the value is the trimmed match `occ ++ lazyBody rest` and begins
with `occ`. -/
theorem parseNotesResponse_starts_at_first_listed_marker (text key : String)
    (markers before after : List String) (marker : String) (pre occ rest : List Char)
    (hsec : (key, markers) ∈ sectionMarkers)
    (hmarkers : markers = before ++ marker :: after)
    (hbefore : ∀ m, m ∈ before → includesFold text.toList m.toList = false)
    (htext : text.toList = pre ++ occ ++ rest)
    (hocc : equalsFold marker.toList occ = true)
    (hfirst : includesFold (pre ++ occ.dropLast) marker.toList = false) :
    getMember (parseNotesResponse text) key
      = some (jsTrim (String.mk (occ ++ lazyBody rest))) ∧
    ∃ tail, getMember (parseNotesResponse text) key = some (String.mk (occ ++ tail)) := by
  have hval : getMember (parseNotesResponse text) key
      = some (jsTrim (String.mk (occ ++ lazyBody rest))) := by
    rw [parseNotesResponse_member text key markers hsec, hmarkers,
      extractSection_of_first text marker after pre occ rest htext hocc hfirst before hbefore]
  have hsafe : isTrimSafe marker.toList = true :=
    (sectionMarkers_safe (key, markers) hsec marker (by rw [hmarkers]; simp)).2
  refine ⟨hval, (lazyBody rest).reverse.dropWhile jsIsWhitespace |>.reverse, ?_⟩
  rw [hval, ← trimChars_append occ _ (isTrimSafe_of_equalsFold marker.toList occ hocc hsafe)]
  rfl

/-- The theorem `parseNotesResponse_starts_at_first_listed_marker` on the text
`🎯 KEY CONCEPTS`, `- ATP production`: the concepts value begins with `KEY CONCEPTS`. -/
theorem parseNotesResponse_starts_at_first_listed_marker_witness :
    ("concepts", ["KEY CONCEPTS", "🎯"]) ∈ sectionMarkers ∧
    ["KEY CONCEPTS", "🎯"] = [] ++ "KEY CONCEPTS" :: ["🎯"] ∧
    (∀ m, m ∈ ([] : List String) →
      includesFold "🎯 KEY CONCEPTS\n- ATP production".toList m.toList = false) ∧
    "🎯 KEY CONCEPTS\n- ATP production".toList
      = "🎯 ".toList ++ "KEY CONCEPTS".toList ++ "\n- ATP production".toList ∧
    equalsFold "KEY CONCEPTS".toList "KEY CONCEPTS".toList = true ∧
    includesFold ("🎯 ".toList ++ "KEY CONCEPTS".toList.dropLast) "KEY CONCEPTS".toList = false ∧
    getMember (parseNotesResponse "🎯 KEY CONCEPTS\n- ATP production") "concepts"
      = some (jsTrim (String.mk ("KEY CONCEPTS".toList ++ lazyBody "\n- ATP production".toList))) ∧
    ∃ tail, getMember (parseNotesResponse "🎯 KEY CONCEPTS\n- ATP production") "concepts"
      = some (String.mk ("KEY CONCEPTS".toList ++ tail)) :=
  ⟨by decide, rfl, by simp, by decide, by decide, by decide,
    parseNotesResponse_starts_at_first_listed_marker "🎯 KEY CONCEPTS\n- ATP production"
      "concepts" ["KEY CONCEPTS", "🎯"] [] ["🎯"] "KEY CONCEPTS" "🎯 ".toList
      "KEY CONCEPTS".toList "\n- ATP production".toList
      (by decide) rfl (by simp) (by decide) (by decide) (by decide)⟩

/-- C14: for every raw text and every list of literal markers, `extractSection` returns the
empty string when no marker occurs, and otherwise the trimmed match: an occurrence `occ` of a
marker followed by `body`, where the lookahead (end of text, newline and `#`, or newline, digit
and dot) holds after `body` and at no earlier position from the end of the marker on.  The value
is a contiguous part of the text and holds no newline followed by `#` and no newline followed by
a digit and a dot. -/
theorem extractSection_match_extent (text : String) (markers : List String)
    (hlit : ∀ m, m ∈ markers → isLiteralMarker m = true) :
    ((extractSection text markers = "" ∧
        ∀ m, m ∈ markers → includesFold text.toList m.toList = false) ∨
      ∃ marker pre occ body post, marker ∈ markers ∧
        text.toList = pre ++ occ ++ body ++ post ∧
        equalsFold marker.toList occ = true ∧
        lookaheadHolds post = true ∧
        (∀ b1 b2, body = b1 ++ b2 → b2 ≠ [] → lookaheadHolds (b2 ++ post) = false) ∧
        extractSection text markers = jsTrim (String.mk (occ ++ body))) ∧
    (∃ a b, text.toList = a ++ (extractSection text markers).toList ++ b) ∧
    (∀ u w, (extractSection text markers).toList ≠ u ++ '\n' :: '#' :: w) ∧
    (∀ u d w, d.isDigit = true →
      (extractSection text markers).toList ≠ u ++ '\n' :: d :: '.' :: w) := by
  rcases extractSection_cases text markers with ⟨h1, h2⟩ |
    ⟨before, marker, after, pre, occ, body, post, h1, h2, h3, h4, h5, h6, h7, h8⟩
  · refine ⟨Or.inl ⟨h1, h2⟩, ⟨[], text.toList, by simp [h1]⟩, ?_, ?_⟩
    · intro u w h
      rw [h1] at h
      have := congrArg List.length h
      simp at this
      omega
    · intro u d w _ h
      rw [h1] at h
      have := congrArg List.length h
      simp at this
      omega
  · have hmem : marker ∈ markers := by rw [h1]; simp
    have hnl : '\n' ∉ occ := newline_not_mem_occ marker occ (hlit marker hmem) h4
    obtain ⟨a, b, hab⟩ := trimChars_within (occ ++ body)
    have hv : (extractSection text markers).toList = trimChars (occ ++ body) := by
      rw [h8]
      exact jsTrim_toList _
    have hfree : ∀ u x, (extractSection text markers).toList = u ++ '\n' :: x →
        lookaheadHolds ('\n' :: (x ++ b ++ post)) = false := by
      intro u x hux
      have hm : occ ++ body = (a ++ u) ++ '\n' :: (x ++ b) := by
        rw [hab, ← hv, hux]
        simp
      have := match_boundary_free occ body post (a ++ u) (x ++ b) hnl h7 hm
      simpa using this
    refine ⟨Or.inr ⟨marker, pre, occ, body, post, hmem, h3, h4, h6, ?_, h8⟩, ?_, ?_, ?_⟩
    · intro b1 b2 hb hb2
      exact lazyBody_minimal (body ++ post) b1 b2 post (by rw [hb]) (by rw [h7, hb]) hb2
    · refine ⟨pre ++ a, b ++ post, ?_⟩
      rw [h3, hv]
      have e : pre ++ occ ++ body ++ post = pre ++ (occ ++ body) ++ post := by simp
      rw [e]
      conv_lhs => rw [hab]
      simp
    · intro u w h
      have := hfree u ('#' :: w) h
      simp [lookaheadHolds] at this
    · intro u d w hd h
      have := hfree u (d :: '.' :: w) h
      simp [lookaheadHolds, hd] at this

/-- The theorem `extractSection_match_extent` on a text with two headings and the markers of the
concepts section. -/
theorem extractSection_match_extent_witness :
    (∀ m, m ∈ ["KEY CONCEPTS", "🎯"] → isLiteralMarker m = true) ∧
    ((extractSection "## Notes\nKEY CONCEPTS\n- ATP\n## Next" ["KEY CONCEPTS", "🎯"] = "" ∧
        ∀ m, m ∈ ["KEY CONCEPTS", "🎯"] →
          includesFold "## Notes\nKEY CONCEPTS\n- ATP\n## Next".toList m.toList = false) ∨
      ∃ marker pre occ body post, marker ∈ ["KEY CONCEPTS", "🎯"] ∧
        "## Notes\nKEY CONCEPTS\n- ATP\n## Next".toList = pre ++ occ ++ body ++ post ∧
        equalsFold marker.toList occ = true ∧
        lookaheadHolds post = true ∧
        (∀ b1 b2, body = b1 ++ b2 → b2 ≠ [] → lookaheadHolds (b2 ++ post) = false) ∧
        extractSection "## Notes\nKEY CONCEPTS\n- ATP\n## Next" ["KEY CONCEPTS", "🎯"]
          = jsTrim (String.mk (occ ++ body))) ∧
    (∃ a b, "## Notes\nKEY CONCEPTS\n- ATP\n## Next".toList
      = a ++ (extractSection "## Notes\nKEY CONCEPTS\n- ATP\n## Next"
          ["KEY CONCEPTS", "🎯"]).toList ++ b) ∧
    (∀ u w, (extractSection "## Notes\nKEY CONCEPTS\n- ATP\n## Next"
      ["KEY CONCEPTS", "🎯"]).toList ≠ u ++ '\n' :: '#' :: w) ∧
    (∀ u d w, d.isDigit = true →
      (extractSection "## Notes\nKEY CONCEPTS\n- ATP\n## Next"
        ["KEY CONCEPTS", "🎯"]).toList ≠ u ++ '\n' :: d :: '.' :: w) :=
  ⟨by decide,
    extractSection_match_extent "## Notes\nKEY CONCEPTS\n- ATP\n## Next" ["KEY CONCEPTS", "🎯"]
      (by decide)⟩

/-- C15: for every raw text and each of the seven sections, the value is the empty string
exactly when none of the section's markers occurs in the text under case-insensitive
comparison; when a marker occurs, in any letter case, the value is not empty and begins with an
occurrence of a marker of the section in the text. -/
theorem parseNotesResponse_empty_iff_no_marker (text key : String) (markers : List String)
    (hsec : (key, markers) ∈ sectionMarkers) :
    ∃ v, getMember (parseNotesResponse text) key = some v ∧
      (v = "" ↔ ∀ m, m ∈ markers → includesFold text.toList m.toList = false) ∧
      ((∃ m, m ∈ markers ∧ includesFold text.toList m.toList = true) →
        v ≠ "" ∧
        ∃ m pre occ rest tail, m ∈ markers ∧ text.toList = pre ++ occ ++ rest ∧
          equalsFold m.toList occ = true ∧ v.toList = occ ++ tail) := by
  refine ⟨extractSection text markers, parseNotesResponse_member text key markers hsec, ?_⟩
  rcases extractSection_cases text markers with ⟨h1, h2⟩ |
    ⟨before, marker, after, pre, occ, body, post, h1, h2, h3, h4, h5, h6, h7, h8⟩
  · refine ⟨⟨fun _ => h2, fun _ => h1⟩, ?_⟩
    rintro ⟨m, hm, hinc⟩
    rw [h2 m hm] at hinc
    cases hinc
  · have hmem : marker ∈ markers := by rw [h1]; simp
    have hsafe : isTrimSafe occ = true :=
      isTrimSafe_of_equalsFold marker.toList occ h4
        (sectionMarkers_safe (key, markers) hsec marker hmem).2
    have hv : (extractSection text markers).toList
        = occ ++ (body.reverse.dropWhile jsIsWhitespace).reverse := by
      rw [h8]
      exact (jsTrim_toList _).trans (trimChars_append occ body hsafe)
    have hocc : occ ≠ [] := by
      intro hnil
      rw [hnil] at hsafe
      simp [isTrimSafe] at hsafe
    have hne : extractSection text markers ≠ "" := by
      intro hemp
      rw [hemp] at hv
      have := congrArg List.length hv
      simp at this
      exact hocc (List.eq_nil_of_length_eq_zero (by omega))
    have hinc : includesFold text.toList marker.toList = true := by
      rw [h3]
      have := includesFold_of_startsWith marker.toList pre (occ ++ (body ++ post))
        (startsWithFold_append marker.toList occ (body ++ post) h4)
      simpa using this
    refine ⟨⟨fun h => absurd h hne, fun h => ?_⟩, fun _ => ⟨hne, marker, pre, occ, body ++ post,
      _, hmem, by rw [h3]; simp, h4, hv⟩⟩
    rw [h marker hmem] at hinc
    cases hinc

/-- The theorem `parseNotesResponse_empty_iff_no_marker` on a text with the heading phrase of
the concepts section in small letters. -/
theorem parseNotesResponse_empty_iff_no_marker_witness :
    ("concepts", ["KEY CONCEPTS", "🎯"]) ∈ sectionMarkers ∧
    ∃ v, getMember (parseNotesResponse "the key concepts are: ATP") "concepts" = some v ∧
      (v = "" ↔ ∀ m, m ∈ ["KEY CONCEPTS", "🎯"] →
        includesFold "the key concepts are: ATP".toList m.toList = false) ∧
      ((∃ m, m ∈ ["KEY CONCEPTS", "🎯"] ∧
          includesFold "the key concepts are: ATP".toList m.toList = true) →
        v ≠ "" ∧
        ∃ m pre occ rest tail, m ∈ ["KEY CONCEPTS", "🎯"] ∧
          "the key concepts are: ATP".toList = pre ++ occ ++ rest ∧
          equalsFold m.toList occ = true ∧ v.toList = occ ++ tail) :=
  ⟨by decide,
    parseNotesResponse_empty_iff_no_marker "the key concepts are: ATP" "concepts"
      ["KEY CONCEPTS", "🎯"] (by decide)⟩

/-! ## Theorems on the concept extractors -/

/-- With enough fuel `callGeminiAPI` ends, whatever the key. -/
theorem callGeminiAPI_ends (fmt : ℚ → String) (env : Nat → Outcome) (fuel : Nat)
    (apiKey : Option String) (prompt : String) (config : SamplingConfig)
    (hfuel : RATE_LIMIT_CONFIG.maxRetries < fuel) :
    ∃ t, callGeminiAPI fmt env fuel apiKey prompt config = some t ∧
      ((∃ v, t.result = .returned v) ∨ (∃ e, t.result = .threw e)) := by
  by_cases hkey : (validateApiKey (apiKey.map Json.str)).isValid = true
  · cases apiKey with
    | none => simp [validateApiKey] at hkey
    | some key =>
      have hf : 4 - 0 < fuel := by simpa [RATE_LIMIT_CONFIG.maxRetries] using hfuel
      obtain ⟨t, ht, _, _, _, _, h5⟩ :=
        retryLoop_bounded fmt env (buildRequest key (buildRequestBody prompt config)) fuel 0 2000
          [] [] (by omega) hf
      exact ⟨t, (callGeminiAPI_valid fmt env fuel key prompt config hkey).trans ht, h5⟩
  · refine ⟨⟨[], [], .threw ⟨"Error", ERROR_MESSAGES.apiKeyMissing⟩⟩, ?_, Or.inr ⟨_, rfl⟩⟩
    simp [callGeminiAPI, hkey]

/-- C16: the model-backed `extractVisualConcepts` never rejects.  With enough fuel for the retry
loop it resolves to a list; when the generative call returned the text `text`, the list is the
parsed value if `text` parses to an array, and the empty list if `text` is not valid JSON or
parses to another value; when the generative call threw, the list is empty. -/
theorem geminiExtractVisualConcepts_never_rejects (parse : String → Except JsError Json)
    (fmt : ℚ → String) (env : Nat → Outcome) (fuel : Nat) (apiKey : Option String)
    (notesJson : Except JsError String)
    (hfuel : RATE_LIMIT_CONFIG.maxRetries < fuel) :
    (∃ concepts,
      geminiService.extractVisualConcepts parse fmt env fuel apiKey notesJson
        = some (.ok concepts)) ∧
    (∀ s t, notesJson = .ok s →
      callGeminiAPI fmt env fuel apiKey (extractConceptsPrompt s) SamplingConfig.empty = some t →
      (∀ text, t.result = .returned (some (.str text)) →
        (∀ xs, parse text = .ok (.arr xs) →
          geminiService.extractVisualConcepts parse fmt env fuel apiKey notesJson
            = some (.ok xs)) ∧
        (∀ e, parse text = .error e →
          geminiService.extractVisualConcepts parse fmt env fuel apiKey notesJson
            = some (.ok [])) ∧
        (∀ j, parse text = .ok j → (∀ xs, j ≠ .arr xs) →
          geminiService.extractVisualConcepts parse fmt env fuel apiKey notesJson
            = some (.ok []))) ∧
      (∀ e, t.result = .threw e →
        geminiService.extractVisualConcepts parse fmt env fuel apiKey notesJson
          = some (.ok []))) := by
  constructor
  · cases notesJson with
    | error e => exact ⟨[], rfl⟩
    | ok s =>
      obtain ⟨t, ht, hres⟩ := callGeminiAPI_ends fmt env fuel apiKey (extractConceptsPrompt s)
        SamplingConfig.empty hfuel
      rcases hres with ⟨v, hv⟩ | ⟨e, he⟩
      · exact ⟨geminiService.parseConcepts parse fmt v,
          by simp only [geminiService.extractVisualConcepts, ht, hv]⟩
      · exact ⟨[], by simp only [geminiService.extractVisualConcepts, ht, he]⟩
  · intro s t hs ht
    subst hs
    refine ⟨fun text hres => ⟨fun xs hp => ?_, fun e hp => ?_, fun j hp hj => ?_⟩,
      fun e hres => ?_⟩
    · simp only [geminiService.extractVisualConcepts, ht, hres, geminiService.parseConcepts,
        jsToString, jsonToString, hp]
    · simp only [geminiService.extractVisualConcepts, ht, hres, geminiService.parseConcepts,
        jsToString, jsonToString, hp]
    · cases j with
      | arr xs => exact absurd rfl (hj xs)
      | null => simp only [geminiService.extractVisualConcepts, ht, hres,
          geminiService.parseConcepts, jsToString, jsonToString, hp]
      | bool b => simp only [geminiService.extractVisualConcepts, ht, hres,
          geminiService.parseConcepts, jsToString, jsonToString, hp]
      | num q => simp only [geminiService.extractVisualConcepts, ht, hres,
          geminiService.parseConcepts, jsToString, jsonToString, hp]
      | str x => simp only [geminiService.extractVisualConcepts, ht, hres,
          geminiService.parseConcepts, jsToString, jsonToString, hp]
      | obj kvs => simp only [geminiService.extractVisualConcepts, ht, hres,
          geminiService.parseConcepts, jsToString, jsonToString, hp]
    · simp only [geminiService.extractVisualConcepts, ht, hres]

/-- The theorem `geminiExtractVisualConcepts_never_rejects` at a server whose answer is not
JSON: the promise resolves to the empty list. -/
theorem geminiExtractVisualConcepts_never_rejects_witness :
    RATE_LIMIT_CONFIG.maxRetries < 5 ∧
    geminiService.extractVisualConcepts sampleParse fmtInteger
        (textServer "Here are the concepts") 5 (some sampleKey) (.ok "\x7b\x7d")
      = some (.ok []) ∧
    ∃ concepts,
      geminiService.extractVisualConcepts sampleParse fmtInteger
          (textServer "Here are the concepts") 5 (some sampleKey) (.ok "\x7b\x7d")
        = some (.ok concepts) :=
  ⟨by decide, rfl,
    (geminiExtractVisualConcepts_never_rejects sampleParse fmtInteger
      (textServer "Here are the concepts") 5 (some sampleKey) (.ok "\x7b\x7d") (by decide)).1⟩

/-- C17 (code at the failing input): when the generative call returns a JSON array of six
elements, the model-backed `extractVisualConcepts` resolves to all six: the parsed array is
returned as it is, without a cap at 5. -/
theorem geminiExtractVisualConcepts_six :
    geminiService.extractVisualConcepts sampleParse fmtInteger (textServer sixConceptsText) 5
        (some sampleKey) (.ok "\x7b\x7d")
      = some (.ok sixConcepts) ∧
    sixConcepts.length = 6 := by
  constructor
  · rfl
  · rfl

/-- C18: for every notes object the local `extractVisualConcepts` returns at most 5 concepts;
for notes without the member `structured` it returns the empty list. -/
theorem veoExtractVisualConcepts_length (notes : Notes) :
    (veoService.extractVisualConcepts notes).length ≤ 5 ∧
    veoService.extractVisualConcepts ⟨none⟩ = [] := by
  constructor
  · unfold veoService.extractVisualConcepts
    rw [List.length_take]
    exact Nat.min_le_left _ _
  · rfl

/-- The entries built from lines are selected exactly at the indices below 3: the property that
`pushLineConcept` keeps. -/
theorem pushLineConcept_selected (acc : List Concept) (line : String)
    (h : ∀ i c, acc[i]? = some c → c.selected = decide (i < 3)) :
    ∀ i c, (pushLineConcept acc line)[i]? = some c → c.selected = decide (i < 3) := by
  intro i c hc
  unfold pushLineConcept at hc
  split at hc
  · simp only at hc
    split at hc
    · rcases Nat.lt_or_ge i acc.length with hi | hi
      · rw [List.getElem?_append_left hi] at hc
        exact h i c hc
      · rw [List.getElem?_append_right hi] at hc
        cases hsub : i - acc.length with
        | zero =>
          rw [hsub] at hc
          simp only [List.getElem?_cons_zero, Option.some.injEq] at hc
          have hi2 : i = acc.length := by omega
          rw [← hc, hi2]
        | succ n =>
          rw [hsub] at hc
          simp at hc
    · exact h i c hc
  · exact h i c hc

/-- The property of `pushLineConcept_selected` holds after the loop over the lines. -/
theorem foldl_pushLineConcept_selected : ∀ (lines : List String) (acc : List Concept),
    (∀ i c, acc[i]? = some c → c.selected = decide (i < 3)) →
    ∀ i c, (lines.foldl pushLineConcept acc)[i]? = some c → c.selected = decide (i < 3)
  | [], _, h => h
  | line :: lines, acc, h =>
    foldl_pushLineConcept_selected lines (pushLineConcept acc line)
      (pushLineConcept_selected acc line h)

/-- The entries of `lineConcepts` are selected exactly at the indices below 3. -/
theorem lineConcepts_selected (notes : Notes) :
    ∀ i c, (veoService.lineConcepts notes)[i]? = some c → c.selected = decide (i < 3) := by
  intro i c hc
  unfold veoService.lineConcepts at hc
  split at hc
  · simp at hc
  · split at hc
    · simp at hc
    · split at hc
      · simp at hc
      · exact foldl_pushLineConcept_selected _ [] (by simp) i c hc

/-- The entries of `formulaConcepts` are the formulas entry. -/
theorem formulaConcepts_mem (notes : Notes) :
    ∀ c, c ∈ veoService.formulaConcepts notes → c = formulasConcept := by
  intro c hc
  unfold veoService.formulaConcepts at hc
  split at hc
  · simp at hc
  · split at hc
    · simp at hc
    · split at hc
      · simp at hc
      · split at hc
        · simpa using hc
        · simp at hc

/-- C19 (as stated, refuted): for notes with an empty concepts section and a formula, the
returned list is the formulas entry alone: the entry at index 0 is not selected. -/
theorem veoExtractVisualConcepts_formulas_not_selected :
    veoService.extractVisualConcepts formulasOnlyNotes = [formulasConcept] ∧
    ((veoService.extractVisualConcepts formulasOnlyNotes)[0]?).map Concept.selected
      = some false := by
  decide

/-- C19 (amended): for every notes object, the entries built from the lines of the concepts
section are selected exactly when their index is below 3, and the entry added for the formulas
section is never selected: the entry at index `i` of the returned list has `selected = true`
exactly when `i < 3` and the entry is not the formulas entry. -/
theorem veoExtractVisualConcepts_selected (notes : Notes) (i : Nat) (c : Concept)
    (h : (veoService.extractVisualConcepts notes)[i]? = some c) :
    c.selected = true ↔ i < 3 ∧ c ≠ formulasConcept := by
  unfold veoService.extractVisualConcepts at h
  rw [List.getElem?_take] at h
  split at h
  · rename_i hi5
    rcases Nat.lt_or_ge i (veoService.lineConcepts notes).length with hi | hi
    · rw [List.getElem?_append_left hi] at h
      have hsel := lineConcepts_selected notes i c h
      constructor
      · intro hs
        rw [hs] at hsel
        refine ⟨by simpa using hsel.symm, ?_⟩
        intro hf
        rw [hf] at hs
        exact absurd hs (by decide)
      · rintro ⟨h3, _⟩
        rw [hsel]
        simpa using h3
    · rw [List.getElem?_append_right hi] at h
      have hmem : c ∈ veoService.formulaConcepts notes := List.getElem?_mem h
      have hf := formulaConcepts_mem notes c hmem
      constructor
      · intro hs
        rw [hf] at hs
        exact absurd hs (by decide)
      · rintro ⟨_, hne⟩
        exact absurd hf hne
  · cases h

/-- The theorem `veoExtractVisualConcepts_selected` on notes with four bullet items and a
formula, at the first entry (index 0), which is built from a line and selected. -/
theorem veoExtractVisualConcepts_selected_witness :
    (veoService.extractVisualConcepts fourBulletNotes)[0]?
      = some ⟨"Glycolysis splits glucose", "Glycolysis splits glucose", true⟩ ∧
    ((⟨"Glycolysis splits glucose", "Glycolysis splits glucose", true⟩ : Concept).selected = true ↔
      0 < 3 ∧ (⟨"Glycolysis splits glucose", "Glycolysis splits glucose", true⟩ : Concept)
        ≠ formulasConcept) :=
  ⟨by decide,
    veoExtractVisualConcepts_selected fourBulletNotes 0
      ⟨"Glycolysis splits glucose", "Glycolysis splits glucose", true⟩ (by decide)⟩

/-- C20 (code at the failing input): for the numbered item `1. Photosynthesis converts light`
the replacement removes the digit only, so the concept built has the description and the title
`. Photosynthesis converts light`, with the dot of the list marker, and not
`Photosynthesis converts light`. -/
theorem veoExtractVisualConcepts_numbered_item :
    veoService.extractVisualConcepts numberedItemNotes
      = [⟨". Photosynthesis converts light", ". Photosynthesis converts light", true⟩] ∧
    (". Photosynthesis converts light" : String) ≠ "Photosynthesis converts light" := by
  decide

/-! ## Theorems on the validators -/

/-- C25: `validateTranscript` accepts exactly the strings whose trimmed length is at least 50;
a value that is not a string, and the empty string, fail with `Transcript is empty or invalid`;
a non-empty string whose trimmed length is below 50 fails with the message that names the
minimum of 50 characters.  The function is total: it always returns a result. -/
theorem validateTranscript_spec (text : JsVal) :
    ((validateTranscript text).isValid = true ↔
      ∃ s, text = some (.str s) ∧ 50 ≤ utf16Length (jsTrim s)) ∧
    (((∀ s, text ≠ some (.str s)) ∨ text = some (.str "")) →
      validateTranscript text = ⟨false, some "Transcript is empty or invalid"⟩) ∧
    (∀ s, text = some (.str s) → s ≠ "" → utf16Length (jsTrim s) < 50 →
      validateTranscript text
        = ⟨false, some "Transcript must be at least 50 characters long"⟩) ∧
    (∀ s, text = some (.str s) → 50 ≤ utf16Length (jsTrim s) →
      validateTranscript text = ⟨true, none⟩) := by
  have hstr : ∀ s, validateTranscript (some (.str s))
      = if s = "" then ⟨false, some "Transcript is empty or invalid"⟩
        else if utf16Length (jsTrim s) < 50 then
          ⟨false, some "Transcript must be at least 50 characters long"⟩
        else ⟨true, none⟩ := by
    intro s
    have hmsg : "Transcript must be at least " ++ toString 50 ++ " characters long"
        = "Transcript must be at least 50 characters long" := by decide
    by_cases hs : s = ""
    · subst hs; rfl
    · by_cases hl : utf16Length (jsTrim s) < 50
      · simp [validateTranscript, truthy, hs, UI_CONSTANTS.minTranscriptLength, hl, hmsg]
      · simp [validateTranscript, truthy, hs, UI_CONSTANTS.minTranscriptLength, hl]
  have hempty : utf16Length (jsTrim "") = 0 := by decide
  refine ⟨?_, ?_, ?_, ?_⟩
  · constructor
    · intro h
      cases text with
      | none => simp [validateTranscript] at h
      | some j =>
        cases j with
        | str s =>
          refine ⟨s, rfl, ?_⟩
          rw [hstr] at h
          by_cases hs : s = ""
          · simp [hs] at h
          · by_cases hl : utf16Length (jsTrim s) < 50
            · simp [hs, hl] at h
            · omega
        | null => simp [validateTranscript] at h
        | bool b => simp [validateTranscript] at h
        | num q => simp [validateTranscript] at h
        | arr xs => simp [validateTranscript] at h
        | obj kvs => simp [validateTranscript] at h
    · rintro ⟨s, rfl, hl⟩
      rw [hstr]
      have hs : s ≠ "" := by
        intro h0
        rw [h0, hempty] at hl
        omega
      have hl2 : ¬ utf16Length (jsTrim s) < 50 := by omega
      simp [hs, hl2]
  · intro h
    rcases h with h | h
    · cases text with
      | none => rfl
      | some j =>
        cases j with
        | str s => exact absurd rfl (h s)
        | null => rfl
        | bool b => rfl
        | num q => rfl
        | arr xs => rfl
        | obj kvs => rfl
    · rw [h]; rfl
  · intro s h hs hl
    rw [h, hstr]
    simp [hs, hl]
  · intro s h hl
    rw [h, hstr]
    have hs : s ≠ "" := by
      intro h0
      rw [h0, hempty] at hl
      omega
    have hl2 : ¬ utf16Length (jsTrim s) < 50 := by omega
    simp [hs, hl2]

/-- C26: `validateApiKey` fails with `API key is required` for a value that is not a string and
for the empty string, fails with `API key appears to be too short` for a non-empty string whose
trimmed length is below 20, and accepts every string whose trimmed length is at least 20.  The
function is total: it always returns a result. -/
theorem validateApiKey_spec (key : JsVal) :
    (((∀ s, key ≠ some (.str s)) ∨ key = some (.str "")) →
      validateApiKey key = ⟨false, some "API key is required"⟩) ∧
    (∀ s, key = some (.str s) → s ≠ "" → utf16Length (jsTrim s) < 20 →
      validateApiKey key = ⟨false, some "API key appears to be too short"⟩) ∧
    (∀ s, key = some (.str s) → 20 ≤ utf16Length (jsTrim s) →
      validateApiKey key = ⟨true, none⟩) := by
  have hempty : utf16Length (jsTrim "") = 0 := by decide
  refine ⟨?_, ?_, ?_⟩
  · intro h
    rcases h with h | h
    · cases key with
      | none => rfl
      | some j =>
        cases j with
        | str s => exact absurd rfl (h s)
        | null => rfl
        | bool b => rfl
        | num q => rfl
        | arr xs => rfl
        | obj kvs => rfl
    · rw [h]; rfl
  · intro s h hs hl
    rw [h]
    simp [validateApiKey, truthy, hs, hl]
  · intro s h hl
    rw [h]
    have hs : s ≠ "" := by
      intro h0
      rw [h0, hempty] at hl
      omega
    have hl2 : ¬ utf16Length (jsTrim s) < 20 := by omega
    simp [validateApiKey, truthy, hs, hl2]

/-- C27: `validateAudioBlob` accepts exactly the blobs whose size is greater than 0 and at most
`100 * 1024 * 1024` and whose type contains `audio`; a blob of exactly the maximum size is
accepted; a value that is not a blob, an empty blob, an oversized blob and a blob of another
type each get a failure result with its reason.  The function is total. -/
theorem validateAudioBlob_spec (arg : BlobArg) :
    (validateAudioBlob arg = ⟨true, none⟩ ↔
      ∃ size type, arg = .blob size type ∧ 0 < size ∧ size ≤ 100 * 1024 * 1024 ∧
        jsIncludes type "audio" = true) ∧
    validateAudioBlob (.blob (100 * 1024 * 1024) "audio/webm") = ⟨true, none⟩ ∧
    (∀ v, arg = .other v → validateAudioBlob arg = ⟨false, some "Invalid audio blob"⟩) ∧
    (∀ type, arg = .blob 0 type → validateAudioBlob arg = ⟨false, some "Audio blob is empty"⟩) ∧
    (∀ size type, arg = .blob size type → 100 * 1024 * 1024 < size →
      validateAudioBlob arg = ⟨false, some "Audio file is too large (max 100MB)"⟩) ∧
    (∀ size type, arg = .blob size type → 0 < size → size ≤ 100 * 1024 * 1024 →
      jsIncludes type "audio" = false →
      validateAudioBlob arg = ⟨false, some "File is not an audio type"⟩) := by
  have hmax : STORAGE_CONFIG.maxAudioSize = 104857600 := rfl
  have hmsg : "Audio file is too large (max " ++ toString (104857600 / 1024 / 1024) ++ "MB)"
      = "Audio file is too large (max 100MB)" := by decide
  refine ⟨?_, by decide, ?_, ?_, ?_, ?_⟩
  · constructor
    · intro h
      cases arg with
      | other v => simp [validateAudioBlob] at h
      | blob size type =>
        refine ⟨size, type, rfl, ?_⟩
        simp only [validateAudioBlob, hmax] at h
        split at h
        · simp at h
        · split at h
          · simp at h
          · split at h
            · simp at h
            · rename_i h1 h2 h3
              refine ⟨by omega, by omega, ?_⟩
              simpa using h3
    · rintro ⟨size, type, rfl, h1, h2, h3⟩
      have h1' : size ≠ 0 := by omega
      have h2' : ¬ size > 104857600 := by omega
      simp [validateAudioBlob, hmax, h1', h2', h3]
  · intro v h; rw [h]; rfl
  · intro type h; rw [h]; rfl
  · intro size type h hl
    rw [h]
    have h1' : size ≠ 0 := by omega
    have h2' : size > 104857600 := by omega
    simp only [validateAudioBlob, hmax, h1', h2', ↓reduceIte, hmsg]
  · intro size type h h1 h2 h3
    rw [h]
    have h1' : size ≠ 0 := by omega
    have h2' : ¬ size > 104857600 := by omega
    simp [validateAudioBlob, hmax, h1', h2', h3]

/-- C30 (code at the failing input): a title of exactly 100 characters is accepted, although
the error message for long titles reads `Title must be less than 100 characters`: the test is
`trimmed.length > 100`. -/
theorem validateTitle_hundred :
    utf16Length (jsTrim hundredCharTitle) = 100 ∧
    validateTitle (some (.str hundredCharTitle)) = ⟨true, none⟩ := by
  constructor
  · rfl
  · rfl

/-! ## Theorems on the prompt builders and on note generation -/

set_option maxRecDepth 100000 in
/-- C23 (code at the failing input): for the style string `__proto__`, which is none of the
three style keywords, `styleDescriptions[style]` is the inherited `Object.prototype`, a truthy
value, so the fallback of `||` is not taken: the prompt reads `STYLE: [object Object]` and not
the educational description.  (For the omitted style, by contrast, the educational description
is embedded.) -/
theorem generateVeoPrompt_inherited_style :
    generateVeoPrompt v8NativeSource fmtInteger "ATP synthesis" ⟨some "__proto__", some 30⟩
      = veoPromptWith "[object Object]" ∧
    generateVeoPrompt v8NativeSource fmtInteger "ATP synthesis" ⟨none, some 30⟩
      = veoPromptWith
          "Clean educational whiteboard animation style with hand-drawn illustrations, vibrant colors, and smooth transitions. Professional yet engaging." ∧
    veoPromptWith "[object Object]"
      ≠ veoPromptWith
          "Clean educational whiteboard animation style with hand-drawn illustrations, vibrant colors, and smooth transitions. Professional yet engaging." := by
  refine ⟨by rfl, by rfl, by decide⟩

set_option maxRecDepth 100000 in
/-- C24: for every transcript and metadata, the prompt of `generateNotesPrompt` is the fixed
head, which ends with `TRANSCRIPT:` and a newline, then the transcript verbatim, then the
metadata lines with the title, date and duration, each replaced by its placeholder
(`Untitled Lecture`, `Unknown`, `Unknown`) when it is absent or empty, then the fixed tail, in
which the seven headings occur in the order 1 to 7. -/
theorem generateNotesPrompt_shape (transcript : String) (metadata : Metadata) :
    generateNotesPrompt transcript metadata
      = notesPromptHead ++ transcript ++ "\n\nMETADATA:\n- Title: "
        ++ orDefault metadata.title "Untitled Lecture" ++ "\n- Date: "
        ++ orDefault metadata.date "Unknown" ++ "\n- Duration: "
        ++ orDefault metadata.duration "Unknown" ++ notesPromptTail ∧
    (∃ before, notesPromptHead = before ++ "TRANSCRIPT:\n") ∧
    (∀ t placeholder, t ≠ "" → orDefault (some t) placeholder = t) ∧
    (∀ placeholder, orDefault none placeholder = placeholder ∧
      orDefault (some "") placeholder = placeholder) ∧
    generateNotesPrompt transcript Metadata.empty
      = notesPromptHead ++ transcript
        ++ "\n\nMETADATA:\n- Title: Untitled Lecture\n- Date: Unknown\n- Duration: Unknown"
        ++ notesPromptTail ∧
    occursInOrder (promptHeadings.map String.toList) notesPromptTail.toList = true := by
  refine ⟨rfl, ?_, ?_, ?_, ?_, by decide⟩
  · exact ⟨"You are an expert educational assistant helping students study from lecture transcripts. Analyze the following lecture transcript and generate comprehensive, structured study notes.\n\n", by decide⟩
  · intro t placeholder ht
    simp [orDefault, ht]
  · intro placeholder
    exact ⟨rfl, rfl⟩
  · simp only [generateNotesPrompt, Metadata.empty, orDefault, String.append_assoc]
    rfl

/-- The error of a rejected transcript is one of the two messages of the validator. -/
theorem validateTranscript_error (text : JsVal)
    (h : (validateTranscript text).isValid = false) :
    ∃ msg, (validateTranscript text).error = some msg ∧ msg ≠ "" := by
  cases text with
  | none => exact ⟨_, rfl, by decide⟩
  | some j =>
    cases j with
    | str s =>
      by_cases hs : s = ""
      · subst hs; exact ⟨_, rfl, by decide⟩
      · by_cases hl : utf16Length (jsTrim s) < 50
        · refine ⟨"Transcript must be at least " ++ toString 50 ++ " characters long", ?_,
            by decide⟩
          simp [validateTranscript, truthy, hs, UI_CONSTANTS.minTranscriptLength, hl]
        · simp [validateTranscript, truthy, hs, UI_CONSTANTS.minTranscriptLength, hl] at h
    | null => exact ⟨_, rfl, by decide⟩
    | bool b => exact ⟨_, rfl, by decide⟩
    | num q => exact ⟨_, rfl, by decide⟩
    | arr xs => exact ⟨_, rfl, by decide⟩
    | obj kvs => exact ⟨_, rfl, by decide⟩

/-- C29: when `validateTranscript` rejects the transcript, `generateNotes` rejects with the
message of the validator and sends no request; when it accepts the transcript and the
generative call returns the text `r`, `generateNotes` resolves to `raw = r`,
`structured = parseNotesResponse r` and `tokenCount` the least number with
`length r ≤ 4 * tokenCount`. -/
theorem generateNotes_spec (fmt : ℚ → String) (env : Nat → Outcome) (fuel : Nat)
    (apiKey : Option String) (now : Nat) (transcript : JsVal) (metadata : Metadata) :
    ((validateTranscript transcript).isValid = false →
      ∃ msg, (validateTranscript transcript).error = some msg ∧
        generateNotes fmt env fuel apiKey now transcript metadata
          = some ⟨[], [], .error ⟨"Error", msg⟩⟩) ∧
    (∀ t trace r, transcript = some (.str t) → (validateTranscript transcript).isValid = true →
      callGeminiAPI fmt env fuel apiKey (generateNotesPrompt t metadata) SamplingConfig.empty
        = some trace →
      trace.result = .returned (some (.str r)) →
      generateNotes fmt env fuel apiKey now transcript metadata
        = some ⟨trace.requests, trace.sleeps,
            .ok ⟨r, parseNotesResponse r, now, "gemini-1.5-flash", (utf16Length r + 3) / 4⟩⟩ ∧
      utf16Length r ≤ 4 * ((utf16Length r + 3) / 4) ∧
      4 * ((utf16Length r + 3) / 4) < utf16Length r + 4) := by
  constructor
  · intro h
    obtain ⟨msg, hmsg, hne⟩ := validateTranscript_error transcript h
    refine ⟨msg, hmsg, ?_⟩
    simp only [generateNotes, h, hmsg, orDefault, hne, ↓reduceIte]
  · intro t trace r ht hv hcall hres
    subst ht
    refine ⟨?_, by omega, by omega⟩
    simp only [generateNotes, hv, hcall, hres, buildNotes]

/-- The method `substring(0, n)` gives at most `n` UTF-16 code units. -/
theorem takeUnits_units : ∀ (l : List Char) (n : Nat),
    ((takeUnits n l).map utf16Units).sum ≤ n
  | [], n => by simp [takeUnits]
  | c :: cs, n => by
    by_cases h : utf16Units c ≤ n
    · have ih := takeUnits_units cs (n - utf16Units c)
      simp only [takeUnits, h, ↓reduceIte, List.map_cons, List.sum_cons]
      omega
    · simp [takeUnits, h]

/-- The titles stay within 100 code units when `pushLineConcept` adds an entry. -/
theorem pushLineConcept_title (acc : List Concept) (line : String)
    (h : ∀ c, c ∈ acc → utf16Length c.title ≤ 100) :
    ∀ c, c ∈ pushLineConcept acc line → utf16Length c.title ≤ 100 := by
  intro c hc
  unfold pushLineConcept at hc
  split at hc
  · simp only at hc
    split at hc
    · rcases List.mem_append.1 hc with hc | hc
      · exact h c hc
      · rw [List.mem_singleton.1 hc]
        exact takeUnits_units _ 100
    · exact h c hc
  · exact h c hc

/-- The titles stay within 100 code units through the loop over the lines. -/
theorem foldl_pushLineConcept_title : ∀ (lines : List String) (acc : List Concept),
    (∀ c, c ∈ acc → utf16Length c.title ≤ 100) →
    ∀ c, c ∈ lines.foldl pushLineConcept acc → utf16Length c.title ≤ 100
  | [], _, h => h
  | line :: lines, acc, h =>
    foldl_pushLineConcept_title lines (pushLineConcept acc line)
      (pushLineConcept_title acc line h)

/-- C21: every Concept that the local `extractVisualConcepts` returns, for every notes object,
has a title of at most 100 UTF-16 code units; its description is a string and its `selected`
member a boolean by the type of `Concept`. -/
theorem veoExtractVisualConcepts_title (notes : Notes) (c : Concept)
    (h : c ∈ veoService.extractVisualConcepts notes) :
    utf16Length c.title ≤ 100 := by
  have hmem := List.mem_of_mem_take h
  rcases List.mem_append.1 hmem with hl | hf
  · unfold veoService.lineConcepts at hl
    split at hl
    · simp at hl
    · split at hl
      · simp at hl
      · split at hl
        · simp at hl
        · exact foldl_pushLineConcept_title _ [] (by simp) c hl
  · rw [formulaConcepts_mem notes c hf]
    decide

/-- The theorem `veoExtractVisualConcepts_title` on notes with four bullet items, at the first
concept. -/
theorem veoExtractVisualConcepts_title_witness :
    (⟨"Glycolysis splits glucose", "Glycolysis splits glucose", true⟩ : Concept)
      ∈ veoService.extractVisualConcepts fourBulletNotes ∧
    utf16Length
      (⟨"Glycolysis splits glucose", "Glycolysis splits glucose", true⟩ : Concept).title ≤ 100 :=
  ⟨by decide,
    veoExtractVisualConcepts_title fourBulletNotes
      ⟨"Glycolysis splits glucose", "Glycolysis splits glucose", true⟩ (by decide)⟩

/-! ## Lemmas on texts without a section boundary -/

/-- The lookahead at a non-empty text: a newline, and then the start of an item. -/
theorem lookaheadHolds_cons (c : Char) (rest : List Char) :
    lookaheadHolds (c :: rest) = (c == '\n' && startsItem rest) := by
  cases rest <;> rfl

/-- What follows a text does not change whether the text starts an item, when what follows is
empty or begins with a newline. -/
theorem startsItem_append (cs post : List Char)
    (hpost : post = [] ∨ ∃ r, post = '\n' :: r) :
    startsItem (cs ++ post) = startsItem cs := by
  cases cs with
  | nil =>
    rcases hpost with rfl | ⟨r, rfl⟩
    · rfl
    · simp [startsItem]
  | cons d cs =>
    cases cs with
    | nil =>
      rcases hpost with rfl | ⟨r, rfl⟩
      · rfl
      · simp [startsItem]
    | cons e cs => simp [startsItem]

/-- The lazy body of a text without boundary, followed by a remainder at which the lookahead
holds, is the whole text. -/
theorem lazyBody_of_boundaryFree : ∀ (b post : List Char), boundaryFree b = true →
    (post = [] ∨ ∃ r, post = '\n' :: r) → lookaheadHolds post = true →
    lazyBody (b ++ post) = b
  | [], post, _, _, hl => by
    cases post with
    | nil => rfl
    | cons c cs => simp [lazyBody, hl]
  | c :: cs, post, hb, hpost, hl => by
    simp only [boundaryFree, Bool.and_eq_true, Bool.not_eq_true'] at hb
    have hc : lookaheadHolds (c :: (cs ++ post)) = false := by
      rw [lookaheadHolds_cons, startsItem_append cs post hpost]
      exact hb.1
    have ih := lazyBody_of_boundaryFree cs post hb.2 hpost hl
    simp only [List.cons_append, lazyBody, List.append_eq, hc, Bool.false_eq_true, ↓reduceIte, ih]

/-- A final part of a text without boundary has no boundary. -/
theorem boundaryFree_append_right : ∀ (x y : List Char), boundaryFree (x ++ y) = true →
    boundaryFree y = true
  | [], _, h => h
  | c :: cs, y, h => by
    simp only [List.cons_append, boundaryFree, Bool.and_eq_true] at h
    exact boundaryFree_append_right cs y h.2

/-- Characters other than the newline in front of a text add no boundary. -/
theorem boundaryFree_append_line : ∀ (t x : List Char), '\n' ∉ t →
    boundaryFree (t ++ x) = boundaryFree x
  | [], _, _ => rfl
  | c :: cs, x, h => by
    have hc : c ≠ '\n' := fun e => h (by simp [e])
    have hcs : '\n' ∉ cs := fun e => h (List.mem_cons_of_mem _ e)
    have hb : (c == '\n') = false := by simpa using hc
    simp only [List.cons_append, boundaryFree, hb, Bool.false_and, Bool.not_false, Bool.true_and]
    exact boundaryFree_append_line cs x hcs

/-- In a text without boundary the lookahead holds only at the end. -/
theorem eq_nil_of_lookaheadHolds (x post : List Char) (hb : boundaryFree (x ++ post) = true)
    (hl : lookaheadHolds post = true) : post = [] := by
  cases post with
  | nil => rfl
  | cons c cs =>
    have h := boundaryFree_append_right x (c :: cs) hb
    rw [lookaheadHolds_cons] at hl
    simp only [boundaryFree, hl, Bool.not_true, Bool.false_and] at h
    cases h

/-- Trimming leaves a text that begins and ends with a character other than white space. -/
theorem trimChars_id (l : List Char) (h : isTrimSafe l = true) : trimChars l = l := by
  have := trimChars_append l [] h
  simpa using this

/-- A text that holds the pattern still holds it with more text in front. -/
theorem includesChars_append_left (pat : List Char) : ∀ (a x : List Char),
    includesChars x pat = true → includesChars (a ++ x) pat = true
  | [], _, h => h
  | c :: cs, x, h => by
    have ih := includesChars_append_left pat cs x h
    simp [includesChars, ih]

/-- The first line of a text is what stands before its first newline. -/
theorem splitLines_append_newline : ∀ (a b : List Char), '\n' ∉ a →
    splitLines (a ++ '\n' :: b) = a :: splitLines b
  | [], b, _ => by simp [splitLines]
  | c :: cs, b, h => by
    have hc : c ≠ '\n' := fun e => h (by simp [e])
    have hcs : '\n' ∉ cs := fun e => h (List.mem_cons_of_mem _ e)
    have hb : (c == '\n') = false := by simpa using hc
    have ih := splitLines_append_newline cs b hcs
    simp only [List.cons_append, splitLines, List.append_eq, hb, Bool.false_eq_true, ↓reduceIte,
      ih]

/-- A text without newline is one line. -/
theorem splitLines_line : ∀ (a : List Char), '\n' ∉ a → splitLines a = [a]
  | [], _ => rfl
  | c :: cs, h => by
    have hc : c ≠ '\n' := fun e => h (by simp [e])
    have hcs : '\n' ∉ cs := fun e => h (List.mem_cons_of_mem _ e)
    have hb : (c == '\n') = false := by simpa using hc
    have ih := splitLines_line cs hcs
    simp only [splitLines, hb, Bool.false_eq_true, ↓reduceIte, ih]

/-- A pattern that matches no newline starts a text with a newline only when it is empty. -/
theorem startsWithFold_newline (pat rest : List Char)
    (hpat : ∀ p, p ∈ pat → sameLetter p '\n' = false) (hne : pat ≠ []) :
    startsWithFold ('\n' :: rest) pat = false := by
  cases pat with
  | nil => exact absurd rfl hne
  | cons p ps => simp [startsWithFold, hpat p (List.mem_cons_self _ _)]

/-- An occurrence of a pattern that matches no newline does not reach across a newline: the
pattern starts `a ++ newline ++ b` exactly when it starts `a`. -/
theorem startsWithFold_append_newline (pat : List Char)
    (hpat : ∀ p, p ∈ pat → sameLetter p '\n' = false) : ∀ (a b : List Char) (ps : List Char),
    (∀ p, p ∈ ps → p ∈ pat) →
    startsWithFold (a ++ '\n' :: b) ps = startsWithFold a ps
  | _, _, [], _ => by simp [startsWithFold]
  | [], b, p :: ps, hs => by
    simp [startsWithFold, hpat p (hs p (List.mem_cons_self _ _))]
  | c :: cs, b, p :: ps, hs => by
    have ih := startsWithFold_append_newline pat hpat cs b ps
      (fun q hq => hs q (List.mem_cons_of_mem _ hq))
    simp only [List.cons_append, startsWithFold, List.append_eq, ih]

/-- A pattern that matches no newline occurs in `a ++ newline ++ b` exactly when it occurs in
`a` or in `b`. -/
theorem includesFold_append_newline (pat : List Char)
    (hpat : ∀ p, p ∈ pat → sameLetter p '\n' = false) (hne : pat ≠ []) :
    ∀ (a b : List Char),
    includesFold (a ++ '\n' :: b) pat = (includesFold a pat || includesFold b pat)
  | [], b => by
    have h1 : startsWithFold ('\n' :: b) pat = false := startsWithFold_newline pat b hpat hne
    have h2 : startsWithFold [] pat = false := by
      cases pat with
      | nil => exact absurd rfl hne
      | cons p ps => rfl
    simp [includesFold, h1, h2]
  | c :: cs, b => by
    have ih := includesFold_append_newline pat hpat hne cs b
    have hs := startsWithFold_append_newline pat hpat (c :: cs) b pat (fun _ h => h)
    simp only [List.cons_append] at hs
    simp only [List.cons_append, includesFold, List.append_eq, hs, ih, Bool.or_assoc]

/-- A pattern is an occurrence of itself. -/
theorem equalsFold_refl : ∀ (l : List Char), equalsFold l l = true
  | [] => rfl
  | c :: cs => by simp [equalsFold, sameLetter, equalsFold_refl cs]

/-- A text whose first and last characters are not white space is safe for trimming. -/
theorem isTrimSafe_of_head_getLast (l : List Char) (c d : Char)
    (hh : l.head? = some c) (hl : l.getLast? = some d)
    (hc : jsIsWhitespace c = false) (hd : jsIsWhitespace d = false) : isTrimSafe l = true := by
  simp [isTrimSafe, hh, hl, hc, hd]

/-- The first character of a text that is safe for trimming. -/
theorem head_of_isTrimSafe (l : List Char) (h : isTrimSafe l = true) :
    ∃ c rest, l = c :: rest ∧ jsIsWhitespace c = false := by
  cases l with
  | nil => simp [isTrimSafe] at h
  | cons c rest =>
    refine ⟨c, rest, rfl, ?_⟩
    unfold isTrimSafe at h
    cases hl : (c :: rest).getLast? with
    | none => simp at hl
    | some d =>
      simp only [List.head?_cons, hl, Bool.and_eq_true, Bool.not_eq_true'] at h
      exact h.1

/-- The last character of a text that is safe for trimming. -/
theorem getLast_of_isTrimSafe (l : List Char) (h : isTrimSafe l = true) :
    ∃ d, l.getLast? = some d ∧ jsIsWhitespace d = false := by
  unfold isTrimSafe at h
  cases hh : l.head? with
  | none => simp [hh] at h
  | some c =>
    cases hl : l.getLast? with
    | none => simp [hh, hl] at h
    | some d =>
      simp only [hh, hl, Bool.and_eq_true, Bool.not_eq_true'] at h
      exact ⟨d, rfl, h.2⟩

/-- The value of `extractSection` when the heading phrase, the first marker of the list, has its
first occurrence on a heading line that is followed by a body without boundary. -/
theorem extractSection_heading (text phrase : String) (after : List String)
    (pre b post : List Char)
    (htext : text.toList = pre ++ phrase.toList ++ '\n' :: (b ++ post))
    (hfirst : includesFold (pre ++ phrase.toList.dropLast) phrase.toList = false)
    (hb : boundaryFree b = true) (hstart : startsItem b = false)
    (hpost : post = [] ∨ ∃ r, post = '\n' :: r) (hl : lookaheadHolds post = true) :
    extractSection text (phrase :: after)
      = jsTrim (String.mk (phrase.toList ++ '\n' :: b)) := by
  have h := extractSection_of_first text phrase after pre phrase.toList ('\n' :: (b ++ post))
    htext (equalsFold_refl _) hfirst [] (by simp)
  have hlazy : lazyBody ('\n' :: (b ++ post)) = '\n' :: b := by
    have h0 : lookaheadHolds ('\n' :: (b ++ post)) = false := by
      rw [lookaheadHolds_cons, startsItem_append b post hpost, hstart]
      rfl
    simp only [lazyBody, h0, Bool.false_eq_true, ↓reduceIte,
      lazyBody_of_boundaryFree b post hb hpost hl]
  rw [List.nil_append, hlazy] at h
  exact h

/-- The value of the formulas section of a text without boundary that ends with a block `B`
which begins with the symbol of the section: the match starts at or before `B`, so the value
holds everything that `B` holds. -/
theorem formulas_includes (text : String) (A B pat : List Char)
    (htext : text.toList = A ++ B)
    (hfree : boundaryFree text.toList = true)
    (hB1 : startsWithFold B "📐".toList = true)
    (hB2 : ∀ c rest, B = c :: rest → includesFold rest "FORMULAS & EQUATIONS".toList = false)
    (hB3 : ∃ d, B.getLast? = some d ∧ jsIsWhitespace d = false)
    (hB4 : includesChars B pat = true) :
    includesChars
      (extractSection text ["FORMULAS & EQUATIONS", "📐", "FORMULAS"]).toList pat = true := by
  have hsym : includesFold text.toList "📐".toList = true := by
    rw [htext]
    exact includesFold_of_startsWith _ A B hB1
  rcases extractSection_cases text ["FORMULAS & EQUATIONS", "📐", "FORMULAS"] with ⟨_, h2⟩ |
    ⟨before, marker, after, pre, occ, body, post, h1, h2, h3, h4, h5, h6, h7, h8⟩
  · rw [h2 "📐" (by simp)] at hsym
    cases hsym
  · have hpost : post = [] := by
      apply eq_nil_of_lookaheadHolds (pre ++ occ ++ body) post _ h6
      rw [← h3]
      exact hfree
    subst hpost
    simp only [List.append_nil] at h3 h5 h7
    have hmarker : marker = "FORMULAS & EQUATIONS" ∨ marker = "📐" := by
      rcases before with _ | ⟨b1, _ | ⟨b2, _ | ⟨b3, bs⟩⟩⟩
      · simp at h1
        exact Or.inl h1.1.symm
      · simp at h1
        exact Or.inr h1.2.1.symm
      · simp at h1
        have := h2 b2 (by simp)
        rw [← h1.2.1, hsym] at this
        cases this
      · simp at h1
    have hsafe : isTrimSafe occ = true := by
      apply isTrimSafe_of_equalsFold marker.toList occ h4
      rcases hmarker with rfl | rfl <;> decide
    have hsplit : ∃ a, occ ++ body = a ++ B := by
      have h3' : pre ++ (occ ++ body) = A ++ B := by
        rw [← htext, h3]
        simp
      rcases List.append_eq_append_iff.1 h3' with ⟨a, hA, hrest⟩ | ⟨c, hpre, hB⟩
      · exact ⟨a, hrest⟩
      · cases c with
        | nil => exact ⟨[], by simpa using hB.symm⟩
        | cons x c =>
          exfalso
          rcases hmarker with rfl | rfl
          · have hinc := includesFold_of_startsWith "FORMULAS & EQUATIONS".toList c (occ ++ body)
              (startsWithFold_append _ occ body h4)
            have := hB2 x (c ++ (occ ++ body)) (by rw [hB]; simp)
            rw [this] at hinc
            cases hinc
          · have := h5 A (x :: c) hpre (by simp)
            have hB' : x :: c ++ occ ++ body = B := by rw [hB]; simp
            rw [hB', hB1] at this
            cases this
    obtain ⟨a, ha⟩ := hsplit
    obtain ⟨c, rest, hocc, hc⟩ := head_of_isTrimSafe occ hsafe
    obtain ⟨d, hd1, hd2⟩ := hB3
    have hsafe2 : isTrimSafe (occ ++ body) = true := by
      apply isTrimSafe_of_head_getLast (occ ++ body) c d _ _ hc hd2
      · rw [hocc]; rfl
      · rw [ha, List.getLast?_append, hd1]; rfl
    have hv : (extractSection text ["FORMULAS & EQUATIONS", "📐", "FORMULAS"]).toList
        = a ++ B := by
      rw [h8]
      exact (jsTrim_toList _).trans ((trimChars_id (occ ++ body) hsafe2).trans ha)
    rw [hv]
    exact includesChars_append_left pat a B hB4

/-! ## The end-to-end local path -/

/-- A line that is no list item leaves the concepts as they are. -/
theorem pushLineConcept_skip (acc : List Concept) (line : String)
    (h : (startsWithBullet line.toList || startsWithNumber line.toList) = false) :
    pushLineConcept acc line = acc := by
  simp only [pushLineConcept, h, Bool.false_eq_true, ↓reduceIte]

/-- The last character of a text that ends with a non-empty text. -/
theorem getLast?_append_cons (a b : List Char) (c : Char) :
    (a ++ c :: b).getLast? = (c :: b).getLast? := by
  induction a with
  | nil => rfl
  | cons x xs ih =>
    cases xs with
    | nil => rfl
    | cons y ys => simpa [List.getLast?_cons_cons] using ih

/-- A bullet item `- t`, with `t` longer than 10 code units and without white space at its
ends, adds the concept with the description `t`. -/
theorem pushLineConcept_bullet (acc : List Concept) (t : String)
    (hlen : 10 < utf16Length t) (htrim : isTrimSafe t.toList = true) :
    pushLineConcept acc (String.mk ('-' :: ' ' :: t.toList))
      = acc ++ [⟨jsSubstringTo 100 t, t, decide (acc.length < 3)⟩] := by
  obtain ⟨c, rest, hc, hw⟩ := head_of_isTrimSafe t.toList htrim
  have hstrip : stripListMarker ('-' :: ' ' :: t.toList) = t.toList := by
    have h1 : stripListMarker ('-' :: ' ' :: t.toList)
        = (' ' :: t.toList).dropWhile jsIsWhitespace := rfl
    have h2 : (' ' :: t.toList).dropWhile jsIsWhitespace
        = t.toList.dropWhile jsIsWhitespace := rfl
    rw [h1, h2, hc]
    simp [List.dropWhile, hw]
  have hclean : jsTrim (String.mk (stripListMarker ('-' :: ' ' :: t.toList))) = t := by
    rw [hstrip]
    have : jsTrim (String.mk t.toList) = String.mk (trimChars t.toList) := rfl
    rw [this, trimChars_id t.toList htrim]
    rfl
  have hb : startsWithBullet ('-' :: ' ' :: t.toList) = true := rfl
  have hlen2 : utf16Length t > 10 := hlen
  have e : (String.mk ('-' :: ' ' :: t.toList)).toList = '-' :: ' ' :: t.toList := rfl
  simp only [pushLineConcept, e, hb, Bool.true_or, ↓reduceIte, hclean, hlen2]

/-- C22: for every single-line text `t` of more than 10 UTF-16 code units that begins and ends
with a character other than white space, parsing the response
`🎯 KEY CONCEPTS`, `- t`, `📐 FORMULAS`, `No formulas covered` with `parseNotesResponse` and
passing the parsed object as `structured` to the local `extractVisualConcepts` yields exactly
one Concept: its title is the first 100 code units of `t`, its description is `t`, it is
selected, and there is no formulas entry. -/
theorem localPath_single_bullet (t : String)
    (hline : '\n' ∉ t.toList) (hlen : 10 < utf16Length t)
    (htrim : isTrimSafe t.toList = true) :
    veoService.extractVisualConcepts ⟨some (parseNotesResponse (bulletResponse t))⟩
      = [⟨jsSubstringTo 100 t, t, true⟩] := by
  -- the pieces of the response
  have htext : (bulletResponse t).toList
      = "🎯 ".toList ++ "KEY CONCEPTS".toList
        ++ '\n' :: (('-' :: ' ' :: t.toList) ++ '\n' :: "📐 FORMULAS\nNo formulas covered".toList
          ++ []) := by
    simp [bulletResponse]
  have hline2 : '\n' ∉ '-' :: ' ' :: t.toList := by
    intro h
    rcases List.mem_cons.1 h with h | h
    · exact absurd h (by decide)
    · rcases List.mem_cons.1 h with h | h
      · exact absurd h (by decide)
      · exact hline h
  obtain ⟨d, hd1, hd2⟩ := getLast_of_isTrimSafe t.toList htrim
  -- the body after the heading has no boundary
  have hbody : boundaryFree
      (('-' :: ' ' :: t.toList) ++ '\n' :: "📐 FORMULAS\nNo formulas covered".toList) = true := by
    rw [boundaryFree_append_line _ _ hline2]
    decide
  -- the concepts section
  have hconcepts : extractSection (bulletResponse t) ["KEY CONCEPTS", "🎯"]
      = String.mk ("KEY CONCEPTS".toList ++ '\n' :: (('-' :: ' ' :: t.toList)
          ++ '\n' :: ("📐 FORMULAS".toList ++ '\n' :: "No formulas covered".toList))) := by
    have h := extractSection_heading (bulletResponse t) "KEY CONCEPTS" ["🎯"] "🎯 ".toList
      (('-' :: ' ' :: t.toList) ++ '\n' :: "📐 FORMULAS\nNo formulas covered".toList) []
      htext (by decide) hbody rfl (Or.inl rfl) rfl
    rw [h]
    have hsafe : isTrimSafe ("KEY CONCEPTS".toList ++ '\n' :: (('-' :: ' ' :: t.toList)
        ++ '\n' :: "📐 FORMULAS\nNo formulas covered".toList)) = true := by
      refine isTrimSafe_of_head_getLast ("KEY CONCEPTS".toList ++ '\n' ::
        (('-' :: ' ' :: t.toList) ++ '\n' :: "📐 FORMULAS\nNo formulas covered".toList))
        'K' 'd' rfl ?_ (by decide) (by decide)
      rw [getLast?_append_cons, ← List.cons_append, getLast?_append_cons]
      rfl
    have : jsTrim (String.mk ("KEY CONCEPTS".toList ++ '\n' :: (('-' :: ' ' :: t.toList)
        ++ '\n' :: "📐 FORMULAS\nNo formulas covered".toList)))
        = String.mk (trimChars ("KEY CONCEPTS".toList ++ '\n' :: (('-' :: ' ' :: t.toList)
          ++ '\n' :: "📐 FORMULAS\nNo formulas covered".toList))) := rfl
    rw [this, trimChars_id _ hsafe]
    rfl
  -- its lines
  have hlines : jsSplitLines (String.mk ("KEY CONCEPTS".toList ++ '\n' ::
      (('-' :: ' ' :: t.toList)
        ++ '\n' :: ("📐 FORMULAS".toList ++ '\n' :: "No formulas covered".toList))))
      = ["KEY CONCEPTS", String.mk ('-' :: ' ' :: t.toList), "📐 FORMULAS",
          "No formulas covered"] := by
    unfold jsSplitLines
    have e : (String.mk ("KEY CONCEPTS".toList ++ '\n' :: (('-' :: ' ' :: t.toList)
        ++ '\n' :: ("📐 FORMULAS".toList ++ '\n' :: "No formulas covered".toList)))).toList
        = "KEY CONCEPTS".toList ++ '\n' :: (('-' :: ' ' :: t.toList)
          ++ '\n' :: ("📐 FORMULAS".toList ++ '\n' :: "No formulas covered".toList)) := rfl
    rw [e, splitLines_append_newline _ _ (by decide), splitLines_append_newline _ _ hline2,
      splitLines_append_newline _ _ (by decide), splitLines_line _ (by decide)]
    rfl
  have hkeep : jsTrim (String.mk ('-' :: ' ' :: t.toList)) ≠ "" := by
    have hsafe : isTrimSafe ('-' :: ' ' :: t.toList) = true := by
      refine isTrimSafe_of_head_getLast ('-' :: ' ' :: t.toList) '-' d rfl ?_ (by decide) hd2
      obtain ⟨c, rest, hc, _⟩ := head_of_isTrimSafe t.toList htrim
      rw [hc] at hd1 ⊢
      have := getLast?_append_cons ['-', ' '] rest c
      simpa [this] using hd1
    have : jsTrim (String.mk ('-' :: ' ' :: t.toList))
        = String.mk (trimChars ('-' :: ' ' :: t.toList)) := rfl
    rw [this, trimChars_id _ hsafe]
    intro h
    have := congrArg String.toList h
    simp at this
  -- the concepts built from the lines
  have hlc : veoService.lineConcepts ⟨some (parseNotesResponse (bulletResponse t))⟩
      = [⟨jsSubstringTo 100 t, t, true⟩] := by
    have hm : getMember (parseNotesResponse (bulletResponse t)) "concepts"
        = some (extractSection (bulletResponse t) ["KEY CONCEPTS", "🎯"]) := rfl
    have hne : String.mk ("KEY CONCEPTS".toList ++ '\n' :: (('-' :: ' ' :: t.toList)
        ++ '\n' :: ("📐 FORMULAS".toList ++ '\n' :: "No formulas covered".toList))) ≠ "" := by
      intro h
      have := congrArg String.toList h
      simp at this
    have hk1 : jsTrim "KEY CONCEPTS" ≠ "" := by decide
    have hk3 : jsTrim "📐 FORMULAS" ≠ "" := by decide
    have hk4 : jsTrim "No formulas covered" ≠ "" := by decide
    have hp1 : pushLineConcept [] "KEY CONCEPTS" = [] := pushLineConcept_skip _ _ (by decide)
    have hp2 := pushLineConcept_bullet [] t hlen htrim
    have hp3 : pushLineConcept ([] ++ [⟨jsSubstringTo 100 t, t, decide (([] : List Concept).length < 3)⟩])
        "📐 FORMULAS" = [] ++ [⟨jsSubstringTo 100 t, t, decide (([] : List Concept).length < 3)⟩] :=
      pushLineConcept_skip _ _ (by decide)
    have hp4 : pushLineConcept ([] ++ [⟨jsSubstringTo 100 t, t, decide (([] : List Concept).length < 3)⟩])
        "No formulas covered"
        = [] ++ [⟨jsSubstringTo 100 t, t, decide (([] : List Concept).length < 3)⟩] :=
      pushLineConcept_skip _ _ (by decide)
    have hfilter : List.filter (fun line => decide (jsTrim line ≠ ""))
        ["KEY CONCEPTS", String.mk ('-' :: ' ' :: t.toList), "📐 FORMULAS",
          "No formulas covered"]
        = ["KEY CONCEPTS", String.mk ('-' :: ' ' :: t.toList), "📐 FORMULAS",
          "No formulas covered"] := by
      simp only [List.filter, hk1, hkeep, hk3, hk4, ne_eq, not_false_eq_true, decide_True]
    have hrun : List.foldl pushLineConcept []
        (["KEY CONCEPTS", String.mk ('-' :: ' ' :: t.toList), "📐 FORMULAS",
          "No formulas covered"].take 5) = [⟨jsSubstringTo 100 t, t, true⟩] := by
      simp only [List.take, List.foldl, hp1, hp2, hp3, hp4]
      rfl
    simp only [veoService.lineConcepts, hm, hconcepts, if_neg hne, hlines, hfilter, hrun]
  -- no formulas entry
  have hfc : veoService.formulaConcepts ⟨some (parseNotesResponse (bulletResponse t))⟩ = [] := by
    have hm : getMember (parseNotesResponse (bulletResponse t)) "formulas"
        = some (extractSection (bulletResponse t) ["FORMULAS & EQUATIONS", "📐", "FORMULAS"]) :=
      rfl
    have hfree : boundaryFree (bulletResponse t).toList = true := by
      have e : (bulletResponse t).toList = "🎯 KEY CONCEPTS".toList ++ ('\n' ::
          (('-' :: ' ' :: t.toList) ++ '\n' :: "📐 FORMULAS\nNo formulas covered".toList)) := by
        simp [bulletResponse]
      rw [e, boundaryFree_append_line _ _ (by decide)]
      have hb2 : boundaryFree ('\n' :: (('-' :: ' ' :: t.toList)
          ++ '\n' :: "📐 FORMULAS\nNo formulas covered".toList))
          = boundaryFree (('-' :: ' ' :: t.toList)
            ++ '\n' :: "📐 FORMULAS\nNo formulas covered".toList) := rfl
      rw [hb2]
      exact hbody
    have hinc := formulas_includes (bulletResponse t)
      ("🎯 KEY CONCEPTS\n- ".toList ++ t.toList ++ ['\n']) "📐 FORMULAS\nNo formulas covered".toList
      "No formulas".toList (by simp [bulletResponse]) hfree (by decide)
      (by
        intro c rest h
        have : rest = " FORMULAS\nNo formulas covered".toList := by
          have h2 : "📐 FORMULAS\nNo formulas covered".toList
              = '📐' :: " FORMULAS\nNo formulas covered".toList := by decide
          rw [h2] at h
          exact (List.cons.inj h).2.symm
        rw [this]
        decide)
      ⟨'d', by decide, by decide⟩ (by decide)
    have hinc2 : jsIncludes
        (extractSection (bulletResponse t) ["FORMULAS & EQUATIONS", "📐", "FORMULAS"])
        "No formulas" = true := hinc
    simp only [veoService.formulaConcepts, hm, hinc2, Bool.not_true, Bool.false_eq_true,
      ↓reduceIte, ite_self]
  unfold veoService.extractVisualConcepts
  rw [hlc, hfc]
  rfl

/-- The theorem `localPath_single_bullet` at the text `ATP production`. -/
theorem localPath_single_bullet_witness :
    '\n' ∉ "ATP production".toList ∧ 10 < utf16Length "ATP production" ∧
    isTrimSafe "ATP production".toList = true ∧
    veoService.extractVisualConcepts
        ⟨some (parseNotesResponse (bulletResponse "ATP production"))⟩
      = [⟨jsSubstringTo 100 "ATP production", "ATP production", true⟩] :=
  ⟨by decide, by decide, by decide,
    localPath_single_bullet "ATP production" (by decide) (by decide) (by decide)⟩

/-! ## The parser on the layout of the notes prompt -/

/-- The heading phrase, a newline and the body, as one string. -/
theorem mk_heading_body (p b : String) :
    String.mk (p.toList ++ '\n' :: b.toList) = p ++ "\n" ++ b := by
  apply String.ext
  simp

/-- A plain body contains no marker of any section, in any letter case. -/
theorem includesFold_of_isPlainBody (b : String) (h : isPlainBody b = true)
    (key : String) (markers : List String) (m : String)
    (hk : (key, markers) ∈ sectionMarkers) (hm : m ∈ markers) :
    includesFold b.toList m.toList = false := by
  simp only [isPlainBody, containsSectionMarker, Bool.and_eq_true, Bool.not_eq_true',
    List.any_eq_false] at h
  have h2 := h.1.1 (key, markers) hk
  cases hres : includesFold b.toList m.toList with
  | false => rfl
  | true => exact absurd (List.any_eq_true.2 ⟨m, hm, hres⟩) h2

/-- A plain body holds no boundary of a section. -/
theorem boundaryFree_of_isPlainBody (b : String) (h : isPlainBody b = true) :
    boundaryFree b.toList = true := by
  simp only [isPlainBody, Bool.and_eq_true] at h
  exact h.1.2

/-- A plain body does not begin like a boundary of a section. -/
theorem startsItem_of_isPlainBody (b : String) (h : isPlainBody b = true) :
    startsItem b.toList = false := by
  simp only [isPlainBody, Bool.and_eq_true, Bool.not_eq_true'] at h
  exact h.2

/-- The section found under a heading phrase that is followed by a newline and a plain body. -/
theorem extractSection_plain (text phrase : String) (after : List String)
    (pre post : List Char) (b : String)
    (htext : text.toList = pre ++ phrase.toList ++ '\n' :: (b.toList ++ post))
    (hfirst : includesFold (pre ++ phrase.toList.dropLast) phrase.toList = false)
    (hb : isPlainBody b = true)
    (hpost : post = [] ∨ ∃ r, post = '\n' :: r) (hl : lookaheadHolds post = true) :
    extractSection text (phrase :: after) = jsTrim (phrase ++ "\n" ++ b) := by
  rw [extractSection_heading text phrase after pre b.toList post htext hfirst
    (boundaryFree_of_isPlainBody b hb) (startsItem_of_isPlainBody b hb) hpost hl,
    mk_heading_body]

set_option maxRecDepth 100000 in
/-- The section `summary` of a response in the layout of the notes prompt with plain bodies. -/
theorem promptLayout_summary (b1 b2 b3 b4 b5 b6 b7 : String)
    (h1 : isPlainBody b1 = true) :
    extractSection (promptLayout b1 b2 b3 b4 b5 b6 b7) ["EXECUTIVE SUMMARY", "📋"]
      = jsTrim ("EXECUTIVE SUMMARY" ++ "\n" ++ b1) := by
  have hp : ∀ c, c ∈ "EXECUTIVE SUMMARY".toList → sameLetter c '\n' = false := by decide
  have hne : "EXECUTIVE SUMMARY".toList ≠ [] := by decide
  have hf : includesFold ("1. 📋 ".toList ++ "EXECUTIVE SUMMARY".toList.dropLast)
      "EXECUTIVE SUMMARY".toList = false := by
    decide
  have e : "1. 📋 ".toList ++ "EXECUTIVE SUMMARY".toList.dropLast
      = "1. 📋 ".toList ++ "EXECUTIVE SUMMARY".toList.dropLast := by
    simp only [List.append_assoc, List.cons_append]
  refine extractSection_plain (promptLayout b1 b2 b3 b4 b5 b6 b7) "EXECUTIVE SUMMARY" ["📋"]
    ("1. 📋 ".toList)
    ('\n' :: ("2. 🎯 KEY CONCEPTS".toList ++ '\n' :: (b2.toList ++ '\n' :: ("3. 📐 FORMULAS & EQUATIONS".toList ++ '\n' :: (b3.toList ++ '\n' :: ("4. 📖 DEFINITIONS & TERMINOLOGY".toList ++ '\n' :: (b4.toList ++ '\n' :: ("5. ❓ PRACTICE QUESTIONS".toList ++ '\n' :: (b5.toList ++ '\n' :: ("6. ⚡ QUICK REVIEW POINTS".toList ++ '\n' :: (b6.toList ++ '\n' :: ("7. 💡 STUDY TIPS".toList ++ '\n' :: b7.toList)))))))))))) b1 ?_ (e ▸ hf) h1 (Or.inr ⟨_, rfl⟩) rfl
  simp [promptLayout]

set_option maxRecDepth 100000 in
/-- The section `concepts` of a response in the layout of the notes prompt with plain bodies. -/
theorem promptLayout_concepts (b1 b2 b3 b4 b5 b6 b7 : String)
    (h1 : isPlainBody b1 = true) (h2 : isPlainBody b2 = true) :
    extractSection (promptLayout b1 b2 b3 b4 b5 b6 b7) ["KEY CONCEPTS", "🎯"]
      = jsTrim ("KEY CONCEPTS" ++ "\n" ++ b2) := by
  have hp : ∀ c, c ∈ "KEY CONCEPTS".toList → sameLetter c '\n' = false := by decide
  have hne : "KEY CONCEPTS".toList ≠ [] := by decide
  have hf : includesFold ("1. 📋 EXECUTIVE SUMMARY".toList ++ '\n' :: (b1.toList ++ '\n' :: ("2. 🎯 ".toList ++ "KEY CONCEPTS".toList.dropLast)))
      "KEY CONCEPTS".toList = false := by
    rw [includesFold_append_newline _ hp hne, includesFold_append_newline _ hp hne]
    rw [includesFold_of_isPlainBody b1 h1 "concepts" ["KEY CONCEPTS", "🎯"] "KEY CONCEPTS" (by decide) (by decide)]
    decide
  have e : "1. 📋 EXECUTIVE SUMMARY".toList ++ '\n' :: (b1.toList ++ '\n' :: ("2. 🎯 ".toList)) ++ "KEY CONCEPTS".toList.dropLast
      = "1. 📋 EXECUTIVE SUMMARY".toList ++ '\n' :: (b1.toList ++ '\n' :: ("2. 🎯 ".toList ++ "KEY CONCEPTS".toList.dropLast)) := by
    simp only [List.append_assoc, List.cons_append]
  refine extractSection_plain (promptLayout b1 b2 b3 b4 b5 b6 b7) "KEY CONCEPTS" ["🎯"]
    ("1. 📋 EXECUTIVE SUMMARY".toList ++ '\n' :: (b1.toList ++ '\n' :: ("2. 🎯 ".toList)))
    ('\n' :: ("3. 📐 FORMULAS & EQUATIONS".toList ++ '\n' :: (b3.toList ++ '\n' :: ("4. 📖 DEFINITIONS & TERMINOLOGY".toList ++ '\n' :: (b4.toList ++ '\n' :: ("5. ❓ PRACTICE QUESTIONS".toList ++ '\n' :: (b5.toList ++ '\n' :: ("6. ⚡ QUICK REVIEW POINTS".toList ++ '\n' :: (b6.toList ++ '\n' :: ("7. 💡 STUDY TIPS".toList ++ '\n' :: b7.toList)))))))))) b2 ?_ (e ▸ hf) h2 (Or.inr ⟨_, rfl⟩) rfl
  simp [promptLayout]

set_option maxRecDepth 100000 in
/-- The section `formulas` of a response in the layout of the notes prompt with plain bodies. -/
theorem promptLayout_formulas (b1 b2 b3 b4 b5 b6 b7 : String)
    (h1 : isPlainBody b1 = true) (h2 : isPlainBody b2 = true) (h3 : isPlainBody b3 = true) :
    extractSection (promptLayout b1 b2 b3 b4 b5 b6 b7) ["FORMULAS & EQUATIONS", "📐", "FORMULAS"]
      = jsTrim ("FORMULAS & EQUATIONS" ++ "\n" ++ b3) := by
  have hp : ∀ c, c ∈ "FORMULAS & EQUATIONS".toList → sameLetter c '\n' = false := by decide
  have hne : "FORMULAS & EQUATIONS".toList ≠ [] := by decide
  have hf : includesFold ("1. 📋 EXECUTIVE SUMMARY".toList ++ '\n' :: (b1.toList ++ '\n' :: ("2. 🎯 KEY CONCEPTS".toList ++ '\n' :: (b2.toList ++ '\n' :: ("3. 📐 ".toList ++ "FORMULAS & EQUATIONS".toList.dropLast)))))
      "FORMULAS & EQUATIONS".toList = false := by
    rw [includesFold_append_newline _ hp hne, includesFold_append_newline _ hp hne, includesFold_append_newline _ hp hne, includesFold_append_newline _ hp hne]
    rw [includesFold_of_isPlainBody b1 h1 "formulas" ["FORMULAS & EQUATIONS", "📐", "FORMULAS"] "FORMULAS & EQUATIONS" (by decide) (by decide),
      includesFold_of_isPlainBody b2 h2 "formulas" ["FORMULAS & EQUATIONS", "📐", "FORMULAS"] "FORMULAS & EQUATIONS" (by decide) (by decide)]
    decide
  have e : "1. 📋 EXECUTIVE SUMMARY".toList ++ '\n' :: (b1.toList ++ '\n' :: ("2. 🎯 KEY CONCEPTS".toList ++ '\n' :: (b2.toList ++ '\n' :: ("3. 📐 ".toList)))) ++ "FORMULAS & EQUATIONS".toList.dropLast
      = "1. 📋 EXECUTIVE SUMMARY".toList ++ '\n' :: (b1.toList ++ '\n' :: ("2. 🎯 KEY CONCEPTS".toList ++ '\n' :: (b2.toList ++ '\n' :: ("3. 📐 ".toList ++ "FORMULAS & EQUATIONS".toList.dropLast)))) := by
    simp only [List.append_assoc, List.cons_append]
  refine extractSection_plain (promptLayout b1 b2 b3 b4 b5 b6 b7) "FORMULAS & EQUATIONS" ["📐", "FORMULAS"]
    ("1. 📋 EXECUTIVE SUMMARY".toList ++ '\n' :: (b1.toList ++ '\n' :: ("2. 🎯 KEY CONCEPTS".toList ++ '\n' :: (b2.toList ++ '\n' :: ("3. 📐 ".toList)))))
    ('\n' :: ("4. 📖 DEFINITIONS & TERMINOLOGY".toList ++ '\n' :: (b4.toList ++ '\n' :: ("5. ❓ PRACTICE QUESTIONS".toList ++ '\n' :: (b5.toList ++ '\n' :: ("6. ⚡ QUICK REVIEW POINTS".toList ++ '\n' :: (b6.toList ++ '\n' :: ("7. 💡 STUDY TIPS".toList ++ '\n' :: b7.toList)))))))) b3 ?_ (e ▸ hf) h3 (Or.inr ⟨_, rfl⟩) rfl
  simp [promptLayout]

set_option maxRecDepth 100000 in
/-- The section `definitions` of a response in the layout of the notes prompt with plain bodies. -/
theorem promptLayout_definitions (b1 b2 b3 b4 b5 b6 b7 : String)
    (h1 : isPlainBody b1 = true) (h2 : isPlainBody b2 = true) (h3 : isPlainBody b3 = true) (h4 : isPlainBody b4 = true) :
    extractSection (promptLayout b1 b2 b3 b4 b5 b6 b7) ["DEFINITIONS & TERMINOLOGY", "📖", "DEFINITIONS"]
      = jsTrim ("DEFINITIONS & TERMINOLOGY" ++ "\n" ++ b4) := by
  have hp : ∀ c, c ∈ "DEFINITIONS & TERMINOLOGY".toList → sameLetter c '\n' = false := by decide
  have hne : "DEFINITIONS & TERMINOLOGY".toList ≠ [] := by decide
  have hf : includesFold ("1. 📋 EXECUTIVE SUMMARY".toList ++ '\n' :: (b1.toList ++ '\n' :: ("2. 🎯 KEY CONCEPTS".toList ++ '\n' :: (b2.toList ++ '\n' :: ("3. 📐 FORMULAS & EQUATIONS".toList ++ '\n' :: (b3.toList ++ '\n' :: ("4. 📖 ".toList ++ "DEFINITIONS & TERMINOLOGY".toList.dropLast)))))))
      "DEFINITIONS & TERMINOLOGY".toList = false := by
    rw [includesFold_append_newline _ hp hne, includesFold_append_newline _ hp hne, includesFold_append_newline _ hp hne, includesFold_append_newline _ hp hne, includesFold_append_newline _ hp hne, includesFold_append_newline _ hp hne]
    rw [includesFold_of_isPlainBody b1 h1 "definitions" ["DEFINITIONS & TERMINOLOGY", "📖", "DEFINITIONS"] "DEFINITIONS & TERMINOLOGY" (by decide) (by decide),
      includesFold_of_isPlainBody b2 h2 "definitions" ["DEFINITIONS & TERMINOLOGY", "📖", "DEFINITIONS"] "DEFINITIONS & TERMINOLOGY" (by decide) (by decide),
      includesFold_of_isPlainBody b3 h3 "definitions" ["DEFINITIONS & TERMINOLOGY", "📖", "DEFINITIONS"] "DEFINITIONS & TERMINOLOGY" (by decide) (by decide)]
    decide
  have e : "1. 📋 EXECUTIVE SUMMARY".toList ++ '\n' :: (b1.toList ++ '\n' :: ("2. 🎯 KEY CONCEPTS".toList ++ '\n' :: (b2.toList ++ '\n' :: ("3. 📐 FORMULAS & EQUATIONS".toList ++ '\n' :: (b3.toList ++ '\n' :: ("4. 📖 ".toList)))))) ++ "DEFINITIONS & TERMINOLOGY".toList.dropLast
      = "1. 📋 EXECUTIVE SUMMARY".toList ++ '\n' :: (b1.toList ++ '\n' :: ("2. 🎯 KEY CONCEPTS".toList ++ '\n' :: (b2.toList ++ '\n' :: ("3. 📐 FORMULAS & EQUATIONS".toList ++ '\n' :: (b3.toList ++ '\n' :: ("4. 📖 ".toList ++ "DEFINITIONS & TERMINOLOGY".toList.dropLast)))))) := by
    simp only [List.append_assoc, List.cons_append]
  refine extractSection_plain (promptLayout b1 b2 b3 b4 b5 b6 b7) "DEFINITIONS & TERMINOLOGY" ["📖", "DEFINITIONS"]
    ("1. 📋 EXECUTIVE SUMMARY".toList ++ '\n' :: (b1.toList ++ '\n' :: ("2. 🎯 KEY CONCEPTS".toList ++ '\n' :: (b2.toList ++ '\n' :: ("3. 📐 FORMULAS & EQUATIONS".toList ++ '\n' :: (b3.toList ++ '\n' :: ("4. 📖 ".toList)))))))
    ('\n' :: ("5. ❓ PRACTICE QUESTIONS".toList ++ '\n' :: (b5.toList ++ '\n' :: ("6. ⚡ QUICK REVIEW POINTS".toList ++ '\n' :: (b6.toList ++ '\n' :: ("7. 💡 STUDY TIPS".toList ++ '\n' :: b7.toList)))))) b4 ?_ (e ▸ hf) h4 (Or.inr ⟨_, rfl⟩) rfl
  simp [promptLayout]

set_option maxRecDepth 100000 in
/-- The section `questions` of a response in the layout of the notes prompt with plain bodies. -/
theorem promptLayout_questions (b1 b2 b3 b4 b5 b6 b7 : String)
    (h1 : isPlainBody b1 = true) (h2 : isPlainBody b2 = true) (h3 : isPlainBody b3 = true) (h4 : isPlainBody b4 = true) (h5 : isPlainBody b5 = true) :
    extractSection (promptLayout b1 b2 b3 b4 b5 b6 b7) ["PRACTICE QUESTIONS", "❓"]
      = jsTrim ("PRACTICE QUESTIONS" ++ "\n" ++ b5) := by
  have hp : ∀ c, c ∈ "PRACTICE QUESTIONS".toList → sameLetter c '\n' = false := by decide
  have hne : "PRACTICE QUESTIONS".toList ≠ [] := by decide
  have hf : includesFold ("1. 📋 EXECUTIVE SUMMARY".toList ++ '\n' :: (b1.toList ++ '\n' :: ("2. 🎯 KEY CONCEPTS".toList ++ '\n' :: (b2.toList ++ '\n' :: ("3. 📐 FORMULAS & EQUATIONS".toList ++ '\n' :: (b3.toList ++ '\n' :: ("4. 📖 DEFINITIONS & TERMINOLOGY".toList ++ '\n' :: (b4.toList ++ '\n' :: ("5. ❓ ".toList ++ "PRACTICE QUESTIONS".toList.dropLast)))))))))
      "PRACTICE QUESTIONS".toList = false := by
    rw [includesFold_append_newline _ hp hne, includesFold_append_newline _ hp hne, includesFold_append_newline _ hp hne, includesFold_append_newline _ hp hne, includesFold_append_newline _ hp hne, includesFold_append_newline _ hp hne, includesFold_append_newline _ hp hne, includesFold_append_newline _ hp hne]
    rw [includesFold_of_isPlainBody b1 h1 "questions" ["PRACTICE QUESTIONS", "❓"] "PRACTICE QUESTIONS" (by decide) (by decide),
      includesFold_of_isPlainBody b2 h2 "questions" ["PRACTICE QUESTIONS", "❓"] "PRACTICE QUESTIONS" (by decide) (by decide),
      includesFold_of_isPlainBody b3 h3 "questions" ["PRACTICE QUESTIONS", "❓"] "PRACTICE QUESTIONS" (by decide) (by decide),
      includesFold_of_isPlainBody b4 h4 "questions" ["PRACTICE QUESTIONS", "❓"] "PRACTICE QUESTIONS" (by decide) (by decide)]
    decide
  have e : "1. 📋 EXECUTIVE SUMMARY".toList ++ '\n' :: (b1.toList ++ '\n' :: ("2. 🎯 KEY CONCEPTS".toList ++ '\n' :: (b2.toList ++ '\n' :: ("3. 📐 FORMULAS & EQUATIONS".toList ++ '\n' :: (b3.toList ++ '\n' :: ("4. 📖 DEFINITIONS & TERMINOLOGY".toList ++ '\n' :: (b4.toList ++ '\n' :: ("5. ❓ ".toList)))))))) ++ "PRACTICE QUESTIONS".toList.dropLast
      = "1. 📋 EXECUTIVE SUMMARY".toList ++ '\n' :: (b1.toList ++ '\n' :: ("2. 🎯 KEY CONCEPTS".toList ++ '\n' :: (b2.toList ++ '\n' :: ("3. 📐 FORMULAS & EQUATIONS".toList ++ '\n' :: (b3.toList ++ '\n' :: ("4. 📖 DEFINITIONS & TERMINOLOGY".toList ++ '\n' :: (b4.toList ++ '\n' :: ("5. ❓ ".toList ++ "PRACTICE QUESTIONS".toList.dropLast)))))))) := by
    simp only [List.append_assoc, List.cons_append]
  refine extractSection_plain (promptLayout b1 b2 b3 b4 b5 b6 b7) "PRACTICE QUESTIONS" ["❓"]
    ("1. 📋 EXECUTIVE SUMMARY".toList ++ '\n' :: (b1.toList ++ '\n' :: ("2. 🎯 KEY CONCEPTS".toList ++ '\n' :: (b2.toList ++ '\n' :: ("3. 📐 FORMULAS & EQUATIONS".toList ++ '\n' :: (b3.toList ++ '\n' :: ("4. 📖 DEFINITIONS & TERMINOLOGY".toList ++ '\n' :: (b4.toList ++ '\n' :: ("5. ❓ ".toList)))))))))
    ('\n' :: ("6. ⚡ QUICK REVIEW POINTS".toList ++ '\n' :: (b6.toList ++ '\n' :: ("7. 💡 STUDY TIPS".toList ++ '\n' :: b7.toList)))) b5 ?_ (e ▸ hf) h5 (Or.inr ⟨_, rfl⟩) rfl
  simp [promptLayout]

set_option maxRecDepth 100000 in
/-- The section `reviewPoints` of a response in the layout of the notes prompt with plain bodies. -/
theorem promptLayout_reviewPoints (b1 b2 b3 b4 b5 b6 b7 : String)
    (h1 : isPlainBody b1 = true) (h2 : isPlainBody b2 = true) (h3 : isPlainBody b3 = true) (h4 : isPlainBody b4 = true) (h5 : isPlainBody b5 = true) (h6 : isPlainBody b6 = true) :
    extractSection (promptLayout b1 b2 b3 b4 b5 b6 b7) ["QUICK REVIEW POINTS", "⚡"]
      = jsTrim ("QUICK REVIEW POINTS" ++ "\n" ++ b6) := by
  have hp : ∀ c, c ∈ "QUICK REVIEW POINTS".toList → sameLetter c '\n' = false := by decide
  have hne : "QUICK REVIEW POINTS".toList ≠ [] := by decide
  have hf : includesFold ("1. 📋 EXECUTIVE SUMMARY".toList ++ '\n' :: (b1.toList ++ '\n' :: ("2. 🎯 KEY CONCEPTS".toList ++ '\n' :: (b2.toList ++ '\n' :: ("3. 📐 FORMULAS & EQUATIONS".toList ++ '\n' :: (b3.toList ++ '\n' :: ("4. 📖 DEFINITIONS & TERMINOLOGY".toList ++ '\n' :: (b4.toList ++ '\n' :: ("5. ❓ PRACTICE QUESTIONS".toList ++ '\n' :: (b5.toList ++ '\n' :: ("6. ⚡ ".toList ++ "QUICK REVIEW POINTS".toList.dropLast)))))))))))
      "QUICK REVIEW POINTS".toList = false := by
    rw [includesFold_append_newline _ hp hne, includesFold_append_newline _ hp hne, includesFold_append_newline _ hp hne, includesFold_append_newline _ hp hne, includesFold_append_newline _ hp hne, includesFold_append_newline _ hp hne, includesFold_append_newline _ hp hne, includesFold_append_newline _ hp hne, includesFold_append_newline _ hp hne, includesFold_append_newline _ hp hne]
    rw [includesFold_of_isPlainBody b1 h1 "reviewPoints" ["QUICK REVIEW POINTS", "⚡"] "QUICK REVIEW POINTS" (by decide) (by decide),
      includesFold_of_isPlainBody b2 h2 "reviewPoints" ["QUICK REVIEW POINTS", "⚡"] "QUICK REVIEW POINTS" (by decide) (by decide),
      includesFold_of_isPlainBody b3 h3 "reviewPoints" ["QUICK REVIEW POINTS", "⚡"] "QUICK REVIEW POINTS" (by decide) (by decide),
      includesFold_of_isPlainBody b4 h4 "reviewPoints" ["QUICK REVIEW POINTS", "⚡"] "QUICK REVIEW POINTS" (by decide) (by decide),
      includesFold_of_isPlainBody b5 h5 "reviewPoints" ["QUICK REVIEW POINTS", "⚡"] "QUICK REVIEW POINTS" (by decide) (by decide)]
    decide
  have e : "1. 📋 EXECUTIVE SUMMARY".toList ++ '\n' :: (b1.toList ++ '\n' :: ("2. 🎯 KEY CONCEPTS".toList ++ '\n' :: (b2.toList ++ '\n' :: ("3. 📐 FORMULAS & EQUATIONS".toList ++ '\n' :: (b3.toList ++ '\n' :: ("4. 📖 DEFINITIONS & TERMINOLOGY".toList ++ '\n' :: (b4.toList ++ '\n' :: ("5. ❓ PRACTICE QUESTIONS".toList ++ '\n' :: (b5.toList ++ '\n' :: ("6. ⚡ ".toList)))))))))) ++ "QUICK REVIEW POINTS".toList.dropLast
      = "1. 📋 EXECUTIVE SUMMARY".toList ++ '\n' :: (b1.toList ++ '\n' :: ("2. 🎯 KEY CONCEPTS".toList ++ '\n' :: (b2.toList ++ '\n' :: ("3. 📐 FORMULAS & EQUATIONS".toList ++ '\n' :: (b3.toList ++ '\n' :: ("4. 📖 DEFINITIONS & TERMINOLOGY".toList ++ '\n' :: (b4.toList ++ '\n' :: ("5. ❓ PRACTICE QUESTIONS".toList ++ '\n' :: (b5.toList ++ '\n' :: ("6. ⚡ ".toList ++ "QUICK REVIEW POINTS".toList.dropLast)))))))))) := by
    simp only [List.append_assoc, List.cons_append]
  refine extractSection_plain (promptLayout b1 b2 b3 b4 b5 b6 b7) "QUICK REVIEW POINTS" ["⚡"]
    ("1. 📋 EXECUTIVE SUMMARY".toList ++ '\n' :: (b1.toList ++ '\n' :: ("2. 🎯 KEY CONCEPTS".toList ++ '\n' :: (b2.toList ++ '\n' :: ("3. 📐 FORMULAS & EQUATIONS".toList ++ '\n' :: (b3.toList ++ '\n' :: ("4. 📖 DEFINITIONS & TERMINOLOGY".toList ++ '\n' :: (b4.toList ++ '\n' :: ("5. ❓ PRACTICE QUESTIONS".toList ++ '\n' :: (b5.toList ++ '\n' :: ("6. ⚡ ".toList)))))))))))
    ('\n' :: ("7. 💡 STUDY TIPS".toList ++ '\n' :: b7.toList)) b6 ?_ (e ▸ hf) h6 (Or.inr ⟨_, rfl⟩) rfl
  simp [promptLayout]

set_option maxRecDepth 100000 in
/-- The section `studyTips` of a response in the layout of the notes prompt with plain bodies. -/
theorem promptLayout_studyTips (b1 b2 b3 b4 b5 b6 b7 : String)
    (h1 : isPlainBody b1 = true) (h2 : isPlainBody b2 = true) (h3 : isPlainBody b3 = true) (h4 : isPlainBody b4 = true) (h5 : isPlainBody b5 = true) (h6 : isPlainBody b6 = true) (h7 : isPlainBody b7 = true) :
    extractSection (promptLayout b1 b2 b3 b4 b5 b6 b7) ["STUDY TIPS", "💡"]
      = jsTrim ("STUDY TIPS" ++ "\n" ++ b7) := by
  have hp : ∀ c, c ∈ "STUDY TIPS".toList → sameLetter c '\n' = false := by decide
  have hne : "STUDY TIPS".toList ≠ [] := by decide
  have hf : includesFold ("1. 📋 EXECUTIVE SUMMARY".toList ++ '\n' :: (b1.toList ++ '\n' :: ("2. 🎯 KEY CONCEPTS".toList ++ '\n' :: (b2.toList ++ '\n' :: ("3. 📐 FORMULAS & EQUATIONS".toList ++ '\n' :: (b3.toList ++ '\n' :: ("4. 📖 DEFINITIONS & TERMINOLOGY".toList ++ '\n' :: (b4.toList ++ '\n' :: ("5. ❓ PRACTICE QUESTIONS".toList ++ '\n' :: (b5.toList ++ '\n' :: ("6. ⚡ QUICK REVIEW POINTS".toList ++ '\n' :: (b6.toList ++ '\n' :: ("7. 💡 ".toList ++ "STUDY TIPS".toList.dropLast)))))))))))))
      "STUDY TIPS".toList = false := by
    rw [includesFold_append_newline _ hp hne, includesFold_append_newline _ hp hne, includesFold_append_newline _ hp hne, includesFold_append_newline _ hp hne, includesFold_append_newline _ hp hne, includesFold_append_newline _ hp hne, includesFold_append_newline _ hp hne, includesFold_append_newline _ hp hne, includesFold_append_newline _ hp hne, includesFold_append_newline _ hp hne, includesFold_append_newline _ hp hne, includesFold_append_newline _ hp hne]
    rw [includesFold_of_isPlainBody b1 h1 "studyTips" ["STUDY TIPS", "💡"] "STUDY TIPS" (by decide) (by decide),
      includesFold_of_isPlainBody b2 h2 "studyTips" ["STUDY TIPS", "💡"] "STUDY TIPS" (by decide) (by decide),
      includesFold_of_isPlainBody b3 h3 "studyTips" ["STUDY TIPS", "💡"] "STUDY TIPS" (by decide) (by decide),
      includesFold_of_isPlainBody b4 h4 "studyTips" ["STUDY TIPS", "💡"] "STUDY TIPS" (by decide) (by decide),
      includesFold_of_isPlainBody b5 h5 "studyTips" ["STUDY TIPS", "💡"] "STUDY TIPS" (by decide) (by decide),
      includesFold_of_isPlainBody b6 h6 "studyTips" ["STUDY TIPS", "💡"] "STUDY TIPS" (by decide) (by decide)]
    decide
  have e : "1. 📋 EXECUTIVE SUMMARY".toList ++ '\n' :: (b1.toList ++ '\n' :: ("2. 🎯 KEY CONCEPTS".toList ++ '\n' :: (b2.toList ++ '\n' :: ("3. 📐 FORMULAS & EQUATIONS".toList ++ '\n' :: (b3.toList ++ '\n' :: ("4. 📖 DEFINITIONS & TERMINOLOGY".toList ++ '\n' :: (b4.toList ++ '\n' :: ("5. ❓ PRACTICE QUESTIONS".toList ++ '\n' :: (b5.toList ++ '\n' :: ("6. ⚡ QUICK REVIEW POINTS".toList ++ '\n' :: (b6.toList ++ '\n' :: ("7. 💡 ".toList)))))))))))) ++ "STUDY TIPS".toList.dropLast
      = "1. 📋 EXECUTIVE SUMMARY".toList ++ '\n' :: (b1.toList ++ '\n' :: ("2. 🎯 KEY CONCEPTS".toList ++ '\n' :: (b2.toList ++ '\n' :: ("3. 📐 FORMULAS & EQUATIONS".toList ++ '\n' :: (b3.toList ++ '\n' :: ("4. 📖 DEFINITIONS & TERMINOLOGY".toList ++ '\n' :: (b4.toList ++ '\n' :: ("5. ❓ PRACTICE QUESTIONS".toList ++ '\n' :: (b5.toList ++ '\n' :: ("6. ⚡ QUICK REVIEW POINTS".toList ++ '\n' :: (b6.toList ++ '\n' :: ("7. 💡 ".toList ++ "STUDY TIPS".toList.dropLast)))))))))))) := by
    simp only [List.append_assoc, List.cons_append]
  refine extractSection_plain (promptLayout b1 b2 b3 b4 b5 b6 b7) "STUDY TIPS" ["💡"]
    ("1. 📋 EXECUTIVE SUMMARY".toList ++ '\n' :: (b1.toList ++ '\n' :: ("2. 🎯 KEY CONCEPTS".toList ++ '\n' :: (b2.toList ++ '\n' :: ("3. 📐 FORMULAS & EQUATIONS".toList ++ '\n' :: (b3.toList ++ '\n' :: ("4. 📖 DEFINITIONS & TERMINOLOGY".toList ++ '\n' :: (b4.toList ++ '\n' :: ("5. ❓ PRACTICE QUESTIONS".toList ++ '\n' :: (b5.toList ++ '\n' :: ("6. ⚡ QUICK REVIEW POINTS".toList ++ '\n' :: (b6.toList ++ '\n' :: ("7. 💡 ".toList)))))))))))))
    ([]) b7 ?_ (e ▸ hf) h7 (Or.inl rfl) rfl
  simp [promptLayout]

set_option maxRecDepth 100000 in
/-- C28 (counterexample): in the response with the seven headings of the notes prompt in order,
each followed by a newline and its body, every body is free of section markers and has no
newline at all (so no newline followed by `#` and no newline followed by a digit and a dot);
the first body is the numbered line `1. Cells make ATP`.  The parser returns for `summary` the
heading phrase alone, not the phrase followed by the body: the newline after the heading and
the `1.` that begins the body end the section. -/
theorem promptLayout_numbered_body :
    (∀ b ∈ ["1. Cells make ATP", "- ATP synthase", "None covered", "ATP: a molecule", "What is ATP?", "ATP stores energy", "Draw the cycle"],
      containsSectionMarker b.toList = false ∧ '\n' ∉ b.toList) ∧
    getMember (parseNotesResponse (promptLayout "1. Cells make ATP" "- ATP synthase" "None covered" "ATP: a molecule" "What is ATP?" "ATP stores energy" "Draw the cycle")) "summary"
      = some "EXECUTIVE SUMMARY" ∧
    jsTrim ("EXECUTIVE SUMMARY" ++ "\n" ++ "1. Cells make ATP")
      = "EXECUTIVE SUMMARY\n1. Cells make ATP" := by
  decide

/-- C28 (amended): for a response made of the seven headings of `generateNotesPrompt` in
order, each followed by a newline and a body that contains no section marker in any letter
case, no newline followed by `#`, no newline followed by a digit and a dot, and that does not
itself begin with `#` or with a digit and a dot, `parseNotesResponse` returns for every one of
the seven keys the heading phrase of that section, a newline and its own body, trimmed. -/
theorem parseNotesResponse_promptLayout (b1 b2 b3 b4 b5 b6 b7 : String)
    (h1 : isPlainBody b1 = true) (h2 : isPlainBody b2 = true) (h3 : isPlainBody b3 = true) (h4 : isPlainBody b4 = true) (h5 : isPlainBody b5 = true) (h6 : isPlainBody b6 = true) (h7 : isPlainBody b7 = true) :
    parseNotesResponse (promptLayout b1 b2 b3 b4 b5 b6 b7) =
      [("summary", jsTrim ("EXECUTIVE SUMMARY" ++ "\n" ++ b1)),
       ("concepts", jsTrim ("KEY CONCEPTS" ++ "\n" ++ b2)),
       ("formulas", jsTrim ("FORMULAS & EQUATIONS" ++ "\n" ++ b3)),
       ("definitions", jsTrim ("DEFINITIONS & TERMINOLOGY" ++ "\n" ++ b4)),
       ("questions", jsTrim ("PRACTICE QUESTIONS" ++ "\n" ++ b5)),
       ("reviewPoints", jsTrim ("QUICK REVIEW POINTS" ++ "\n" ++ b6)),
       ("studyTips", jsTrim ("STUDY TIPS" ++ "\n" ++ b7))] := by
  unfold parseNotesResponse
  rw [promptLayout_summary b1 b2 b3 b4 b5 b6 b7 h1,
    promptLayout_concepts b1 b2 b3 b4 b5 b6 b7 h1 h2,
    promptLayout_formulas b1 b2 b3 b4 b5 b6 b7 h1 h2 h3,
    promptLayout_definitions b1 b2 b3 b4 b5 b6 b7 h1 h2 h3 h4,
    promptLayout_questions b1 b2 b3 b4 b5 b6 b7 h1 h2 h3 h4 h5,
    promptLayout_reviewPoints b1 b2 b3 b4 b5 b6 b7 h1 h2 h3 h4 h5 h6,
    promptLayout_studyTips b1 b2 b3 b4 b5 b6 b7 h1 h2 h3 h4 h5 h6 h7]

set_option maxRecDepth 100000 in
/-- The theorem `parseNotesResponse_promptLayout` at seven plain bodies. -/
theorem parseNotesResponse_promptLayout_witness :
    isPlainBody "Cells make ATP" = true ∧ isPlainBody "- ATP synthase" = true ∧ isPlainBody "None covered" = true ∧ isPlainBody "ATP: a molecule" = true ∧ isPlainBody "What is ATP?" = true ∧ isPlainBody "ATP stores energy" = true ∧ isPlainBody "Draw the cycle" = true ∧
    parseNotesResponse (promptLayout "Cells make ATP" "- ATP synthase" "None covered" "ATP: a molecule" "What is ATP?" "ATP stores energy" "Draw the cycle") =
      [("summary", jsTrim ("EXECUTIVE SUMMARY" ++ "\n" ++ "Cells make ATP")),
       ("concepts", jsTrim ("KEY CONCEPTS" ++ "\n" ++ "- ATP synthase")),
       ("formulas", jsTrim ("FORMULAS & EQUATIONS" ++ "\n" ++ "None covered")),
       ("definitions", jsTrim ("DEFINITIONS & TERMINOLOGY" ++ "\n" ++ "ATP: a molecule")),
       ("questions", jsTrim ("PRACTICE QUESTIONS" ++ "\n" ++ "What is ATP?")),
       ("reviewPoints", jsTrim ("QUICK REVIEW POINTS" ++ "\n" ++ "ATP stores energy")),
       ("studyTips", jsTrim ("STUDY TIPS" ++ "\n" ++ "Draw the cycle"))] :=
  ⟨by decide, by decide, by decide, by decide, by decide, by decide, by decide,
    parseNotesResponse_promptLayout "Cells make ATP" "- ATP synthase" "None covered" "ATP: a molecule" "What is ATP?" "ATP stores energy" "Draw the cycle"
      (by decide) (by decide) (by decide) (by decide) (by decide) (by decide) (by decide)⟩

end Idara
